import Mathlib

/-!
# Antha liquid-handling instruction compiler: embedding and verified properties

Shallow embedding of the liquid-handling driver
(`antha/anthalib/driver/liquidhandling/compositerobotinstruction.go`,
`antha/anthalib/driver/liquidhandling/lhpolicy.go`, `antha/anthalib/wtype/lhtypes.go`).

Conventions of the embedding:
* Go `float64` values are embedded as the rationals (`ℚ`) that they denote. The arithmetic
  of `TransferVolumes` on them (two divisions and a sum) is the exact operation followed by
  the rounding of IEEE 754 binary64, `roundFloat64`; the difference computed in
  `ChooseChannel`, the sums of the wells and the operations of the package `wunit`, which is
  not in the source tree, are exact. Infinities, NaN and the bounds of the exponent are
  outside the embedding, so every division below has a non-zero divisor in the statements
  that use it.
* Go `int` is embedded as `Int`; a `for i := 0; i < n; i++` loop runs `n.toNat` times.
* A Go `panic` is embedded as `Except.error` carrying the reason.
* Go slices and pointers to volumes are embedded by value; pointer identity is kept only
  where the source compares pointers (channel parameters).
-/

namespace Antha

/-- Reasons for which the source panics. -/
inductive Fault
  | belowMinVol
  | noHeadChosen
  | adaptorChangeNeeded
  | noTipTypeFound
  | noTipsLeft
  | noRoomForTips
  | indexOutOfRange
  | nilDereference
  | typeAssertion
  | nilMapWrite
  | negativeVolume
  | makeSliceNegative
  | outOfFuel
  | nonsensicalCondition
  | emptyCategory
deriving DecidableEq, Repr

deriving instance DecidableEq for Except

/-! ## Package `wunit` (not part of the source tree) -/

/-- Modelled from the spec: `wunit.Volume`, which the source imports but which is not in the
source tree. The spec says a volume "carries value + unit" and is converted "to another unit by
SI-prefix scaling". `Mvalue` is the raw value, `Munit` the decimal exponent of the SI prefix of
the unit relative to the litre (`ul` is `-6`, `ml` is `-3`, `l` is `0`). -/
structure Volume where
  Mvalue : ℚ
  Munit : Int
deriving DecidableEq, Repr

/-- The microlitre, the canonical unit of the compiler. -/
def ul : Int := -6

/-- The millilitre. -/
def ml : Int := -3

/-- The nanolitre. -/
def nl : Int := -9

/-- Modelled from the spec: `wunit.ParsePrefixedUnit`, from the symbol of a unit of volume to
the unit; a symbol without a known SI prefix is read as the litre. -/
def ParsePrefixedUnit (symbol : String) : Int :=
  if symbol = "ul" then ul else if symbol = "ml" then ml else if symbol = "nl" then nl else 0

/-- Modelled from the spec: `wunit.NewVolume(value, unit)`. -/
def NewVolume (v : ℚ) (u : Int) : Volume := ⟨v, u⟩

/-- Modelled from the spec: `RawValue()`, the value in the volume's own unit. -/
def Volume.RawValue (v : Volume) : ℚ := v.Mvalue

/-- Modelled from the spec: `Unit()`, the SI-prefixed unit of the volume. -/
def Volume.Unit (v : Volume) : Int := v.Munit

/-- Modelled from the spec: `ConvertTo(unit)`, the value of the volume expressed in another
SI-prefixed unit ("conversion to another unit by SI-prefix scaling"). -/
def Volume.ConvertTo (v : Volume) (u : Int) : ℚ := v.Mvalue * (10 : ℚ) ^ (v.Munit - u)

/-- Modelled from the spec: `SIValue()`, the physical volume in litres. -/
def Volume.SIValue (v : Volume) : ℚ := v.ConvertTo 0

/-- Modelled from the spec: `CopyVolume`; volumes are embedded by value. -/
def CopyVolume (v : Volume) : Volume := ⟨v.Mvalue, v.Munit⟩

/-- Modelled from the spec: `LessThan`, "signed comparison" of two volumes as physical volumes;
the argument is converted to the receiver's unit. -/
def Volume.LessThan (v w : Volume) : Bool := decide (v.RawValue < w.ConvertTo v.Munit)

/-- Modelled from the spec: `GreaterThan`. -/
def Volume.GreaterThan (v w : Volume) : Bool := decide (w.ConvertTo v.Munit < v.RawValue)

/-- Modelled from the spec: `EqualTo`. -/
def Volume.EqualTo (v w : Volume) : Bool := decide (v.RawValue = w.ConvertTo v.Munit)

/-- Modelled from the spec: `LessThanFloat(f)`; the spec reads the planner's threshold `0.001`
as microlitres ("remaining volume >= 1 nanolitre (i.e. > 0.001 uL)"). -/
def Volume.LessThanFloat (v : Volume) (f : ℚ) : Bool := decide (v.ConvertTo ul < f)

/-- Modelled from the spec: `Add`, the sum in the receiver's unit. -/
def Volume.Add (v w : Volume) : Volume := ⟨v.Mvalue + w.ConvertTo v.Munit, v.Munit⟩

/-- Modelled from the spec: `Subtract`; "a volume is never negative; subtracting past zero is a
fault". -/
def Volume.Subtract (v w : Volume) : Except Fault Volume :=
  if v.Mvalue < w.ConvertTo v.Munit then .error .negativeVolume
  else .ok ⟨v.Mvalue - w.ConvertTo v.Munit, v.Munit⟩

/-- Go's `math.Modf`, integer part: truncation towards zero. -/
def Modf (x : ℚ) : Int := if 0 ≤ x then ⌊x⌋ else ⌈x⌉

/-! ## Binary floating point (`float64`) -/

/-- The integer part of the binary logarithm of a positive number, by halving; `fuel` bounds
the number of halvings. -/
def log2Fuel : Nat → Nat → Nat
  | 0, _ => 0
  | fuel + 1, n => if 2 ≤ n then log2Fuel fuel (n / 2) + 1 else 0

/-- The integer part of the binary logarithm of a positive number. -/
def log2 (n : Nat) : Nat := log2Fuel n n

/-- The power `2 ^ e` of two, for an integer exponent. -/
def pow2 (e : Int) : ℚ :=
  if 0 ≤ e then ((2 ^ e.toNat : Nat) : ℚ) else 1 / ((2 ^ (-e).toNat : Nat) : ℚ)

/-- The binary exponent of a rational other than zero: the `e` with
`2 ^ e ≤ |x| < 2 ^ (e + 1)`. It is the difference of the binary logarithms of the numerator
and the denominator, or one less. -/
def binaryExponent (x : ℚ) : Int :=
  if pow2 ((log2 x.num.natAbs : Int) - (log2 x.den : Int)) ≤ |x| then
    (log2 x.num.natAbs : Int) - (log2 x.den : Int)
  else (log2 x.num.natAbs : Int) - (log2 x.den : Int) - 1

/-- Rounding to the nearest integer, a tie going to the even one. -/
def roundHalfEven (x : ℚ) : Int :=
  if x - ⌊x⌋ < 1 / 2 then ⌊x⌋
  else if 1 / 2 < x - ⌊x⌋ then ⌊x⌋ + 1
  else if ⌊x⌋ % 2 = 0 then ⌊x⌋ else ⌊x⌋ + 1

/-- The `float64` nearest to a real result: rounding to 53 significant binary digits, a tie
going to the even significand (IEEE 754 binary64, the arithmetic of Go's `float64`). The
values of type `float64` are embedded as the rationals that they denote, and an operation of
the source on `float64` is the exact operation followed by this rounding. The range of the
exponent is not bounded: the result is that of the source as long as it is a normal number
(of magnitude between `2 ^ -1022` and `2 ^ 1024`); overflow to an infinity and the coarser
rounding of subnormal numbers are not embedded. -/
def roundFloat64 (x : ℚ) : ℚ :=
  if x = 0 then 0
  else (roundHalfEven (x / pow2 (binaryExponent x - 52)) : ℚ) * pow2 (binaryExponent x - 52)

/-- Go's conversion `int(x)` of a `float64`: truncation towards zero. A value outside the
range of `int`, for which Go leaves the result to the implementation, is not embedded. -/
def intOfFloat64 (x : ℚ) : Int := if 0 ≤ x then ⌊x⌋ else ⌈x⌉

/-! ## Volume splitting (`compositerobotinstruction.go`) -/

/-- `TransferVolumes(Vol, Min, Max)` of the source. The values are `float64`: the quotient
`vol / max`, the sum `n += 1` and the quotient `vol / n` are rounded (`roundFloat64`),
`math.Modf` is exact, and the loop runs `int(n)` times. A maximum of zero, with which the
source divides by zero, is not embedded. -/
def TransferVolumes (Vol Min Max : Volume) : Except Fault (List Volume) :=
  let vol := Vol.ConvertTo Min.Unit
  let min := Min.RawValue
  let max := Max.RawValue
  if vol < min then .error .belowMinVol
  else if vol < max then .ok [Vol]
  else
    let n : ℚ := roundFloat64 ((Modf (roundFloat64 (vol / max)) : ℚ) + 1)
    .ok (List.replicate (intOfFloat64 n).toNat (NewVolume (roundFloat64 (vol / n)) Vol.Unit))

/-- Sum of a list of volumes as physical volumes (litres). -/
def sumSI (l : List Volume) : ℚ := (l.map Volume.SIValue).sum

/-! ## Hardware model (`wtype/lhtypes.go`) -/

/-- Modelled from the spec: `wunit.FlowRate` (value + unit), not in the source tree; the
compiler only stores flow rates. -/
structure FlowRate where
  Mvalue : ℚ
  Munit : String
deriving DecidableEq, Repr

/-- Channel orientation `LHVChannel` (vertical). -/
def LHVChannel : Int := 0

/-- Channel orientation `LHHChannel` (horizontal). -/
def LHHChannel : Int := 1

/-- `wtype.LHChannelParameter`. -/
structure LHChannelParameter where
  ID : String
  Name : String
  Minvol : Volume
  Maxvol : Volume
  Minspd : FlowRate
  Maxspd : FlowRate
  Multi : Int
  Independent : Bool
  Orientation : Int
  Head : Int
deriving DecidableEq, Repr

/-- Identity of a channel-parameter object. The source compares `*LHChannelParameter` pointers
(`channel != newchannel`): `heap n` is an object that exists before a call, `alloc n` the object
allocated by the `n`-th `ChooseChannel` call of a `Generate`. -/
inductive Addr
  | heap (n : Nat)
  | alloc (n : Nat)
deriving DecidableEq, Repr

/-- A pointer to channel parameters: the object's identity and its contents. -/
structure ChannelPtr where
  addr : Addr
  val : LHChannelParameter
deriving DecidableEq, Repr

/-- `wtype.LHTip` (the field `Type` is written `Type_`). -/
structure LHTip where
  ID : String
  Type_ : String
  Mnfr : String
  Dirty : Bool
  MaxVol : Volume
  MinVol : Volume
deriving DecidableEq, Repr

/-- `LHChannelParameter.MergeWithTip`: a copy whose range is tightened by the tip. -/
def LHChannelParameter.MergeWithTip (lhcp : LHChannelParameter) (tip : LHTip) :
    LHChannelParameter :=
  let lhcp2 := lhcp
  let lhcp2 := if tip.MinVol.GreaterThan lhcp2.Minvol then
    { lhcp2 with Minvol := CopyVolume tip.MinVol } else lhcp2
  let lhcp2 := if tip.MaxVol.LessThan lhcp2.Maxvol then
    { lhcp2 with Maxvol := CopyVolume tip.MaxVol } else lhcp2
  lhcp2

/-- `wtype.LHAdaptor`. -/
structure LHAdaptor where
  Name : String
  ID : String
  Manufacturer : String
  Params : ChannelPtr
  Ntipsloaded : Int
  Tiptypeloaded : Option LHTip
deriving DecidableEq, Repr

/-- `wtype.LHHead`. -/
structure LHHead where
  Name : String
  Manufacturer : String
  ID : String
  Adaptor : Option LHAdaptor
  Params : ChannelPtr
deriving DecidableEq, Repr

/-- `LHAdaptor.GetParams`; `fresh` is the identity given to the merged copy when one is
allocated. -/
def LHAdaptor.GetParams (lha : LHAdaptor) (fresh : Addr) : Except Fault ChannelPtr :=
  if lha.Ntipsloaded = 0 then .ok lha.Params
  else match lha.Tiptypeloaded with
    | none => .error .nilDereference
    | some tip => .ok ⟨fresh, lha.Params.val.MergeWithTip tip⟩

/-- `LHHead.GetParams`. -/
def LHHead.GetParams (lhh : LHHead) (fresh : Addr) : Except Fault ChannelPtr :=
  match lhh.Adaptor with
  | none => .ok lhh.Params
  | some a => a.GetParams fresh

/-- The tip bookkeeping of `LHProperties`, whose methods `GetCleanTips` and `DropDirtyTips` are
not in the source tree: taken as a parameter. `σ` is the state of tip boxes and tip wastes;
each operation returns `none` where the source method returns `nil` wells, and otherwise the
wells, positions and holder types together with the new state. -/
structure TipOps (σ : Type) where
  GetCleanTips : σ → String → LHChannelParameter → Bool → Int →
    Option ((List String × List String × List String) × σ)
  DropDirtyTips : σ → LHChannelParameter → Int →
    Option ((List String × List String × List String) × σ)

/-- The fields of `LHProperties` (not in the source tree) that the compiler reads: the loaded
heads, the known tip types, and the tip state. -/
structure LHProperties (σ : Type) where
  HeadsLoaded : List LHHead
  Tips : List LHTip
  tipState : σ

/-- First head of `HeadsLoaded` whose own minimum volume is at most `vol` (the first loop of
`ChooseChannel`). -/
def chooseHead (vol : Volume) : List LHHead → Option LHHead
  | [] => none
  | head :: rest =>
    if head.Params.val.Minvol.LessThan vol || head.Params.val.Minvol.EqualTo vol then some head
    else chooseHead vol rest

/-- The tip loop of `ChooseChannel`, started from the current `(tiptype, d)`. -/
def chooseTip (vol : Volume) : List LHTip → String × ℚ → String × ℚ
  | [], acc => acc
  | tip :: rest, (tiptype, d) =>
    let dif := vol.ConvertTo tip.MinVol.Unit - tip.MinVol.RawValue
    if 0 ≤ dif ∧ dif < d then chooseTip vol rest (tip.Type_, dif)
    else chooseTip vol rest (tiptype, d)

/-- `ChooseChannel(vol, prms)`; `fresh` is the identity of the parameter object the call
allocates when tips are loaded on the chosen head. -/
def ChooseChannel {σ : Type} (vol : Volume) (prms : LHProperties σ) (fresh : Addr) :
    Except Fault (ChannelPtr × String) :=
  match chooseHead vol prms.HeadsLoaded with
  | none => .error .noHeadChosen
  | some headchosen =>
    match headchosen.Adaptor with
    | none => .error .nilDereference
    | some adaptor =>
      if adaptor.Params.val.Minvol.GreaterThan vol then .error .adaptorChangeNeeded
      else
        let tiptype := (chooseTip vol prms.Tips ("", 99999)).1
        if tiptype = "" then .error .noTipTypeFound
        else (headchosen.GetParams fresh).map (fun c => (c, tiptype))

/-! ## Instructions (`compositerobotinstruction.go`) -/

/-- Modelled from the spec: the instruction tags, whose declaration is not in the source tree,
numbered in the order of the spec's list of canonical identifiers
(`TFR, SCB, MCB, SCT, MCT, SUK, BLW, RST, ASP, DSP, BLO, MIX, MMX, MOV, MRW, LOD, ULD, LDT, UDT,
SPS, SDS, PTZ, WAI, ...`). -/
def TFR : Int := 0
/-- Tag of a single-channel block. -/
def SCB : Int := 1
/-- Tag of a multi-channel block. -/
def MCB : Int := 2
/-- Tag of a single-channel transfer. -/
def SCT : Int := 3
/-- Tag of a multi-channel transfer. -/
def MCT : Int := 4
/-- Tag of a suck. -/
def SUK : Int := 5
/-- Tag of a blow. -/
def BLW : Int := 6
/-- Tag of a reset. -/
def RST : Int := 7
/-- Tag of an aspirate. -/
def ASP : Int := 8
/-- Tag of a dispense. -/
def DSP : Int := 9
/-- Tag of a blowout. -/
def BLO : Int := 10
/-- Tag of a mix. -/
def MIX : Int := 11
/-- Tag of a move-and-mix. -/
def MMX : Int := 12
/-- Tag of a move. -/
def MOV : Int := 13
/-- Tag of a raw move. -/
def MRW : Int := 14
/-- Tag of a tip load. -/
def LOD : Int := 15
/-- Tag of a tip unload. -/
def ULD : Int := 16
/-- Tag of a move-and-load-tips. -/
def LDT : Int := 17
/-- Tag of a move-and-unload-tips. -/
def UDT : Int := 18
/-- Tag of a pipette-speed setting. -/
def SPS : Int := 19
/-- Tag of a drive-speed setting. -/
def SDS : Int := 20
/-- Tag of a piston reset. -/
def PTZ : Int := 21
/-- Tag of a wait. -/
def WAI : Int := 22

/-- `TransferParams`. -/
structure TransferParams where
  What : String := ""
  PltFrom : String := ""
  PltTo : String := ""
  WellFrom : String := ""
  WellTo : String := ""
  Volume : Antha.Volume
  FPlateType : String := ""
  TPlateType : String := ""
  FVolume : Antha.Volume
  TVolume : Antha.Volume
  Channel : Option LHChannelParameter := none
deriving DecidableEq, Repr

/-- `MultiTransferParams`. -/
structure MultiTransferParams where
  What : List String := []
  PltFrom : List String := []
  PltTo : List String := []
  WellFrom : List String := []
  WellTo : List String := []
  Volume : List Antha.Volume := []
  FPlateType : List String := []
  TPlateType : List String := []
  FVolume : List Antha.Volume := []
  TVolume : List Antha.Volume := []
deriving DecidableEq, Repr

/-- `TransferInstruction`. -/
structure TransferInstruction where
  Type_ : Int := TFR
  What : List String := []
  PltFrom : List String := []
  PltTo : List String := []
  WellFrom : List String := []
  WellTo : List String := []
  Volume : List Antha.Volume := []
  FPlateType : List String := []
  TPlateType : List String := []
  FVolume : List Antha.Volume := []
  TVolume : List Antha.Volume := []
deriving DecidableEq, Repr

/-- `SingleChannelBlockInstruction`; `NewSingleChannelBlockInstruction` is the default value. -/
structure SingleChannelBlockInstruction where
  Type_ : Int := SCB
  What : List String := []
  PltFrom : List String := []
  PltTo : List String := []
  WellFrom : List String := []
  WellTo : List String := []
  Volume : List Antha.Volume := []
  FPlateType : List String := []
  TPlateType : List String := []
  FVolume : List Antha.Volume := []
  TVolume : List Antha.Volume := []
  Prms : Option LHChannelParameter := none
deriving DecidableEq, Repr

/-- `MultiChannelBlockInstruction`; `NewMultiChannelBlockInstruction` is the default value. -/
structure MultiChannelBlockInstruction where
  Type_ : Int := MCB
  What : List (List String) := []
  PltFrom : List (List String) := []
  PltTo : List (List String) := []
  WellFrom : List (List String) := []
  WellTo : List (List String) := []
  Volume : List (List Antha.Volume) := []
  FPlateType : List (List String) := []
  TPlateType : List (List String) := []
  FVolume : List (List Antha.Volume) := []
  TVolume : List (List Antha.Volume) := []
  Multi : Int := 0
  Prms : Option LHChannelParameter := none
deriving DecidableEq, Repr

/-- `SingleChannelTransferInstruction`; the volumes are pointers in the source, `nil` in a new
instruction. -/
structure SingleChannelTransferInstruction where
  Type_ : Int := SCT
  What : String := ""
  PltFrom : String := ""
  PltTo : String := ""
  WellFrom : String := ""
  WellTo : String := ""
  Volume : Option Antha.Volume := none
  FPlateType : String := ""
  TPlateType : String := ""
  FVolume : Option Antha.Volume := none
  TVolume : Option Antha.Volume := none
  Prms : Option LHChannelParameter := none
deriving DecidableEq, Repr

/-- `MultiChannelTransferInstruction`; `NewMultiChannelTransferInstruction` is the default
value. -/
structure MultiChannelTransferInstruction where
  Type_ : Int := MCT
  What : List String := []
  PltFrom : List String := []
  PltTo : List String := []
  WellFrom : List String := []
  WellTo : List String := []
  Volume : List Antha.Volume := []
  FPlateType : List String := []
  TPlateType : List String := []
  FVolume : List Antha.Volume := []
  TVolume : List Antha.Volume := []
  Multi : Int := 0
  Prms : Option LHChannelParameter := none
deriving DecidableEq, Repr

/-- `LoadTipsMoveInstruction`. -/
structure LoadTipsMoveInstruction where
  Type_ : Int := LDT
  Head : Int := 0
  Well : List String := []
  FPosition : List String := []
  FPlateType : List String := []
  Multi : Int := 0
deriving DecidableEq, Repr

/-- `UnloadTipsMoveInstruction`. -/
structure UnloadTipsMoveInstruction where
  Type_ : Int := UDT
  Head : Int := 0
  PltTo : List String := []
  WellTo : List String := []
  TPlateType : List String := []
  Multi : Int := 0
deriving DecidableEq, Repr

/-- `AspirateInstruction`. -/
structure AspirateInstruction where
  Type_ : Int := ASP
  Head : Int := 0
  Volume : List Antha.Volume := []
  Overstroke : Bool := false
  Multi : Int := 0
  Plt : List String := []
  What : List String := []
  LLF : List Bool := []
deriving DecidableEq, Repr

/-- `DispenseInstruction`. -/
structure DispenseInstruction where
  Type_ : Int := DSP
  Head : Int := 0
  Volume : List Antha.Volume := []
  Multi : Int := 0
  Plt : List String := []
  What : List String := []
  LLF : List Bool := []
deriving DecidableEq, Repr

/-- `BlowoutInstruction`. -/
structure BlowoutInstruction where
  Type_ : Int := BLO
  Head : Int := 0
  Volume : List Antha.Volume := []
  Multi : Int := 0
  Plt : List String := []
  What : List String := []
  LLF : List Bool := []
deriving DecidableEq, Repr

/-- `PTZInstruction` (piston reset). -/
structure PTZInstruction where
  Type_ : Int := PTZ
  Head : Int := 0
  Channel : Int := 0
deriving DecidableEq, Repr

/-- `MoveInstruction`. -/
structure MoveInstruction where
  Type_ : Int := MOV
  Head : Int := 0
  Pos : List String := []
  Plt : List String := []
  Well : List String := []
  WVolume : List Antha.Volume := []
  Reference : List Int := []
  OffsetX : List ℚ := []
  OffsetY : List ℚ := []
  OffsetZ : List ℚ := []
deriving DecidableEq, Repr

/-- `LoadTipsInstruction`. -/
structure LoadTipsInstruction where
  Type_ : Int := LOD
  Head : Int := 0
  Pos : List String := []
  Well : List String := []
  Channels : List Int := []
  TipType : List String := []
  HolderType : List String := []
  Multi : Int := 0
deriving DecidableEq, Repr

/-- `UnloadTipsInstruction`. -/
structure UnloadTipsInstruction where
  Type_ : Int := ULD
  Head : Int := 0
  Channels : List Int := []
  TipType : List String := []
  HolderType : List String := []
  Multi : Int := 0
  Pos : List String := []
  Well : List String := []
deriving DecidableEq, Repr

/-- A value stored in a policy (`interface{}` in the source). -/
inductive PolicyValue
  | float (x : ℚ)
  | int (n : Int)
  | bool (b : Bool)
  | str (s : String)
deriving DecidableEq, Repr

/-- `LHPolicy`, a `map[string]interface{}`: the entries of the map; `get` reads the first
entry under a key, so that a key has one value. -/
structure LHPolicy where
  entries : List (String × PolicyValue)
deriving DecidableEq, Repr

/-- Map read `lhp[k]`. -/
def LHPolicy.get (lhp : LHPolicy) (k : String) : Option PolicyValue := lhp.entries.lookup k

/-- Map write `lhp[k] = v`. -/
def LHPolicy.set (lhp : LHPolicy) (k : String) (v : PolicyValue) : LHPolicy :=
  ⟨(k, v) :: lhp.entries.filter (fun e => e.1 != k)⟩

/-- `LHPolicy.MergeWith`: "clobber everything in here with the other policy". The order in
which Go ranges over `other` is unspecified and immaterial, its keys being distinct. -/
def LHPolicy.MergeWith (lhp other : LHPolicy) : LHPolicy :=
  other.entries.foldr (fun e acc => acc.set e.1 e.2) lhp

/-- `SuckInstruction`. -/
structure SuckInstruction where
  Type_ : Int := SUK
  Head : Int := 0
  What : List String := []
  PltFrom : List String := []
  WellFrom : List String := []
  Volume : List Antha.Volume := []
  FPlateType : List String := []
  FVolume : List Antha.Volume := []
  Prms : Option LHChannelParameter := none
  Multi : Int := 0
  Overstroke : Bool := false
deriving DecidableEq, Repr

/-- `BlowInstruction`. -/
structure BlowInstruction where
  Type_ : Int := BLW
  Head : Int := 0
  What : List String := []
  PltTo : List String := []
  WellTo : List String := []
  Volume : List Antha.Volume := []
  TPlateType : List String := []
  TVolume : List Antha.Volume := []
  Prms : Option LHChannelParameter := none
  Multi : Int := 0
deriving DecidableEq, Repr

/-- `SetPipetteSpeedInstruction`. -/
structure SetPipetteSpeedInstruction where
  Type_ : Int := SPS
  Head : Int := 0
  Channel : Int := 0
  Speed : ℚ := 0
deriving DecidableEq, Repr

/-- `SetDriveSpeedInstruction`. -/
structure SetDriveSpeedInstruction where
  Type_ : Int := SDS
  Drive : String := ""
  Speed : ℚ := 0
deriving DecidableEq, Repr

/-- `WaitInstruction`. -/
structure WaitInstruction where
  Type_ : Int := WAI
  Time : ℚ := 0
deriving DecidableEq, Repr

/-- `ResetInstruction`; `NewResetInstruction` is the default value. -/
structure ResetInstruction where
  Type_ : Int := RST
  What : List String := []
  PltFrom : List String := []
  PltTo : List String := []
  WellFrom : List String := []
  WellTo : List String := []
  Volume : List Antha.Volume := []
  FPlateType : List String := []
  TPlateType : List String := []
  FVolume : List Antha.Volume := []
  TVolume : List Antha.Volume := []
  Prms : Option LHChannelParameter := none
deriving DecidableEq, Repr

/-- `MoveMixInstruction`; `NewMoveMixInstruction` is the default value. -/
structure MoveMixInstruction where
  Type_ : Int := MMX
  Head : Int := 0
  Plt : List String := []
  Well : List String := []
  Volume : List Antha.Volume := []
  PlateType : List String := []
  FVolume : List Antha.Volume := []
  Cycles : List Int := []
  Multi : Int := 0
  Prms : LHPolicy := ⟨[]⟩
deriving DecidableEq, Repr

/-- `MixInstruction`; `NewMixInstruction`, the default value, sets the tag `MMX` as the source
does. -/
structure MixInstruction where
  Type_ : Int := MMX
  Head : Int := 0
  Volume : List Antha.Volume := []
  FVolume : List Antha.Volume := []
  PlateType : List String := []
  Multi : Int := 0
  Cycles : List Int := []
  Prms : LHPolicy := ⟨[]⟩
deriving DecidableEq, Repr

/-- The instructions that the lowering of a transfer can produce, one constructor per
implementation of the `RobotInstruction` interface. -/
inductive RobotInstruction
  | transfer (i : TransferInstruction)
  | singleChannelBlock (i : SingleChannelBlockInstruction)
  | multiChannelBlock (i : MultiChannelBlockInstruction)
  | singleChannelTransfer (i : SingleChannelTransferInstruction)
  | multiChannelTransfer (i : MultiChannelTransferInstruction)
  | loadTipsMove (i : LoadTipsMoveInstruction)
  | unloadTipsMove (i : UnloadTipsMoveInstruction)
  | aspirate (i : AspirateInstruction)
  | dispense (i : DispenseInstruction)
  | blowout (i : BlowoutInstruction)
  | ptz (i : PTZInstruction)
  | move (i : MoveInstruction)
  | loadTips (i : LoadTipsInstruction)
  | unloadTips (i : UnloadTipsInstruction)
  | suck (i : SuckInstruction)
  | blow (i : BlowInstruction)
  | setPipetteSpeed (i : SetPipetteSpeedInstruction)
  | setDriveSpeed (i : SetDriveSpeedInstruction)
  | wait (i : WaitInstruction)
  | reset (i : ResetInstruction)
  | moveMix (i : MoveMixInstruction)
  | mix (i : MixInstruction)
deriving DecidableEq, Repr

/-- The dynamically typed result of `GetParameter` (`interface{}`). -/
inductive Param
  | absent
  | str (s : String)
  | strs (l : List String)
  | strss (l : List (List String))
  | float (x : ℚ)
  | floats (l : List ℚ)
  | int (n : Int)
  | ints (l : List Int)
  | bool (b : Bool)
  | bools (l : List Bool)
  | vol (v : Option Volume)
  | vols (l : List Volume)
  | volss (l : List (List Volume))
  | prms (p : Option LHChannelParameter)
  | map (m : LHPolicy)
deriving DecidableEq, Repr

/-- `ins.Prms.Name` for the parameter `PLATFORM`: dereferences the pointer. -/
def platform (p : Option LHChannelParameter) : Except Fault Param :=
  match p with
  | none => .error .nilDereference
  | some c => .ok (.str c.Name)

/-- `InstructionType()` of each implementation; `MoveMixInstruction` returns the constant
`MMX`, every other one its `Type` field. -/
def RobotInstruction.InstructionType : RobotInstruction → Int
  | .transfer i => i.Type_
  | .singleChannelBlock i => i.Type_
  | .multiChannelBlock i => i.Type_
  | .singleChannelTransfer i => i.Type_
  | .multiChannelTransfer i => i.Type_
  | .loadTipsMove i => i.Type_
  | .unloadTipsMove i => i.Type_
  | .aspirate i => i.Type_
  | .dispense i => i.Type_
  | .blowout i => i.Type_
  | .ptz i => i.Type_
  | .move i => i.Type_
  | .loadTips i => i.Type_
  | .unloadTips i => i.Type_
  | .suck i => i.Type_
  | .blow i => i.Type_
  | .setPipetteSpeed i => i.Type_
  | .setDriveSpeed i => i.Type_
  | .wait i => i.Type_
  | .reset i => i.Type_
  | .moveMix _ => MMX
  | .mix i => i.Type_

/-- `GetParameter(name)` of each implementation of `RobotInstruction`. -/
def RobotInstruction.GetParameter (ins : RobotInstruction) (name : String) :
    Except Fault Param :=
  match ins with
  | .transfer i =>
    if name = "LIQUIDCLASS" then .ok (.strs i.What)
    else if name = "VOLUME" then .ok (.vols i.Volume)
    else if name = "VOLUNT" then .ok .absent
    else if name = "FROMPLATETYPE" then .ok (.strs i.FPlateType)
    else if name = "WELLFROMVOLUME" then .ok (.vols i.FVolume)
    else if name = "POSFROM" then .ok (.strs i.PltFrom)
    else if name = "POSTO" then .ok (.strs i.PltTo)
    else if name = "WELLFROM" then .ok (.strs i.WellFrom)
    else if name = "WELLTO" then .ok (.strs i.WellTo)
    else if name = "WELLTOVOLUME" then .ok (.vols i.TVolume)
    else if name = "TOPLATETYPE" then .ok (.strs i.TPlateType)
    else if name = "INSTRUCTIONTYPE" then .ok (.int ins.InstructionType)
    else .ok .absent
  | .singleChannelBlock i =>
    if name = "LIQUIDCLASS" then .ok (.strs i.What)
    else if name = "VOLUME" then .ok (.vols i.Volume)
    else if name = "VOLUNT" then .ok .absent
    else if name = "FROMPLATETYPE" then .ok (.strs i.FPlateType)
    else if name = "WELLFROMVOLUME" then .ok (.vols i.FVolume)
    else if name = "POSFROM" then .ok (.strs i.PltFrom)
    else if name = "POSTO" then .ok (.strs i.PltTo)
    else if name = "WELLFROM" then .ok (.strs i.WellFrom)
    else if name = "PARAMS" then .ok (.prms i.Prms)
    else if name = "PLATFORM" then platform i.Prms
    else if name = "WELLTO" then .ok (.strs i.WellTo)
    else if name = "WELLTOVOLUME" then .ok (.vols i.TVolume)
    else if name = "TOPLATETYPE" then .ok (.strs i.TPlateType)
    else if name = "INSTRUCTIONTYPE" then .ok (.int ins.InstructionType)
    else .ok .absent
  | .multiChannelBlock i =>
    if name = "LIQUIDCLASS" then .ok (.strss i.What)
    else if name = "VOLUME" then .ok (.volss i.Volume)
    else if name = "VOLUNT" then .ok .absent
    else if name = "FROMPLATETYPE" then .ok (.strss i.FPlateType)
    else if name = "WELLFROMVOLUME" then .ok (.volss i.FVolume)
    else if name = "POSFROM" then .ok (.strss i.PltFrom)
    else if name = "POSTO" then .ok (.strss i.PltTo)
    else if name = "WELLFROM" then .ok (.strss i.WellFrom)
    else if name = "PARAMS" then .ok (.prms i.Prms)
    else if name = "PLATFORM" then platform i.Prms
    else if name = "WELLTO" then .ok (.strss i.WellTo)
    else if name = "WELLTOVOLUME" then .ok (.volss i.TVolume)
    else if name = "TOPLATETYPE" then .ok (.strss i.TPlateType)
    else if name = "INSTRUCTIONTYPE" then .ok (.int ins.InstructionType)
    else .ok .absent
  | .singleChannelTransfer i =>
    if name = "LIQUIDCLASS" then .ok (.str i.What)
    else if name = "VOLUME" then .ok (.vol i.Volume)
    else if name = "VOLUNT" then .ok .absent
    else if name = "FROMPLATETYPE" then .ok (.str i.FPlateType)
    else if name = "WELLFROMVOLUME" then .ok (.vol i.FVolume)
    else if name = "POSFROM" then .ok (.str i.PltFrom)
    else if name = "POSTO" then .ok (.str i.PltTo)
    else if name = "WELLFROM" then .ok (.str i.WellFrom)
    else if name = "PARAMS" then .ok (.prms i.Prms)
    else if name = "PLATFORM" then platform i.Prms
    else if name = "WELLTO" then .ok (.str i.WellTo)
    else if name = "WELLTOVOLUME" then .ok (.vol i.TVolume)
    else if name = "TOPLATETYPE" then .ok (.str i.TPlateType)
    else if name = "INSTRUCTIONTYPE" then .ok (.int ins.InstructionType)
    else .ok .absent
  | .multiChannelTransfer i =>
    if name = "LIQUIDCLASS" then .ok (.strs i.What)
    else if name = "VOLUME" then .ok (.vols i.Volume)
    else if name = "VOLUNT" then .ok .absent
    else if name = "FROMPLATETYPE" then .ok (.strs i.FPlateType)
    else if name = "WELLFROMVOLUME" then .ok (.vols i.FVolume)
    else if name = "POSFROM" then .ok (.strs i.PltFrom)
    else if name = "POSTO" then .ok (.strs i.PltTo)
    else if name = "WELLFROM" then .ok (.strs i.WellFrom)
    else if name = "PARAMS" then .ok (.prms i.Prms)
    else if name = "PLATFORM" then platform i.Prms
    else if name = "WELLTO" then .ok (.strs i.WellTo)
    else if name = "WELLTOVOLUME" then .ok (.vols i.TVolume)
    else if name = "TOPLATETYPE" then .ok (.strs i.TPlateType)
    else if name = "INSTRUCTIONTYPE" then .ok (.int ins.InstructionType)
    else .ok .absent
  | .loadTipsMove i =>
    if name = "HEAD" then .ok (.int i.Head)
    else if name = "FROMPLATETYPE" then .ok (.strs i.FPlateType)
    else if name = "POSFROM" then .ok (.strs i.FPosition)
    else if name = "WELLFROM" then .ok (.strs i.Well)
    else if name = "Multi" then .ok (.int i.Multi)
    else if name = "INSTRUCTIONTYPE" then .ok (.int ins.InstructionType)
    else .ok .absent
  | .unloadTipsMove i =>
    if name = "HEAD" then .ok (.int i.Head)
    else if name = "TOPLATETYPE" then .ok (.strs i.TPlateType)
    else if name = "POSTO" then .ok (.strs i.PltTo)
    else if name = "WELLTO" then .ok (.strs i.WellTo)
    else if name = "INSTRUCTIONTYPE" then .ok (.int ins.InstructionType)
    else if name = "MULTI" then .ok (.int i.Multi)
    else .ok .absent
  | .aspirate i =>
    if name = "VOLUME" then .ok (.vols i.Volume)
    else if name = "HEAD" then .ok (.int i.Head)
    else if name = "MULTI" then .ok (.int i.Multi)
    else if name = "OVERSTROKE" then .ok (.bool i.Overstroke)
    else if name = "INSTRUCTIONTYPE" then .ok (.int ins.InstructionType)
    else if name = "WHAT" then .ok (.strs i.What)
    else if name = "PLATE" then .ok (.strs i.Plt)
    else if name = "LLF" then .ok (.bools i.LLF)
    else .ok .absent
  | .dispense i =>
    if name = "VOLUME" then .ok (.vols i.Volume)
    else if name = "HEAD" then .ok (.int i.Head)
    else if name = "MULTI" then .ok (.int i.Multi)
    else if name = "INSTRUCTIONTYPE" then .ok (.int ins.InstructionType)
    else if name = "WHAT" then .ok (.strs i.What)
    else if name = "LLF" then .ok (.bools i.LLF)
    else if name = "PLT" then .ok (.strs i.Plt)
    else .ok .absent
  | .blowout i =>
    if name = "VOLUME" then .ok (.vols i.Volume)
    else if name = "HEAD" then .ok (.int i.Head)
    else if name = "MULTI" then .ok (.int i.Multi)
    else if name = "INSTRUCTIONTYPE" then .ok (.int ins.InstructionType)
    else if name = "WHAT" then .ok (.strs i.What)
    else if name = "LLF" then .ok (.bools i.LLF)
    else if name = "PLT" then .ok (.strs i.Plt)
    else .ok .absent
  | .ptz i =>
    if name = "HEAD" then .ok (.int i.Head)
    else if name = "CHANNEL" then .ok (.int i.Channel)
    else if name = "INSTRUCTIONTYPE" then .ok (.int ins.InstructionType)
    else .ok .absent
  | .move i =>
    if name = "TOWELLVOLUME" then .ok (.vols i.WVolume)
    else if name = "HEAD" then .ok (.int i.Head)
    else if name = "TOPLATETYPE" then .ok (.strs i.Plt)
    else if name = "POSTO" then .ok (.strs i.Pos)
    else if name = "WELLTO" then .ok (.strs i.Well)
    else if name = "REFERENCE" then .ok (.ints i.Reference)
    else if name = "OFFSETX" then .ok (.floats i.OffsetX)
    else if name = "OFFSETY" then .ok (.floats i.OffsetY)
    else if name = "OFFSETZ" then .ok (.floats i.OffsetZ)
    else if name = "INSTRUCTIONTYPE" then .ok (.int ins.InstructionType)
    else .ok .absent
  | .loadTips i =>
    if name = "HEAD" then .ok (.int i.Head)
    else if name = "CHANNEL" then .ok (.ints i.Channels)
    else if name = "TIPTYPE" then .ok (.strs i.TipType)
    else if name = "FROMPLATETYPE" then .ok (.strs i.HolderType)
    else if name = "INSTRUCTIONTYPE" then .ok (.int ins.InstructionType)
    else if name = "MULTI" then .ok (.int i.Multi)
    else if name = "WELL" then .ok (.strs i.Well)
    else if name = "PLATE" then .ok (.strs i.HolderType)
    else if name = "POS" then .ok (.strs i.Pos)
    else .ok .absent
  | .unloadTips i =>
    if name = "HEAD" then .ok (.int i.Head)
    else if name = "CHANNEL" then .ok (.ints i.Channels)
    else if name = "TIPTYPE" then .ok (.strs i.TipType)
    else if name = "TOPLATETYPE" then .ok (.strs i.HolderType)
    else if name = "INSTRUCTIONTYPE" then .ok (.int ins.InstructionType)
    else if name = "MULTI" then .ok (.int i.Multi)
    else if name = "WELL" then .ok (.strs i.Well)
    else if name = "POS" then .ok (.strs i.Pos)
    else .ok .absent
  | .suck i =>
    if name = "HEAD" then .ok (.int i.Head)
    else if name = "LIQUIDCLASS" then .ok (.strs i.What)
    else if name = "VOLUME" then .ok (.vols i.Volume)
    else if name = "FROMPLATETYPE" then .ok (.strs i.FPlateType)
    else if name = "WELLFROMVOLUME" then .ok (.vols i.FVolume)
    else if name = "POSFROM" then .ok (.strs i.PltFrom)
    else if name = "WELLFROM" then .ok (.strs i.WellFrom)
    else if name = "PARAMS" then .ok (.prms i.Prms)
    else if name = "MULTI" then .ok (.int i.Multi)
    else if name = "OVERSTROKE" then .ok (.bool i.Overstroke)
    else if name = "PLATFORM" then platform i.Prms
    else if name = "INSTRUCTIONTYPE" then .ok (.int ins.InstructionType)
    else .ok .absent
  | .blow i =>
    if name = "HEAD" then .ok (.int i.Head)
    else if name = "LIQUIDCLASS" then .ok (.strs i.What)
    else if name = "VOLUME" then .ok (.vols i.Volume)
    else if name = "TOPLATETYPE" then .ok (.strs i.TPlateType)
    else if name = "WELLTOVOLUME" then .ok (.vols i.TVolume)
    else if name = "POSTO" then .ok (.strs i.PltTo)
    else if name = "WELLTO" then .ok (.strs i.WellTo)
    else if name = "PARAMS" then .ok (.prms i.Prms)
    else if name = "PLATFORM" then platform i.Prms
    else if name = "MULTI" then .ok (.int i.Multi)
    else if name = "INSTRUCTIONTYPE" then .ok (.int ins.InstructionType)
    else .ok .absent
  | .setPipetteSpeed i =>
    if name = "HEAD" then .ok (.int i.Head)
    else if name = "CHANNEL" then .ok (.int i.Channel)
    else if name = "SPEED" then .ok (.float i.Speed)
    else if name = "INSTRUCTIONTYPE" then .ok (.int ins.InstructionType)
    else .ok .absent
  | .setDriveSpeed i =>
    if name = "DRIVE" then .ok (.str i.Drive)
    else if name = "SPEED" then .ok (.float i.Speed)
    else if name = "INSTRUCTIONTYPE" then .ok (.int ins.InstructionType)
    else .ok .absent
  | .wait i =>
    if name = "TIME" then .ok (.float i.Time)
    else if name = "INSTRUCTIONTYPE" then .ok (.int ins.InstructionType)
    else .ok .absent
  | .reset i =>
    if name = "LIQUIDCLASS" then .ok (.strs i.What)
    else if name = "VOLUME" then .ok (.vols i.Volume)
    else if name = "VOLUNT" then .ok .absent
    else if name = "FROMPLATETYPE" then .ok (.strs i.FPlateType)
    else if name = "WELLFROMVOLUME" then .ok (.vols i.FVolume)
    else if name = "POSFROM" then .ok (.strs i.PltFrom)
    else if name = "POSTO" then .ok (.strs i.PltTo)
    else if name = "WELLFROM" then .ok (.strs i.WellFrom)
    else if name = "WELLTO" then .ok (.strs i.WellTo)
    else if name = "PARAMS" then .ok (.prms i.Prms)
    else if name = "PLATFORM" then platform i.Prms
    else if name = "INSTRUCTIONTYPE" then .ok (.int ins.InstructionType)
    else .ok .absent
  | .moveMix i =>
    if name = "VOLUME" then .ok (.vols i.Volume)
    else if name = "VOLUNT" then .ok .absent
    else if name = "PLATETYPE" then .ok (.strs i.PlateType)
    else if name = "WELLVOLUME" then .ok (.vols i.FVolume)
    else if name = "POS" then .ok (.strs i.Plt)
    else if name = "WELL" then .ok (.strs i.Well)
    else if name = "PARAMS" then .ok (.map i.Prms)
    else if name = "CYCLES" then .ok (.ints i.Cycles)
    else if name = "INSTRUCTIONTYPE" then .ok (.int ins.InstructionType)
    else .ok .absent
  | .mix i =>
    if name = "VOLUME" then .ok (.vols i.Volume)
    else if name = "VOLUNT" then .ok .absent
    else if name = "PLATETYPE" then .ok (.strs i.PlateType)
    else if name = "WELLVOLUME" then .ok (.vols i.FVolume)
    else if name = "PARAMS" then .ok (.map i.Prms)
    else if name = "CYCLES" then .ok (.ints i.Cycles)
    else if name = "INSTRUCTIONTYPE" then .ok (.int ins.InstructionType)
    else .ok .absent

/-! ## Policy engine (`lhpolicy.go`) -/

/-- `LHCategoryCondition`. -/
structure LHCategoryCondition where
  Category : String
deriving DecidableEq, Repr

/-- `LHNumericCondition`. -/
structure LHNumericCondition where
  Upper : ℚ
  Lower : ℚ
deriving DecidableEq, Repr

/-- `LHCategoryCondition.Match`: a string equal to the category, or a slice of such strings. -/
def LHCategoryCondition.Match (lhcc : LHCategoryCondition) : Param → Bool
  | .str s => s == lhcc.Category
  | .strs l => l.all (fun s => s == lhcc.Category)
  | _ => false

/-- `LHNumericCondition.Match`: a number in range, or a slice of such numbers. -/
def LHNumericCondition.Match (lhnc : LHNumericCondition) : Param → Bool
  | .float f => decide (f ≤ lhnc.Upper ∧ f ≥ lhnc.Lower)
  | .floats l => l.all (fun f => decide (f ≤ lhnc.Upper ∧ f ≥ lhnc.Lower))
  | _ => false

/-- The two implementations of the interface `LHCondition`. -/
inductive LHCondition
  | category (c : LHCategoryCondition)
  | numeric (c : LHNumericCondition)
deriving DecidableEq, Repr

/-- `LHCondition.Match`, dispatched on the implementation. -/
def LHCondition.Match : LHCondition → Param → Bool
  | .category c, v => c.Match v
  | .numeric c, v => c.Match v

/-- `LHVariableCondition`. -/
structure LHVariableCondition where
  TestVariable : String
  Condition : LHCondition
deriving DecidableEq, Repr

/-- `LHVariableCondition.Check`. -/
def LHVariableCondition.Check (lhvc : LHVariableCondition) (ins : RobotInstruction) :
    Except Fault Bool :=
  (ins.GetParameter lhvc.TestVariable).map (fun v => lhvc.Condition.Match v)

/-- `LHPolicyRule`. -/
structure LHPolicyRule where
  Name : String := ""
  Conditions : List LHVariableCondition := []
  Priority : Int := 0
  Type_ : Int := 0
deriving DecidableEq, Repr

/-- The loop of `LHPolicyRule.Check`: `false` at the first condition that does not match. -/
def checkConditions (ins : RobotInstruction) : List LHVariableCondition → Except Fault Bool
  | [] => .ok true
  | condition :: rest =>
    match condition.Check ins with
    | .error e => .error e
    | .ok false => .ok false
    | .ok true => checkConditions ins rest

/-- `LHPolicyRule.Check`. -/
def LHPolicyRule.Check (lhpr : LHPolicyRule) (ins : RobotInstruction) : Except Fault Bool :=
  checkConditions ins lhpr.Conditions

/-- `LHPolicyRuleSet`: the two maps `Policies` and `Rules`. Go ranges over a map in an
unspecified order: `Rules` lists the rules in the order in which the loop of `GetPolicyFor`
visits them; a read of `Policies` takes the first entry under the name. -/
structure LHPolicyRuleSet where
  Policies : List (String × LHPolicy)
  Rules : List (String × LHPolicyRule)
deriving DecidableEq, Repr

/-- Map write `Policies[name] = pol` on the entries of the map. -/
def setPolicy (name : String) (pol : LHPolicy) :
    List (String × LHPolicy) → List (String × LHPolicy)
  | [] => [(name, pol)]
  | (k, v) :: rest => if k = name then (k, pol) :: rest else (k, v) :: setPolicy name pol rest

/-- One iteration of the loop of `GetPolicyFor`: the new value of `match`. -/
def selectStep (ins : RobotInstruction) (matchpriority : Int) (match_ rule : LHPolicyRule) :
    Except Fault LHPolicyRule :=
  if rule.Priority ≥ matchpriority then
    match rule.Check ins with
    | .error e => .error e
    | .ok true =>
      if rule.Priority = matchpriority then
        -- keep the most specific rule (most conditions)
        if rule.Conditions.length < match_.Conditions.length then .ok rule
        else .ok match_
      else .ok rule
    | .ok false => .ok match_
  else .ok match_

/-- The loop `for _, rule := range lhpr.Rules` of `GetPolicyFor`, from the current `match`. -/
def selectLoop (ins : RobotInstruction) (matchpriority : Int) :
    List (String × LHPolicyRule) → LHPolicyRule → Except Fault LHPolicyRule
  | [], match_ => .ok match_
  | (_, rule) :: rest, match_ =>
    match selectStep ins matchpriority match_ rule with
    | .error e => .error e
    | .ok m => selectLoop ins matchpriority rest m

/-- The rule that `GetPolicyFor` holds in `match` after its loop (`matchpriority` is set to
`-1` before the loop and never assigned again). -/
def LHPolicyRuleSet.selected (lhpr : LHPolicyRuleSet) (ins : RobotInstruction) :
    Except Fault LHPolicyRule :=
  let matchpriority : Int := -1
  selectLoop ins matchpriority lhpr.Rules {}

/-- `LHPolicyRuleSet.GetPolicyFor`: the policy returned, and the rule set after the call
(`MergeWith` writes into the map stored under `default`). -/
def LHPolicyRuleSet.GetPolicyFor (lhpr : LHPolicyRuleSet) (ins : RobotInstruction) :
    Except Fault (LHPolicy × LHPolicyRuleSet) :=
  match lhpr.selected ins with
  | .error e => .error e
  | .ok match_ =>
    if match_.Name = "" then .ok ((lhpr.Policies.lookup "default").getD ⟨[]⟩, lhpr)
    else
      let other := (lhpr.Policies.lookup match_.Name).getD ⟨[]⟩
      match lhpr.Policies.lookup "default" with
      | none => if other.entries = [] then .ok (⟨[]⟩, lhpr) else .error .nilMapWrite
      | some d =>
        let merged := d.MergeWith other
        .ok (merged, { lhpr with Policies := setPolicy "default" merged lhpr.Policies })

/-- Type assertion `pol[k].(float64)`. -/
def LHPolicy.float (pol : LHPolicy) (k : String) : Except Fault ℚ :=
  match pol.get k with
  | some (.float x) => .ok x
  | _ => .error .typeAssertion

/-- Type assertion `pol[k].(int)`. -/
def LHPolicy.int (pol : LHPolicy) (k : String) : Except Fault Int :=
  match pol.get k with
  | some (.int x) => .ok x
  | _ => .error .typeAssertion

/-- Type assertion `pol[k].(bool)`. -/
def LHPolicy.bool (pol : LHPolicy) (k : String) : Except Fault Bool :=
  match pol.get k with
  | some (.bool x) => .ok x
  | _ => .error .typeAssertion

/-- Type assertion `pol[k].(string)`. -/
def LHPolicy.str (pol : LHPolicy) (k : String) : Except Fault String :=
  match pol.get k with
  | some (.str x) => .ok x
  | _ => .error .typeAssertion

/-- Type assertion `v.(float64)` on a value already read. -/
def PolicyValue.asFloat : PolicyValue → Except Fault ℚ
  | .float x => .ok x
  | _ => .error .typeAssertion

/-- Type assertion `v.(int)` on a value already read. -/
def PolicyValue.asInt : PolicyValue → Except Fault Int
  | .int x => .ok x
  | _ => .error .typeAssertion

/-- Slice indexing `l[i]`, which panics out of range. -/
def idx {α : Type} (l : List α) (i : Nat) : Except Fault α :=
  match l[i]? with
  | some a => .ok a
  | none => .error .indexOutOfRange

/-- Slice indexing with a Go `int`. -/
def idxInt {α : Type} (l : List α) (i : Int) : Except Fault α :=
  if i < 0 then .error .indexOutOfRange else idx l i.toNat

/-- A loop `for i := 0; i < n; i++` that appends the value of `x` at each turn: `x` is
evaluated only if the loop body runs. -/
def repeatEval {α : Type} (n : Int) (x : Except Fault α) : Except Fault (List α) :=
  if n.toNat = 0 then .ok [] else x.map (List.replicate n.toNat)

/-- `make([]T, n)` filled with `x`: panics for a negative length. -/
def makeSlice {α : Type} (n : Int) (x : α) : Except Fault (List α) :=
  if n < 0 then .error .makeSliceNegative else .ok (List.replicate n.toNat x)

/-- `GetTips` of the source. -/
def GetTips {σ : Type} (ops : TipOps σ) (tiptype : String) (params : LHProperties σ)
    (channel : LHChannelParameter) (multi : Int) (mirror : Bool) :
    Except Fault (RobotInstruction × LHProperties σ) :=
  match ops.GetCleanTips params.tipState tiptype channel mirror multi with
  | none => .error .noTipsLeft
  | some ((tipwells, tipboxpositions, tipboxtypes), st) =>
    .ok (.loadTipsMove { Head := channel.Head, Well := tipwells, FPosition := tipboxpositions,
                         FPlateType := tipboxtypes, Multi := multi },
         { params with tipState := st })

/-- `DropTips` of the source. -/
def DropTips {σ : Type} (ops : TipOps σ) (_tiptype : String) (params : LHProperties σ)
    (channel : LHChannelParameter) (multi : Int) :
    Except Fault (RobotInstruction × LHProperties σ) :=
  match ops.DropDirtyTips params.tipState channel multi with
  | none => .error .noRoomForTips
  | some ((tipwells, tipwastepositions, tipwastetypes), st) =>
    .ok (.unloadTipsMove { Head := channel.Head, WellTo := tipwells, PltTo := tipwastepositions,
                           TPlateType := tipwastetypes, Multi := multi },
         { params with tipState := st })

/-! ## Transfer planner (`compositerobotinstruction.go`) -/

/-- `wtype.WellCoords`: `X` is the column index and `Y` the row index. -/
structure WellCoords where
  X : Int
  Y : Int
deriving DecidableEq, Repr

/-- The hash table `tfrs` of `GetParallelSetsFor`: 12 rows, each `nil` (`none`) or 12 slices
of transfer indices. -/
abbrev ParallelTable := List (Option (List (List Nat)))

/-- `make([][][]int, 12)`: the table before the first loop, twelve `nil` rows. -/
def newTable : ParallelTable := List.replicate 12 none

/-- `make([][]int, 12)`: a new row, twelve `nil` slices. -/
def newRow : List (List Nat) := List.replicate 12 []

/-- The body of the first loop of `GetParallelSetsFor` for the transfer `i`.
`MakeWellCoordsA1`, which is not in the source tree, is a parameter. -/
def hashTransfer (MakeWellCoordsA1 : String → WellCoords) (ins : TransferInstruction)
    (channel : LHChannelParameter) (tfrs : ParallelTable) (i : Nat) :
    Except Fault ParallelTable := do
  let wcFrom := MakeWellCoordsA1 (← idx ins.WellFrom i)
  let wcTo := MakeWellCoordsA1 (← idx ins.WellTo i)
  let tcoord := if channel.Orientation = LHVChannel then wcTo.X else wcTo.Y
  let fcoord := if channel.Orientation = LHVChannel then wcFrom.X else wcFrom.Y
  let a ← idxInt tfrs fcoord
  -- `if a == nil { a = make([][]int, 12) }`
  let a := a.getD newRow
  let t ← idxInt a tcoord
  let t := t ++ [i]
  pure (tfrs.set fcoord.toNat (some (a.set tcoord.toNat t)))

/-- The first loop of `GetParallelSetsFor` over the transfers `is`. -/
def hashTransfers (MakeWellCoordsA1 : String → WellCoords) (ins : TransferInstruction)
    (channel : LHChannelParameter) : List Nat → ParallelTable → Except Fault ParallelTable
  | [], tfrs => .ok tfrs
  | i :: rest, tfrs =>
    match hashTransfer MakeWellCoordsA1 ins channel tfrs i with
    | .error e => .error e
    | .ok tfrs2 => hashTransfers MakeWellCoordsA1 ins channel rest tfrs2

/-- The second loop of `GetParallelSetsFor`: the slices whose length is `Multi`, row by row. -/
def collectSets (multi : Int) (tfrs : ParallelTable) : List (List Nat) :=
  tfrs.flatMap (fun a => match a with
    | none => []
    | some a => a.filter (fun t => decide ((t.length : Int) = multi)))

/-- `TransferInstruction.GetParallelSetsFor(channel)`; the result `nil` is the empty list. -/
def TransferInstruction.GetParallelSetsFor (MakeWellCoordsA1 : String → WellCoords)
    (ins : TransferInstruction) (channel : LHChannelParameter) :
    Except Fault (List (List Nat)) :=
  if channel.Multi = 1 then .ok []
  else
    match hashTransfers MakeWellCoordsA1 ins channel (List.range ins.What.length)
        newTable with
    | .error e => .error e
    | .ok tfrs => .ok (collectSets channel.Multi tfrs)

/-- `VolumeSet.MaxMultiTransferVolume`: "the minimum volume in the set". -/
def MaxMultiTransferVolume (vols : List Volume) : Except Fault Volume :=
  match vols with
  | [] => .error .indexOutOfRange
  | v0 :: _ => .ok (vols.foldl (fun ret v => if v.LessThan ret then v else ret) v0)

/-- The volumes of a transfer instruction, which `Generate` updates in place. -/
structure TransferVolumesState where
  Volume : List Antha.Volume
  FVolume : List Antha.Volume
  TVolume : List Antha.Volume
deriving DecidableEq, Repr

/-- The loop of `TransferInstruction.Generate` that removes `maxvol` from the members of a
parallel set. -/
def subtractSet (maxvol : Volume) : List Nat → TransferVolumesState →
    Except Fault TransferVolumesState
  | [], st => .ok st
  | s :: rest, st => do
    let v ← (← idx st.Volume s).Subtract maxvol
    let fv ← (← idx st.FVolume s).Subtract maxvol
    let tv := (← idx st.TVolume s).Add maxvol
    subtractSet maxvol rest
      { Volume := st.Volume.set s v, FVolume := st.FVolume.set s fv, TVolume := st.TVolume.set s tv }

/-- The body of the loop over the parallel sets in `TransferInstruction.Generate`: the
parameters added to the multi-channel block, and the updated volumes. -/
def multiSet (ins : TransferInstruction) (set : List Nat) (st : TransferVolumesState) :
    Except Fault (MultiTransferParams × TransferVolumesState) := do
  let vols ← set.mapM (fun s => (idx st.Volume s).map CopyVolume)
  let fvols ← set.mapM (fun s => (idx st.FVolume s).map CopyVolume)
  let tvols ← set.mapM (fun s => (idx st.TVolume s).map CopyVolume)
  let What ← set.mapM (fun s => idx ins.What s)
  let PltFrom ← set.mapM (fun s => idx ins.PltFrom s)
  let PltTo ← set.mapM (fun s => idx ins.PltTo s)
  let WellFrom ← set.mapM (fun s => idx ins.WellFrom s)
  let WellTo ← set.mapM (fun s => idx ins.WellTo s)
  let FPlateType ← set.mapM (fun s => idx ins.FPlateType s)
  let TPlateType ← set.mapM (fun s => idx ins.TPlateType s)
  let maxvol ← MaxMultiTransferVolume vols
  let st2 ← subtractSet maxvol set st
  pure ({ What := What, Volume := vols.map (fun _ => CopyVolume maxvol), FVolume := fvols,
          TVolume := tvols, PltFrom := PltFrom, PltTo := PltTo, WellFrom := WellFrom,
          WellTo := WellTo, FPlateType := FPlateType, TPlateType := TPlateType }, st2)

/-- `MultiChannelBlockInstruction.AddTransferParams`. -/
def MultiChannelBlockInstruction.AddTransferParams (ins : MultiChannelBlockInstruction)
    (mct : MultiTransferParams) : MultiChannelBlockInstruction :=
  { ins with
    What := ins.What ++ [mct.What], PltFrom := ins.PltFrom ++ [mct.PltFrom],
    PltTo := ins.PltTo ++ [mct.PltTo], WellFrom := ins.WellFrom ++ [mct.WellFrom],
    WellTo := ins.WellTo ++ [mct.WellTo], Volume := ins.Volume ++ [mct.Volume],
    FPlateType := ins.FPlateType ++ [mct.FPlateType],
    TPlateType := ins.TPlateType ++ [mct.TPlateType],
    FVolume := ins.FVolume ++ [mct.FVolume], TVolume := ins.TVolume ++ [mct.TVolume] }

/-- `SingleChannelBlockInstruction.AddTransferParams`. -/
def SingleChannelBlockInstruction.AddTransferParams (ins : SingleChannelBlockInstruction)
    (mct : TransferParams) : SingleChannelBlockInstruction :=
  { ins with
    What := ins.What ++ [mct.What], PltFrom := ins.PltFrom ++ [mct.PltFrom],
    PltTo := ins.PltTo ++ [mct.PltTo], WellFrom := ins.WellFrom ++ [mct.WellFrom],
    WellTo := ins.WellTo ++ [mct.WellTo], Volume := ins.Volume ++ [mct.Volume],
    FPlateType := ins.FPlateType ++ [mct.FPlateType],
    TPlateType := ins.TPlateType ++ [mct.TPlateType],
    FVolume := ins.FVolume ++ [mct.FVolume], TVolume := ins.TVolume ++ [mct.TVolume] }

/-- The loop over the parallel sets in `TransferInstruction.Generate`. -/
def multiSets (ins : TransferInstruction) :
    List (List Nat) → MultiChannelBlockInstruction → TransferVolumesState →
    Except Fault (MultiChannelBlockInstruction × TransferVolumesState)
  | [], mci, st => .ok (mci, st)
  | set :: rest, mci, st =>
    match multiSet ins set st with
    | .error e => .error e
    | .ok (tp, st2) => multiSets ins rest (mci.AddTransferParams tp) st2

/-- The body of the last loop of `TransferInstruction.Generate` ("mop up all the single
instructions which are left") for the transfer `i`. -/
def mopUp (ins : TransferInstruction) (i : Nat)
    (acc : SingleChannelBlockInstruction × TransferVolumesState) :
    Except Fault (SingleChannelBlockInstruction × TransferVolumesState) := do
  let sci := acc.1
  let st := acc.2
  let v ← idx st.Volume i
  if v.LessThanFloat (1 / 1000) then pure (sci, st)
  else
    let What ← idx ins.What i
    let PltFrom ← idx ins.PltFrom i
    let PltTo ← idx ins.PltTo i
    let WellFrom ← idx ins.WellFrom i
    let WellTo ← idx ins.WellTo i
    let fv ← idx st.FVolume i
    let tv ← idx st.TVolume i
    let FPlateType ← idx ins.FPlateType i
    let TPlateType ← idx ins.TPlateType i
    let tp : TransferParams :=
      { What := What, PltFrom := PltFrom, PltTo := PltTo, WellFrom := WellFrom,
        WellTo := WellTo, Volume := CopyVolume v, FVolume := CopyVolume fv,
        TVolume := CopyVolume tv, FPlateType := FPlateType, TPlateType := TPlateType }
    let fv2 ← fv.Subtract v
    pure (sci.AddTransferParams tp,
          { st with FVolume := st.FVolume.set i fv2, TVolume := st.TVolume.set i (tv.Add v) })

/-- The last loop of `TransferInstruction.Generate`, over the transfers `is`. -/
def mopUpAll (ins : TransferInstruction) :
    List Nat → SingleChannelBlockInstruction × TransferVolumesState →
    Except Fault (SingleChannelBlockInstruction × TransferVolumesState)
  | [], acc => .ok acc
  | i :: rest, acc =>
    match mopUp ins i acc with
    | .error e => .error e
    | .ok acc2 => mopUpAll ins rest acc2

/-- `TransferInstruction.Generate`: the blocks returned, the instruction as the call leaves it
(its volumes are updated in place) and the rule set after the policy lookup. -/
def TransferInstruction.Generate {σ : Type} (MakeWellCoordsA1 : String → WellCoords)
    (ins : TransferInstruction) (policy : LHPolicyRuleSet) (prms : LHProperties σ) :
    Except Fault (List RobotInstruction × TransferInstruction × LHPolicyRuleSet) := do
  let (pol, policy) ← policy.GetPolicyFor (.transfer ins)
  let st0 : TransferVolumesState :=
    { Volume := ins.Volume, FVolume := ins.FVolume, TVolume := ins.TVolume }
  let (ret, st1) ← (do
    if (← pol.bool "CAN_MULTI") then
      let head0 ← idx prms.HeadsLoaded 0
      let parallelsets ← ins.GetParallelSetsFor MakeWellCoordsA1 head0.Params.val
      let mci : MultiChannelBlockInstruction :=
        { Multi := head0.Params.val.Multi, Prms := some head0.Params.val }
      let (mci, st1) ← multiSets ins parallelsets mci st0
      if parallelsets.length > 0 then pure ([RobotInstruction.multiChannelBlock mci], st1)
      else pure ([], st1)
    else pure ([], st0) : Except Fault (List RobotInstruction × TransferVolumesState))
  let head0 ← idx prms.HeadsLoaded 0
  let sci : SingleChannelBlockInstruction := { Prms := some head0.Params.val }
  let (sci, st2) ← mopUpAll ins (List.range ins.What.length) (sci, st1)
  pure (ret ++ [.singleChannelBlock sci],
        { ins with Volume := st2.Volume, FVolume := st2.FVolume, TVolume := st2.TVolume },
        policy)

/-! ## Block lowering (`compositerobotinstruction.go`) -/

/-- The local variables of a block's `Generate` that its loops update, together with the
running source and destination volumes of the block and the hardware state. -/
structure BlockState (σ : Type) where
  channel : ChannelPtr
  tiptype : String
  n_tip_uses : Int
  FVolume : List Antha.Volume
  TVolume : List Antha.Volume
  prms : LHProperties σ

/-- The body of the inner loop (`for _, vol := range tvs`) of
`SingleChannelBlockInstruction.Generate` for the entry `t`: the instructions appended to `ret`
and the new state. -/
def SingleChannelBlockInstruction.chunk {σ : Type} (ops : TipOps σ)
    (ins : SingleChannelBlockInstruction) (pol : LHPolicy) (t : Nat) (newchannel : ChannelPtr)
    (newtiptype : String) (st : BlockState σ) (vol : Antha.Volume) :
    Except Fault (List RobotInstruction × BlockState σ) := do
  let limit ← pol.int "TIP_REUSE_LIMIT"
  let (change, st) ← (do
    if st.n_tip_uses > limit || st.channel.addr != newchannel.addr
        || newtiptype != st.tiptype then
      let (drop, prms1) ← DropTips ops st.tiptype st.prms st.channel.val 1
      let (get, prms2) ← GetTips ops newtiptype prms1 newchannel.val 1 false
      pure ([drop, get], { st with tiptype := newtiptype, channel := newchannel,
                                   n_tip_uses := 0, prms := prms2 })
    else pure ([], st) : Except Fault (List RobotInstruction × BlockState σ))
  let What ← idx ins.What t
  let PltFrom ← idx ins.PltFrom t
  let PltTo ← idx ins.PltTo t
  let WellFrom ← idx ins.WellFrom t
  let WellTo ← idx ins.WellTo t
  let FPlateType ← idx ins.FPlateType t
  let TPlateType ← idx ins.TPlateType t
  let fv ← idx st.FVolume t
  let tv ← idx st.TVolume t
  let stci : SingleChannelTransferInstruction :=
    { What := What, PltFrom := PltFrom, PltTo := PltTo, WellFrom := WellFrom, WellTo := WellTo,
      Volume := some vol, FPlateType := FPlateType, TPlateType := TPlateType,
      FVolume := some (CopyVolume fv), TVolume := some (CopyVolume tv), Prms := ins.Prms }
  let fv2 ← fv.Subtract vol
  pure (change ++ [.singleChannelTransfer stci],
        { st with FVolume := st.FVolume.set t fv2, TVolume := st.TVolume.set t (tv.Add vol),
                  n_tip_uses := st.n_tip_uses + 1 })

/-- The inner loop of `SingleChannelBlockInstruction.Generate` over the volumes `tvs`. -/
def SingleChannelBlockInstruction.chunks {σ : Type} (ops : TipOps σ)
    (ins : SingleChannelBlockInstruction) (pol : LHPolicy) (t : Nat) (newchannel : ChannelPtr)
    (newtiptype : String) :
    List Antha.Volume → BlockState σ → Except Fault (List RobotInstruction × BlockState σ)
  | [], st => .ok ([], st)
  | vol :: rest, st =>
    match ins.chunk ops pol t newchannel newtiptype st vol with
    | .error e => .error e
    | .ok (out, st2) =>
      match SingleChannelBlockInstruction.chunks ops ins pol t newchannel newtiptype rest st2 with
      | .error e => .error e
      | .ok (out2, st3) => .ok (out ++ out2, st3)

/-- The body of the outer loop of `SingleChannelBlockInstruction.Generate` for the entry `t`:
the instructions emitted during this iteration and the new state. -/
def SingleChannelBlockInstruction.entry {σ : Type} (ops : TipOps σ)
    (ins : SingleChannelBlockInstruction) (pol : LHPolicy) (t : Nat) (st : BlockState σ) :
    Except Fault (List RobotInstruction × BlockState σ) := do
  let v ← idx ins.Volume t
  let (newchannel, newtiptype) ← ChooseChannel v st.prms (.alloc (t + 1))
  let tvs ← TransferVolumes v st.channel.val.Minvol st.channel.val.Maxvol
  ins.chunks ops pol t newchannel newtiptype tvs st

/-- The outer loop of `SingleChannelBlockInstruction.Generate` over the entries `ts`: the
instructions emitted, grouped by iteration. -/
def SingleChannelBlockInstruction.entries {σ : Type} (ops : TipOps σ)
    (ins : SingleChannelBlockInstruction) (pol : LHPolicy) :
    List Nat → BlockState σ → Except Fault (List (List RobotInstruction) × BlockState σ)
  | [], st => .ok ([], st)
  | t :: rest, st =>
    match ins.entry ops pol t st with
    | .error e => .error e
    | .ok (out, st2) =>
      match SingleChannelBlockInstruction.entries ops ins pol rest st2 with
      | .error e => .error e
      | .ok (outs, st3) => .ok (out :: outs, st3)

/-- `SingleChannelBlockInstruction.Generate`: the instructions returned, the rule set after
the policy lookup and the hardware state after the tip operations. -/
def SingleChannelBlockInstruction.Generate {σ : Type} (ops : TipOps σ)
    (ins : SingleChannelBlockInstruction) (policy : LHPolicyRuleSet) (prms : LHProperties σ) :
    Except Fault (List RobotInstruction × LHPolicyRuleSet × LHProperties σ) := do
  let (pol, policy) ← policy.GetPolicyFor (.singleChannelBlock ins)
  let (channel, tiptype) ← ChooseChannel (← idx ins.Volume 0) prms (.alloc 0)
  let (get, prms) ← GetTips ops tiptype prms channel.val 1 false
  let st : BlockState σ :=
    { channel := channel, tiptype := tiptype, n_tip_uses := 0, FVolume := ins.FVolume,
      TVolume := ins.TVolume, prms := prms }
  let (outs, st) ← ins.entries ops pol (List.range ins.Volume.length) st
  let (drop, prms) ← DropTips ops st.tiptype st.prms st.channel.val 1
  pure (get :: outs.flatten ++ [drop], policy, prms)

/-- `NewVolumeSet(n)`: `n` volumes of `0 ul`. -/
def NewVolumeSet (n : Int) : Except Fault (List Antha.Volume) := makeSlice n (NewVolume 0 ul)

/-- The loop `for i, _ := range ins.Volume[t]` of `MultiChannelBlockInstruction.Generate`,
which copies the running volumes of the entry into a volume set. -/
def fillVolumeSet (src : List Antha.Volume) : List Nat → List Antha.Volume → Except Fault (List Antha.Volume)
  | [], vs => .ok vs
  | i :: rest, vs => do
    let v ← idx src i
    if i < vs.length then fillVolumeSet src rest (vs.set i (CopyVolume v))
    else .error .indexOutOfRange

/-- `VolumeSet.Sub`: subtracts `v` from every member. -/
def VolumeSetSub (vs : List Antha.Volume) (v : Volume) : Except Fault (List Antha.Volume) :=
  vs.mapM (fun x => x.Subtract v)

/-- The running volume sets of an entry of a multi-channel block. -/
structure MultiState (σ : Type) where
  channel : ChannelPtr
  tiptype : String
  n_tip_uses : Int
  vols : List Antha.Volume
  fvols : List Antha.Volume
  tvols : List Antha.Volume
  prms : LHProperties σ

/-- The body of the inner loop of `MultiChannelBlockInstruction.Generate` for the entry `t`.
The new multi-channel transfer receives neither `What` nor `Multi`. -/
def MultiChannelBlockInstruction.chunk {σ : Type} (ops : TipOps σ)
    (ins : MultiChannelBlockInstruction) (pol : LHPolicy) (t : Nat) (newchannel : ChannelPtr)
    (newtiptype : String) (st : MultiState σ) (vol : Antha.Volume) :
    Except Fault (List RobotInstruction × MultiState σ) := do
  let limit ← pol.int "TIP_REUSE_LIMIT"
  let (change, st) ← (do
    if st.n_tip_uses > limit || newchannel.addr != st.channel.addr
        || newtiptype != st.tiptype then
      let (drop, prms1) ← DropTips ops st.tiptype st.prms st.channel.val ins.Multi
      let (get, prms2) ← GetTips ops newtiptype prms1 newchannel.val ins.Multi false
      pure ([drop, get], { st with n_tip_uses := 0, prms := prms2 })
    else pure ([], st) : Except Fault (List RobotInstruction × MultiState σ))
  let vols := st.vols.map (fun _ => CopyVolume vol)
  let PltFrom ← idx ins.PltFrom t
  let PltTo ← idx ins.PltTo t
  let WellFrom ← idx ins.WellFrom t
  let WellTo ← idx ins.WellTo t
  let FPlateType ← idx ins.FPlateType t
  let TPlateType ← idx ins.TPlateType t
  let mci : MultiChannelTransferInstruction :=
    { Volume := vols.map CopyVolume, FVolume := st.fvols.map CopyVolume,
      TVolume := st.tvols.map CopyVolume, PltFrom := PltFrom, PltTo := PltTo,
      WellFrom := WellFrom, WellTo := WellTo, FPlateType := FPlateType,
      TPlateType := TPlateType, Prms := ins.Prms }
  let fvols ← VolumeSetSub st.fvols vol
  pure (change ++ [.multiChannelTransfer mci],
        { st with tiptype := newtiptype, channel := newchannel, vols := vols, fvols := fvols,
                  tvols := st.tvols.map (fun x => x.Add vol) })

/-- The inner loop of `MultiChannelBlockInstruction.Generate` over the volumes `tvs`. -/
def MultiChannelBlockInstruction.chunks {σ : Type} (ops : TipOps σ)
    (ins : MultiChannelBlockInstruction) (pol : LHPolicy) (t : Nat) (newchannel : ChannelPtr)
    (newtiptype : String) :
    List Antha.Volume → MultiState σ → Except Fault (List RobotInstruction × MultiState σ)
  | [], st => .ok ([], st)
  | vol :: rest, st =>
    match ins.chunk ops pol t newchannel newtiptype st vol with
    | .error e => .error e
    | .ok (out, st2) =>
      match MultiChannelBlockInstruction.chunks ops ins pol t newchannel newtiptype rest st2 with
      | .error e => .error e
      | .ok (out2, st3) => .ok (out ++ out2, st3)

/-- The body of the outer loop of `MultiChannelBlockInstruction.Generate` for the entry `t`. -/
def MultiChannelBlockInstruction.entry {σ : Type} (ops : TipOps σ)
    (ins : MultiChannelBlockInstruction) (pol : LHPolicy) (t : Nat) (st : MultiState σ) :
    Except Fault (List RobotInstruction × MultiState σ) := do
  let multi ← match ins.Prms with
    | none => .error .nilDereference
    | some p => pure p.Multi
  let tvols ← NewVolumeSet multi
  let vols ← NewVolumeSet multi
  let fvols ← NewVolumeSet multi
  let volt ← idx ins.Volume t
  let fvols ← fillVolumeSet (← idx ins.FVolume t) (List.range volt.length) fvols
  let tvols ← fillVolumeSet (← idx ins.TVolume t) (List.range volt.length) tvols
  let (newchannel, newtiptype) ←
    ChooseChannel (← idx (← idx ins.Volume 0) 0) st.prms (.alloc (t + 1))
  let tvs ← TransferVolumes (← idx volt 0) newchannel.val.Minvol newchannel.val.Maxvol
  ins.chunks ops pol t newchannel newtiptype tvs
    { st with vols := vols, fvols := fvols, tvols := tvols }

/-- The outer loop of `MultiChannelBlockInstruction.Generate` over the entries `ts`. -/
def MultiChannelBlockInstruction.entries {σ : Type} (ops : TipOps σ)
    (ins : MultiChannelBlockInstruction) (pol : LHPolicy) :
    List Nat → MultiState σ → Except Fault (List (List RobotInstruction) × MultiState σ)
  | [], st => .ok ([], st)
  | t :: rest, st =>
    match ins.entry ops pol t st with
    | .error e => .error e
    | .ok (out, st2) =>
      match MultiChannelBlockInstruction.entries ops ins pol rest st2 with
      | .error e => .error e
      | .ok (outs, st3) => .ok (out :: outs, st3)

/-- `MultiChannelBlockInstruction.Generate`. -/
def MultiChannelBlockInstruction.Generate {σ : Type} (ops : TipOps σ)
    (ins : MultiChannelBlockInstruction) (policy : LHPolicyRuleSet) (prms : LHProperties σ) :
    Except Fault (List RobotInstruction × LHPolicyRuleSet × LHProperties σ) := do
  let (pol, policy) ← policy.GetPolicyFor (.multiChannelBlock ins)
  let (channel, tiptype) ← ChooseChannel (← idx (← idx ins.Volume 0) 0) prms (.alloc 0)
  let (get, prms) ← GetTips ops tiptype prms channel.val ins.Multi false
  let st : MultiState σ :=
    { channel := channel, tiptype := tiptype, n_tip_uses := 0, vols := [], fvols := [],
      tvols := [], prms := prms }
  let (outs, st) ← ins.entries ops pol (List.range ins.Volume.length) st
  let (drop, prms) ← DropTips ops st.tiptype st.prms st.channel.val ins.Multi
  pure (get :: outs.flatten ++ [drop], policy, prms)

/-! ## Per-move lowering (`compositerobotinstruction.go`) -/

/-- `wunit.CopyVolume` applied to a pointer: a `nil` pointer is dereferenced. -/
def copyVolumePtr (v : Option Volume) : Except Fault Volume :=
  match v with
  | none => .error .nilDereference
  | some v => .ok (CopyVolume v)

/-- `SingleChannelTransferInstruction.Params`. -/
def SingleChannelTransferInstruction.Params (scti : SingleChannelTransferInstruction) :
    Except Fault TransferParams := do
  let v ← copyVolumePtr scti.Volume
  let fv ← copyVolumePtr scti.FVolume
  let tv ← copyVolumePtr scti.TVolume
  pure { What := scti.What, PltFrom := scti.PltFrom, PltTo := scti.PltTo, WellTo := scti.WellTo,
         WellFrom := scti.WellFrom, Volume := v, FPlateType := scti.FPlateType,
         TPlateType := scti.TPlateType, FVolume := fv, TVolume := tv, Channel := scti.Prms }

/-- `MultiChannelTransferInstruction.Params(k)`. -/
def MultiChannelTransferInstruction.Params (scti : MultiChannelTransferInstruction) (k : Nat) :
    Except Fault TransferParams := do
  let What ← idx scti.What k
  let PltFrom ← idx scti.PltFrom k
  let PltTo ← idx scti.PltTo k
  let WellFrom ← idx scti.WellFrom k
  let WellTo ← idx scti.WellTo k
  let v ← idx scti.Volume k
  let FPlateType ← idx scti.FPlateType k
  let TPlateType ← idx scti.TPlateType k
  let fv ← idx scti.FVolume k
  let tv ← idx scti.TVolume k
  pure { What := What, PltFrom := PltFrom, PltTo := PltTo, WellFrom := WellFrom,
         WellTo := WellTo, Volume := CopyVolume v, FPlateType := FPlateType,
         TPlateType := TPlateType, FVolume := CopyVolume fv, TVolume := CopyVolume tv,
         Channel := scti.Prms }

/-- `SuckInstruction.AddTransferParams`. -/
def SuckInstruction.AddTransferParams (ins : SuckInstruction) (tp : TransferParams) :
    SuckInstruction :=
  { ins with
    What := ins.What ++ [tp.What], PltFrom := ins.PltFrom ++ [tp.PltFrom],
    WellFrom := ins.WellFrom ++ [tp.WellFrom], Volume := ins.Volume ++ [tp.Volume],
    FPlateType := ins.FPlateType ++ [tp.FPlateType], FVolume := ins.FVolume ++ [tp.FVolume] }

/-- `BlowInstruction.AddTransferParams`. -/
def BlowInstruction.AddTransferParams (ins : BlowInstruction) (tp : TransferParams) :
    BlowInstruction :=
  { ins with
    What := ins.What ++ [tp.What], PltTo := ins.PltTo ++ [tp.PltTo],
    WellTo := ins.WellTo ++ [tp.WellTo], Volume := ins.Volume ++ [tp.Volume],
    TPlateType := ins.TPlateType ++ [tp.TPlateType], TVolume := ins.TVolume ++ [tp.TVolume] }

/-- `ResetInstruction.AddTransferParams`. -/
def ResetInstruction.AddTransferParams (ins : ResetInstruction) (tp : TransferParams) :
    ResetInstruction :=
  { ins with
    What := ins.What ++ [tp.What], PltTo := ins.PltTo ++ [tp.PltTo],
    WellTo := ins.WellTo ++ [tp.WellTo], PltFrom := ins.PltFrom ++ [tp.PltFrom],
    WellFrom := ins.WellFrom ++ [tp.WellFrom], Volume := ins.Volume ++ [tp.Volume],
    FPlateType := ins.FPlateType ++ [tp.FPlateType],
    TPlateType := ins.TPlateType ++ [tp.TPlateType],
    FVolume := ins.FVolume ++ [tp.FVolume], TVolume := ins.TVolume ++ [tp.TVolume] }

/-- `SingleChannelTransferInstruction.Generate`: a suck, a blow and a reset. -/
def SingleChannelTransferInstruction.Generate (ins : SingleChannelTransferInstruction) :
    Except Fault (List RobotInstruction) := do
  let suckinstruction : SuckInstruction := {}
  let suckinstruction := suckinstruction.AddTransferParams (← ins.Params)
  let suckinstruction := { suckinstruction with Multi := 1, Prms := ins.Prms }
  let blowinstruction : BlowInstruction := {}
  let blowinstruction := blowinstruction.AddTransferParams (← ins.Params)
  let blowinstruction := { blowinstruction with Multi := 1, Prms := ins.Prms }
  let resetinstruction : ResetInstruction := {}
  let resetinstruction := resetinstruction.AddTransferParams (← ins.Params)
  let resetinstruction := { resetinstruction with Prms := ins.Prms }
  pure [.suck suckinstruction, .blow blowinstruction, .reset resetinstruction]

/-- The loop of `MultiChannelTransferInstruction.Generate` over the channels `ks`. -/
def addAllParams (ins : MultiChannelTransferInstruction) :
    List Nat → SuckInstruction × BlowInstruction × ResetInstruction →
    Except Fault (SuckInstruction × BlowInstruction × ResetInstruction)
  | [], acc => .ok acc
  | k :: rest, (s, b, r) =>
    match ins.Params k with
    | .error e => .error e
    | .ok tp =>
      addAllParams ins rest (s.AddTransferParams tp, b.AddTransferParams tp, r.AddTransferParams tp)

/-- `MultiChannelTransferInstruction.Generate`; the reset receives no channel parameters. -/
def MultiChannelTransferInstruction.Generate (ins : MultiChannelTransferInstruction) :
    Except Fault (List RobotInstruction) := do
  let suckinstruction : SuckInstruction := { Multi := ins.Multi, Prms := ins.Prms }
  let blowinstruction : BlowInstruction := { Multi := ins.Multi, Prms := ins.Prms }
  let resetinstruction : ResetInstruction := {}
  let (s, b, r) ← addAllParams ins (List.range ins.Volume.length)
    (suckinstruction, blowinstruction, resetinstruction)
  pure [.suck s, .blow b, .reset r]

/-- `LoadTipsMoveInstruction.Generate`: a move and a tip load. -/
def LoadTipsMoveInstruction.Generate (ins : LoadTipsMoveInstruction) : List RobotInstruction :=
  [.move { Head := ins.Head, Pos := ins.FPosition, Well := ins.Well, Plt := ins.FPlateType },
   .loadTips { Head := ins.Head, TipType := ins.FPlateType, HolderType := ins.FPlateType,
               Multi := ins.Multi, Pos := ins.FPosition, Well := ins.Well }]

/-- `UnloadTipsMoveInstruction.Generate`: a move and a tip unload. -/
def UnloadTipsMoveInstruction.Generate (ins : UnloadTipsMoveInstruction) :
    List RobotInstruction :=
  [.move { Head := ins.Head, Pos := ins.PltTo, Well := ins.WellTo, Plt := ins.TPlateType },
   .unloadTips { Head := ins.Head, TipType := ins.TPlateType, HolderType := ins.TPlateType,
                 Multi := ins.Multi, Pos := ins.PltTo, Well := ins.WellTo }]

/-- `MoveMixInstruction.Generate`: a move and a mix; `zoff[0] = 0.5` panics without a
channel. -/
def MoveMixInstruction.Generate (ins : MoveMixInstruction) :
    Except Fault (List RobotInstruction) := do
  let zoff ← makeSlice ins.Multi (0 : ℚ)
  let zoff ← if 0 < zoff.length then pure (zoff.set 0 (1 / 2)) else .error .indexOutOfRange
  pure [.move { Well := ins.Well, Pos := ins.Plt, Plt := ins.PlateType, WVolume := ins.FVolume,
                Head := ins.Head, OffsetZ := zoff },
        .mix { Head := ins.Head, PlateType := ins.PlateType, Cycles := ins.Cycles,
               Volume := ins.Volume, FVolume := ins.FVolume, Multi := ins.Multi }]

/-- The mix step shared by `SuckInstruction.Generate` (`PRE_MIX`) and
`BlowInstruction.Generate` (`POST_MIX`): nothing unless the policy sets `key`. -/
def mixStep (pol : LHPolicy) (key volkey : String) (plt plateType well : List String)
    (volume fvolume : List Volume) (multi : Int) : Except Fault (List RobotInstruction) :=
  match pol.get key with
  | none => .ok []
  | some cycles => do
    let v ← match pol.get volkey with
      | none => pure volume
      | some mixvol => do
        let _ ← makeSlice multi (0 : ℚ)
        repeatEval multi (mixvol.asFloat.map (fun x => NewVolume x ul))
    let _ ← makeSlice multi (0 : Int)
    let c ← repeatEval multi cycles.asInt
    pure [.moveMix { Plt := plt, PlateType := plateType, Well := well, FVolume := fvolume,
                     Multi := multi, Volume := v, Cycles := c }]

/-- The first step of `SuckInstruction.Generate`: the move into the liquid, broken up by a
slow entry if the policy sets `ASPENTRYSPEED`. -/
def suckEntry (ins : SuckInstruction) (pol : LHPolicy) : Except Fault (List RobotInstruction) :=
  let mov : MoveInstruction :=
    { Head := ins.Head, Pos := ins.PltFrom, Plt := ins.FPlateType, Well := ins.WellFrom,
      WVolume := ins.FVolume }
  let n := ins.Multi.toNat
  match pol.get "ASPENTRYSPEED" with
  | some entryspeed => do
    let speed ← entryspeed.asFloat
    let zs ← repeatEval ins.Multi (pol.float "ASPZOFFSET")
    let dz ← pol.float "DEFAULTZSPEED"
    pure [.move { mov with Reference := List.replicate n 1, OffsetZ := List.replicate n 5 },
          .setDriveSpeed { Drive := "Z", Speed := speed },
          .move { mov with Reference := List.replicate n 0, OffsetZ := zs },
          .setDriveSpeed { Drive := "Z", Speed := dz }]
  | none => do
    let zs ← repeatEval ins.Multi (pol.float "ASPZOFFSET")
    pure [.move { mov with Reference := List.replicate n 0, OffsetZ := zs }]

/-- "Set the pipette speed if needed": a `SetPipetteSpeed` on all channels if the policy sets
`key` (`ASPSPEED` or `DSPSPEED`). -/
def setSpeedStep (pol : LHPolicy) (key : String) (head : Int) :
    Except Fault (List RobotInstruction) :=
  match pol.get key with
  | some pspeed => do
    pure [.setPipetteSpeed { Head := head, Channel := -1, Speed := (← pspeed.asFloat) }]
  | none => pure []

/-- "Do we reset the pipette speed?": back to `DEFAULTPIPETTESPEED` if the policy sets
`key`. -/
def resetSpeedStep (pol : LHPolicy) (key : String) (head : Int) :
    Except Fault (List RobotInstruction) :=
  match pol.get key with
  | some _ => do
    pure [.setPipetteSpeed { Head := head, Channel := -1,
                             Speed := (← pol.float "DEFAULTPIPETTESPEED") }]
  | none => pure []

/-- "Do we wait": a `Wait` if the policy sets `key` (`ASP_WAIT` or `DSP_WAIT`). -/
def waitStep (pol : LHPolicy) (key : String) : Except Fault (List RobotInstruction) :=
  match pol.get key with
  | some wait_time => do pure [.wait { Time := (← wait_time.asFloat) }]
  | none => pure []

/-- `SuckInstruction.Generate`. -/
def SuckInstruction.Generate (ins : SuckInstruction) (policy : LHPolicyRuleSet) :
    Except Fault (List RobotInstruction × LHPolicyRuleSet) := do
  let (pol, policy) ← policy.GetPolicyFor (.suck ins)
  let entry ← suckEntry ins pol
  let premix ← mixStep pol "PRE_MIX" "PRE_MIX_VOL" ins.PltFrom ins.FPlateType ins.WellFrom
    ins.Volume ins.FVolume ins.Multi
  let setspeed ← setSpeedStep pol "ASPSPEED" ins.Head
  let aspins : AspirateInstruction :=
    { Head := ins.Head, Volume := ins.Volume, Multi := ins.Multi, Overstroke := ins.Overstroke,
      What := ins.What, Plt := ins.FPlateType }
  let resetspeed ← resetSpeedStep pol "ASPSPEED" ins.Head
  let wait ← waitStep pol "ASP_WAIT"
  pure (entry ++ premix ++ setspeed ++ [.aspirate aspins] ++ resetspeed ++ wait, policy)

/-- The first step of `BlowInstruction.Generate`: the move to the dispense position, broken
up by a slow entry if the policy sets `DSPENTRYSPEED`. -/
def blowEntry (ins : BlowInstruction) (pol : LHPolicy) : Except Fault (List RobotInstruction) :=
  let mov : MoveInstruction :=
    { Head := ins.Head, Pos := ins.PltTo, Plt := ins.TPlateType, Well := ins.WellTo,
      WVolume := ins.TVolume }
  let n := ins.Multi.toNat
  match pol.get "DSPENTRYSPEED" with
  | some entryspeed => do
    let speed ← entryspeed.asFloat
    let refs ← repeatEval ins.Multi (pol.int "DSPREFERENCE")
    let zs ← repeatEval ins.Multi (pol.float "DSPZOFFSET")
    let dz ← pol.float "DEFAULTZSPEED"
    pure [.move { mov with Reference := List.replicate n 1, OffsetZ := List.replicate n 5 },
          .setDriveSpeed { Drive := "Z", Speed := speed },
          .move { mov with Reference := refs, OffsetZ := zs },
          .setDriveSpeed { Drive := "Z", Speed := dz }]
  | none => do
    let refs ← repeatEval ins.Multi (pol.int "DSPREFERENCE")
    let zs ← repeatEval ins.Multi (pol.float "DSPZOFFSET")
    pure [.move { mov with Reference := refs, OffsetZ := zs }]

/-- "Do we need to touch off?": a last move to the bottom of the well at `TOUCHOFFSET` if
`TOUCHOFF` is true. -/
def touchStep (ins : BlowInstruction) (pol : LHPolicy) : Except Fault (List RobotInstruction) := do
  if (← pol.bool "TOUCHOFF") then
    let touch_offset ← pol.float "TOUCHOFFSET"
    let ref ← makeSlice ins.Multi (0 : Int)
    let off ← makeSlice ins.Multi touch_offset
    pure [.move { Head := ins.Head, Pos := ins.PltTo, Plt := ins.TPlateType, Well := ins.WellTo,
                  WVolume := ins.TVolume, Reference := ref, OffsetZ := off }]
  else pure []

/-- `BlowInstruction.Generate`. -/
def BlowInstruction.Generate (ins : BlowInstruction) (policy : LHPolicyRuleSet) :
    Except Fault (List RobotInstruction × LHPolicyRuleSet) := do
  let (pol, policy) ← policy.GetPolicyFor (.blow ins)
  let entry ← blowEntry ins pol
  let setspeed ← setSpeedStep pol "DSPSPEED" ins.Head
  let dspins : DispenseInstruction :=
    { Head := ins.Head, Volume := ins.Volume, Multi := ins.Multi, Plt := ins.TPlateType,
      What := ins.What }
  let resetspeed ← resetSpeedStep pol "DSPSPEED" ins.Head
  let wait ← waitStep pol "DSP_WAIT"
  let postmix ← mixStep pol "POST_MIX" "POST_MIX_VOL" ins.PltTo ins.TPlateType ins.WellTo
    ins.Volume ins.TVolume ins.Multi
  let touch ← touchStep ins pol
  pure (entry ++ setspeed ++ [.dispense dspins] ++ resetspeed ++ wait ++ postmix ++ touch,
        policy)

/-- `ResetInstruction.Generate`: move, blowout, move, piston reset. -/
def ResetInstruction.Generate (ins : ResetInstruction) (policy : LHPolicyRuleSet) :
    Except Fault (List RobotInstruction × LHPolicyRuleSet) := do
  let (pol, policy) ← policy.GetPolicyFor (.reset ins)
  let head ← match ins.Prms with
    | none => .error .nilDereference
    | some p => pure p.Head
  let mov : MoveInstruction :=
    { Well := ins.WellTo, Pos := ins.PltTo, Plt := ins.TPlateType, WVolume := ins.TVolume,
      Head := head, Reference := [← pol.int "BLOWOUTREFERENCE"],
      OffsetZ := [← pol.float "BLOWOUTOFFSET"] }
  let bov := NewVolume (← pol.float "BLOWOUTVOLUME")
    (ParsePrefixedUnit (← pol.str "BLOWOUTVOLUMEUNIT"))
  let blow : BlowoutInstruction :=
    { Head := head, Volume := [bov], Multi := ins.What.length, Plt := ins.TPlateType,
      What := ins.What }
  let mov2 : MoveInstruction :=
    { Well := ins.WellTo, Pos := ins.PltTo, Plt := ins.TPlateType, WVolume := ins.TVolume,
      Head := head, Reference := [← pol.int "PTZREFERENCE"],
      OffsetZ := [← pol.float "PTZOFFSET"] }
  let ptz : PTZInstruction := { Head := head, Channel := -1 }
  pure ([.move mov, .blowout blow, .move mov2, .ptz ptz], policy)

/-! ## Recursive lowering -/

/-- The state that a lowering threads through the calls of `Generate`: the rule set (whose
`default` policy `GetPolicyFor` updates) and the hardware. -/
structure CompilerState (σ : Type) where
  policy : LHPolicyRuleSet
  prms : LHProperties σ

/-- `Generate(policy, prms)` of the interface `RobotInstruction`, dispatched on the
implementation; terminal instructions return `nil`. -/
def RobotInstruction.Generate {σ : Type} (MakeWellCoordsA1 : String → WellCoords)
    (ops : TipOps σ) (ins : RobotInstruction) (st : CompilerState σ) :
    Except Fault (List RobotInstruction × CompilerState σ) :=
  match ins with
  | .transfer i =>
    (i.Generate MakeWellCoordsA1 st.policy st.prms).map
      (fun r => (r.1, { st with policy := r.2.2 }))
  | .singleChannelBlock i =>
    (i.Generate ops st.policy st.prms).map (fun r => (r.1, { policy := r.2.1, prms := r.2.2 }))
  | .multiChannelBlock i =>
    (i.Generate ops st.policy st.prms).map (fun r => (r.1, { policy := r.2.1, prms := r.2.2 }))
  | .singleChannelTransfer i => i.Generate.map (fun r => (r, st))
  | .multiChannelTransfer i => i.Generate.map (fun r => (r, st))
  | .loadTipsMove i => .ok (i.Generate, st)
  | .unloadTipsMove i => .ok (i.Generate, st)
  | .suck i => (i.Generate st.policy).map (fun r => (r.1, { st with policy := r.2 }))
  | .blow i => (i.Generate st.policy).map (fun r => (r.1, { st with policy := r.2 }))
  | .reset i => (i.Generate st.policy).map (fun r => (r.1, { st with policy := r.2 }))
  | .moveMix i => i.Generate.map (fun r => (r, st))
  | _ => .ok ([], st)

/-- Modelled from the spec: the lowering `f` applied to a sequence of instructions in order,
the state being threaded from one to the next. -/
def lowerAll {σ : Type}
    (f : RobotInstruction → CompilerState σ →
      Except Fault (List RobotInstruction × CompilerState σ)) :
    List RobotInstruction → CompilerState σ →
    Except Fault (List RobotInstruction × CompilerState σ)
  | [], st => .ok ([], st)
  | child :: rest, st =>
    match f child st with
    | .error e => .error e
    | .ok (out, st1) =>
      match lowerAll f rest st1 with
      | .error e => .error e
      | .ok (outs, st2) => .ok (out ++ outs, st2)

/-- Modelled from the spec: the recursive lowering, whose driver is not in the source tree.
"`lower(policy, hw)` expands one level; terminals return an empty sequence": an instruction
whose `Generate` returns nothing is emitted as a primitive, any other one is replaced by the
lowering of what it generates, in order. The recursion is bounded by `fuel`; a transfer is
six levels deep. -/
def lower {σ : Type} (MakeWellCoordsA1 : String → WellCoords) (ops : TipOps σ) :
    Nat → RobotInstruction → CompilerState σ →
    Except Fault (List RobotInstruction × CompilerState σ)
  | 0, _, _ => .error .outOfFuel
  | fuel + 1, ins, st =>
    match ins.Generate MakeWellCoordsA1 ops st with
    | .error e => .error e
    | .ok ([], st1) => .ok ([ins], st1)
    | .ok (children, st1) => lowerAll (lower MakeWellCoordsA1 ops fuel) children st1

/-! ## Concrete collaborators used by the examples -/

/-- Value of a row label in the bijective base-26 scheme (`A` = 1, ..., `Z` = 26, `AA` = 27). -/
def AlphaToNum (letters : List Char) : Nat :=
  letters.foldl (fun acc c => acc * 26 + (c.toUpper.toNat - 64)) 0

/-- Value of a string of decimal digits. -/
def ParseInt (digits : List Char) : Nat :=
  digits.foldl (fun acc c => acc * 10 + (c.toNat - 48)) 0

/-- Modelled from the spec: `wtype.MakeWellCoordsA1`, not in the source tree. "Well-coordinate
parser accepts `<row-letters>:<col>` and `<row-letters><col>`", "row letters follow a bijective
base-26 scheme", and a coordinate is a zero-based (column `X`, row `Y`) pair; a string of
another form gives `(-1, -1)`. -/
def MakeWellCoordsA1 (a1 : String) : WellCoords :=
  let letters := a1.toList.takeWhile Char.isAlpha
  let rest := a1.toList.dropWhile Char.isAlpha
  let digits := match rest with
    | ':' :: ds => ds
    | ds => ds
  if letters = [] ∨ digits = [] ∨ ¬ digits.all Char.isDigit then ⟨-1, -1⟩
  else ⟨(ParseInt digits : Int) - 1, (AlphaToNum letters : Int) - 1⟩

/-- Modelled from the spec: a tip supply for the examples, standing for the methods
`GetCleanTips` and `DropDirtyTips` of `LHProperties`, which are not in the source tree. The
state is (clean tips left, room left in the waste): `GetCleanTips` "returns `multi`
coordinates ... and marks them taken", `DropDirtyTips` "returns `multi` waste-position
coordinates and increments waste occupancy; fails if capacity would be exceeded". -/
def counterTips : TipOps (Nat × Nat) where
  GetCleanTips := fun st tiptype _ _ multi =>
    if multi.toNat ≤ st.1 then
      some ((List.replicate multi.toNat "A1", List.replicate multi.toNat "tipbox",
             List.replicate multi.toNat tiptype), (st.1 - multi.toNat, st.2))
    else none
  DropDirtyTips := fun st _ multi =>
    if multi.toNat ≤ st.2 then
      some ((List.replicate multi.toNat "A1", List.replicate multi.toNat "tipwaste",
             List.replicate multi.toNat "waste"), (st.1, st.2 - multi.toNat))
    else none

/-- A categorical condition on the liquid class, as built by `AddCategoryConditionOn`. -/
def glycerolCondition : LHVariableCondition := ⟨"LIQUIDCLASS", .category ⟨"glycerol"⟩⟩

/-- A categorical condition on the plate type of the source. -/
def pcrPlateCondition : LHVariableCondition := ⟨"FROMPLATETYPE", .category ⟨"pcrplate"⟩⟩

/-- A suck of 10 ul of glycerol from a PCR plate. -/
def glycerolSuck : RobotInstruction :=
  .suck { What := ["glycerol"], PltFrom := ["position_1"], WellFrom := ["A1"],
          Volume := [⟨10, ul⟩], FPlateType := ["pcrplate"], FVolume := [⟨100, ul⟩], Multi := 1 }

/-- A rule of priority 10 for glycerol. -/
def ruleHigh : LHPolicyRule := { Name := "high", Conditions := [glycerolCondition], Priority := 10 }

/-- A rule of priority 1 for glycerol. -/
def ruleLow : LHPolicyRule := { Name := "low", Conditions := [glycerolCondition], Priority := 1 }

/-- A rule of priority 5 with two conditions. -/
def ruleSpecific : LHPolicyRule :=
  { Name := "specific", Conditions := [glycerolCondition, pcrPlateCondition], Priority := 5 }

/-- A rule of priority 5 with one condition. -/
def ruleGeneral : LHPolicyRule :=
  { Name := "general", Conditions := [glycerolCondition], Priority := 5 }

/-- The policies of the example rule sets: each rule sets the aspiration speed. -/
def examplePolicies : List (String × LHPolicy) :=
  [("default", ⟨[("ASPZOFFSET", .float 1)]⟩), ("high", ⟨[("ASPSPEED", .float 10)]⟩),
   ("low", ⟨[("ASPSPEED", .float 1)]⟩), ("specific", ⟨[("ASPSPEED", .float 2)]⟩),
   ("general", ⟨[("ASPSPEED", .float 3)]⟩)]

/-- A rule of priority `-2` without conditions: it matches every instruction. -/
def ruleNegative : LHPolicyRule := { Name := "negative", Conditions := [], Priority := -2 }

/-- A rule set whose only rule has priority `-2`. -/
def negativeRuleSet : LHPolicyRuleSet :=
  { Policies := [("default", ⟨[("ASPZOFFSET", .float 1)]⟩),
                 ("negative", ⟨[("ASPZOFFSET", .float 2)]⟩)],
    Rules := [("negative", ruleNegative)] }

/-- The rule of the policy-merge scenario: glycerol, priority 10. -/
def ruleGlycerol : LHPolicyRule :=
  { Name := "glycerol", Conditions := [glycerolCondition], Priority := 10 }

/-- The rule set of the policy-merge scenario. -/
def glycerolRuleSet : LHPolicyRuleSet :=
  { Policies := [("default", ⟨[("ASPZOFFSET", .float 1), ("DSPZOFFSET", .float (1 / 2))]⟩),
                 ("glycerol", ⟨[("ASPSPEED", .float (3 / 2)), ("ASPZOFFSET", .float (1 / 5))]⟩)],
    Rules := [("glycerol", ruleGlycerol)] }

/-- The slice stored in the cell `(f, t)` of the table of `GetParallelSetsFor` (empty for a
`nil` row and outside the table). -/
def cell (tfrs : ParallelTable) (f t : Nat) : List Nat :=
  ((tfrs.getD f none).getD newRow).getD t []

/-- The shape of the table of `GetParallelSetsFor`: twelve rows, each `nil` or of twelve
slices. -/
def TableWF (tfrs : ParallelTable) : Prop :=
  tfrs.length = 12 ∧ ∀ (f : Nat) (a : List (List Nat)), tfrs[f]? = some (some a) → a.length = 12

/-- The spec's grouping key of the transfer `i`: the pair (source orient-coordinate,
destination orient-coordinate), "the column for vertical channels and row for horizontal". -/
def orientCoords (parse : String → WellCoords) (ins : TransferInstruction)
    (channel : LHChannelParameter) (i : Nat) : Option (Int × Int) :=
  match ins.WellFrom[i]?, ins.WellTo[i]? with
  | some wf, some wt =>
    some (if channel.Orientation = LHVChannel then (parse wf).X else (parse wf).Y,
          if channel.Orientation = LHVChannel then (parse wt).X else (parse wt).Y)
  | _, _ => none

/-- The spec's group of the key `(f, t)`: the indices of the transfers that share it, in
increasing order. -/
def parallelGroup (parse : String → WellCoords) (ins : TransferInstruction)
    (channel : LHChannelParameter) (f t : Int) : List Nat :=
  (List.range ins.What.length).filter (fun i => orientCoords parse ins channel i = some (f, t))

/-- A channel of 1 to 50 ul with `multi` channels in the given orientation. -/
def exampleChannel (multi orientation : Int) : LHChannelParameter :=
  { ID := "c", Name := "channel", Minvol := ⟨1, ul⟩, Maxvol := ⟨50, ul⟩,
    Minspd := ⟨1, "ml/min"⟩, Maxspd := ⟨10, "ml/min"⟩, Multi := multi, Independent := false,
    Orientation := orientation, Head := 0 }

/-- A transfer of `vol` ul of each liquid from the wells `wellsFrom` to the wells `wellsTo`,
from source wells that hold 100 ul. -/
def exampleTransfer (entries : List (String × String × String × ℚ)) : TransferInstruction :=
  { What := entries.map (fun e => e.1),
    PltFrom := entries.map (fun _ => "position_1"),
    PltTo := entries.map (fun _ => "position_2"),
    WellFrom := entries.map (fun e => e.2.1),
    WellTo := entries.map (fun e => e.2.2.1),
    Volume := entries.map (fun e => ⟨e.2.2.2, ul⟩),
    FPlateType := entries.map (fun _ => "pcrplate"),
    TPlateType := entries.map (fun _ => "pcrplate"),
    FVolume := entries.map (fun _ => ⟨100, ul⟩),
    TVolume := entries.map (fun _ => ⟨0, ul⟩) }

/-- The parallel-detection scenario: eight transfers `A1..H1 → A2..H2` of 20 ul. -/
def columnTransfer : TransferInstruction :=
  exampleTransfer [("water", "A1", "A2", 20), ("water", "B1", "B2", 20),
    ("water", "C1", "C2", 20), ("water", "D1", "D2", 20), ("water", "E1", "E2", 20),
    ("water", "F1", "F2", 20), ("water", "G1", "G2", 20), ("water", "H1", "H2", 20)]

/-- Two transfers within the thirteenth column of a plate of 24 columns. -/
def wideTransfer : TransferInstruction :=
  exampleTransfer [("water", "A13", "A13", 20), ("water", "B13", "B13", 20)]

/-! ## Observations on the emitted program -/

/-- A head for the examples: channel parameters of `lo` to `hi` ul on head number `head`,
with an adaptor of the same parameters and no tip loaded. Distinct heads have distinct
addresses. -/
def exampleHead (name : String) (head : Int) (lo hi : ℚ) : LHHead :=
  { Name := name, Manufacturer := "factory", ID := name,
    Adaptor := some { Name := name, ID := name, Manufacturer := "factory",
                      Params := ⟨.heap (2 * head.toNat + 1),
                        { exampleChannel 1 LHVChannel with
                          Name := name, Minvol := ⟨lo, ul⟩, Maxvol := ⟨hi, ul⟩, Head := head }⟩,
                      Ntipsloaded := 0, Tiptypeloaded := none },
    Params := ⟨.heap (2 * head.toNat),
      { exampleChannel 1 LHVChannel with
        Name := name, Minvol := ⟨lo, ul⟩, Maxvol := ⟨hi, ul⟩, Head := head }⟩ }

/-- A tip type for the examples, of `lo` to `hi` ul. -/
def exampleTip (name : String) (lo hi : ℚ) : LHTip :=
  { ID := name, Type_ := name, Mnfr := "factory", Dirty := false, MaxVol := ⟨hi, ul⟩,
    MinVol := ⟨lo, ul⟩ }

/-- The hardware of the scenarios: one head of 1 to 50 ul, one tip type, 96 clean tips and a
waste with room for 96. -/
def exampleHardware : LHProperties (Nat × Nat) :=
  { HeadsLoaded := [exampleHead "head" 0 1 50], Tips := [exampleTip "tip50" 1 50],
    tipState := (96, 96) }

/-- A `default` policy with every option that the lowering of a transfer reads. -/
def exampleDefault : LHPolicy :=
  ⟨[("CAN_MULTI", .bool false), ("TIP_REUSE_LIMIT", .int 100), ("ASPZOFFSET", .float 1),
    ("DSPREFERENCE", .int 0), ("DSPZOFFSET", .float (1 / 2)), ("TOUCHOFF", .bool false),
    ("BLOWOUTREFERENCE", .int 1), ("BLOWOUTOFFSET", .float (-1 / 2)),
    ("BLOWOUTVOLUME", .float 200), ("BLOWOUTVOLUMEUNIT", .str "ul"),
    ("PTZREFERENCE", .int 1), ("PTZOFFSET", .float (-1 / 2))]⟩

/-- The compiler state of the scenarios: no rule, the policy `exampleDefault`. -/
def exampleState : CompilerState (Nat × Nat) :=
  { policy := { Policies := [("default", exampleDefault)], Rules := [] },
    prms := exampleHardware }

/-- What a block-level program does with tips and liquid: tips loaded on a head, tips dropped
from a head, and a single-channel transfer of a liquid class with its volume. -/
inductive BlockEvent
  | tipsOn (head : Int)
  | tipsOff (head : Int)
  | transfer (what : String) (volume : Option Volume)
deriving DecidableEq, Repr

/-- The event of an instruction returned by a block. -/
def blockEvent : RobotInstruction → Option BlockEvent
  | .loadTipsMove i => some (.tipsOn i.Head)
  | .unloadTipsMove i => some (.tipsOff i.Head)
  | .singleChannelTransfer i => some (.transfer i.What i.Volume)
  | _ => none

/-- Hardware with two heads: head 0 of 10 to 50 ul and head 1 of 1 to 5 ul, with a tip type
for each. -/
def twoHeadHardware : LHProperties (Nat × Nat) :=
  { HeadsLoaded := [exampleHead "big" 0 10 50, exampleHead "small" 1 1 5],
    Tips := [exampleTip "tip50" 10 50, exampleTip "tip5" 1 5],
    tipState := (96, 96) }

/-- A single-channel block of two entries that select different heads: 4 ul of serum (head 1)
and then 20 ul of buffer (head 0). -/
def mixedBlock : SingleChannelBlockInstruction :=
  { What := ["serum", "buffer"],
    PltFrom := ["position_1", "position_1"], PltTo := ["position_2", "position_2"],
    WellFrom := ["A1", "A2"], WellTo := ["B1", "B2"],
    Volume := [⟨4, ul⟩, ⟨20, ul⟩],
    FPlateType := ["pcrplate", "pcrplate"], TPlateType := ["pcrplate", "pcrplate"],
    FVolume := [⟨100, ul⟩, ⟨100, ul⟩], TVolume := [⟨0, ul⟩, ⟨0, ul⟩],
    Prms := some (exampleHead "big" 0 10 50).Params.val }

/-- Four transfers with a two-channel vertical head in mind: the transfers 0 and 1 stay within
column 2, the transfers 2 and 3 within column 1. -/
def crossTransfer : TransferInstruction :=
  exampleTransfer [("water", "A2", "A2", 20), ("water", "B2", "B2", 20),
    ("water", "A1", "A1", 20), ("water", "B1", "B1", 20)]

/-- Hardware with one head of 1 to 1000 ul and two tip types that state their minimum in
different units: `tip500` of 500 to 1000 ul and `tip5ml` of 0.1 to 5 ml. -/
def unitTipsHardware : LHProperties (Nat × Nat) :=
  { HeadsLoaded := [exampleHead "head" 0 1 1000],
    Tips := [exampleTip "tip500" 500 1000,
             { exampleTip "tip5ml" 0 0 with MinVol := ⟨1 / 10, ml⟩, MaxVol := ⟨5, ml⟩ }],
    tipState := (96, 96) }

/-- Hardware with one head of 1 to 1000 ul and one tip type whose minimum is stated in
nanolitres: 500 nl to 1000 ul. -/
def nanoTipHardware : LHProperties (Nat × Nat) :=
  { HeadsLoaded := [exampleHead "head" 0 1 1000],
    Tips := [{ exampleTip "tip1000" 0 1000 with MinVol := ⟨500, nl⟩ }],
    tipState := (96, 96) }

/-- One step of the tip-bracketing automaton over the instructions returned by a
single-channel block. The state is whether a set of tips is loaded; `none` is a violation:
tips are loaded only when none are, dropped only when some are, and a single-channel transfer
needs loaded tips. Nothing else may occur. -/
def bracketStep : Option Bool → RobotInstruction → Option Bool
  | some false, .loadTipsMove _ => some true
  | some true, .unloadTipsMove _ => some false
  | some true, .singleChannelTransfer _ => some true
  | _, _ => none

/-- The events that the tip-reuse rule prescribes for the single-channel transfers `ts`
(liquid class and volume), the first of which is the transfer number `k` (counted from zero)
of its block, with a limit of `L`: tips are dropped and loaded again immediately before the
transfers whose number is a positive multiple of `L + 1`, and nowhere else. -/
def reuseEvents (L : Nat) (head : Int) : Nat → List (String × Volume) → List BlockEvent
  | _, [] => []
  | k, (w, v) :: rest =>
    (if k ≠ 0 ∧ k % (L + 1) = 0 then [.tipsOff head, .tipsOn head] else [])
      ++ .transfer w (some v) :: reuseEvents L head (k + 1) rest

/-- The rule set of the scenarios with the tip-reuse limit `L`. -/
def limitPolicy (L : Int) : LHPolicyRuleSet :=
  { Policies := [("default", exampleDefault.set "TIP_REUSE_LIMIT" (.int L))], Rules := [] }

/-- A single-channel block of `n` transfers of `vol` ul of water, for a channel of 1 to
50 ul. -/
def waterBlock (n : Nat) (vol : ℚ) : SingleChannelBlockInstruction :=
  { What := List.replicate n "water",
    PltFrom := List.replicate n "position_1", PltTo := List.replicate n "position_2",
    WellFrom := List.replicate n "A1", WellTo := List.replicate n "B1",
    Volume := List.replicate n ⟨vol, ul⟩,
    FPlateType := List.replicate n "pcrplate", TPlateType := List.replicate n "pcrplate",
    FVolume := List.replicate n ⟨100, ul⟩, TVolume := List.replicate n ⟨0, ul⟩,
    Prms := some (exampleHead "head" 0 1 50).Params.val }

/-- Ten sequential single-channel transfers of 10 ul of the same liquid class. -/
def tenBlock : SingleChannelBlockInstruction := waterBlock 10 10

/-- The number of transfers for which the loaded tips have been used once `k` transfers of a
block have been emitted under the tip-reuse rule with the limit `L`: it runs from 1 to
`L + 1` and starts again. -/
def usesAfter (L k : Nat) : Nat := if k = 0 then 0 else (k - 1) % (L + 1) + 1

/-- A head for the examples with `multi` vertical channels of 1 to 50 ul and an adaptor of
the same parameters with no tip loaded. -/
def multiHead (multi : Int) : LHHead :=
  { Name := "multihead", Manufacturer := "factory", ID := "multihead",
    Adaptor := some { Name := "multihead", ID := "multihead", Manufacturer := "factory",
                      Params := ⟨.heap 1, exampleChannel multi LHVChannel⟩,
                      Ntipsloaded := 0, Tiptypeloaded := none },
    Params := ⟨.heap 0, exampleChannel multi LHVChannel⟩ }

/-- Hardware with one head of eight vertical channels of 1 to 50 ul, one tip type, 96 clean
tips and a waste with room for 96. -/
def multiHardware : LHProperties (Nat × Nat) :=
  { HeadsLoaded := [multiHead 8], Tips := [exampleTip "tip50" 1 50], tipState := (96, 96) }

/-- The rule set of the multi-channel scenarios: `CAN_MULTI` is true and the tip-reuse limit
is `L`. -/
def multiPolicy (L : Int) : LHPolicyRuleSet :=
  { Policies := [("default",
      (exampleDefault.set "CAN_MULTI" (.bool true)).set "TIP_REUSE_LIMIT" (.int L))],
    Rules := [] }

/-- The multi-channel blocks among the instructions `l`. -/
def multiBlocks (l : List RobotInstruction) : List MultiChannelBlockInstruction :=
  l.filterMap (fun c => match c with
    | .multiChannelBlock b => some b
    | _ => none)

/-- The multi-channel transfers among the instructions `l`. -/
def multiTransfers (l : List RobotInstruction) : List MultiChannelTransferInstruction :=
  l.filterMap (fun c => match c with
    | .multiChannelTransfer m => some m
    | _ => none)

/-- What a multi-channel block does with tips and liquid: tips loaded, tips dropped, and a
multi-channel transfer with its per-channel volumes. -/
inductive MultiEvent
  | tipsOn (head : Int) (multi : Int)
  | tipsOff (head : Int) (multi : Int)
  | transfer (volume : List Volume)
deriving DecidableEq, Repr

/-- The event of an instruction returned by a multi-channel block. -/
def multiEvent : RobotInstruction → Option MultiEvent
  | .loadTipsMove i => some (.tipsOn i.Head i.Multi)
  | .unloadTipsMove i => some (.tipsOff i.Head i.Multi)
  | .multiChannelTransfer i => some (.transfer i.Volume)
  | _ => none

/-- Eight transfers `A1..H1 → A2..H2` of 100 ul each, twice the maximum of the channels, from
source wells that hold 200 ul. -/
def deepTransfer : TransferInstruction :=
  { exampleTransfer [("water", "A1", "A2", 100), ("water", "B1", "B2", 100),
      ("water", "C1", "C2", 100), ("water", "D1", "D2", 100), ("water", "E1", "E2", 100),
      ("water", "F1", "F2", 100), ("water", "G1", "G2", 100), ("water", "H1", "H2", 100)] with
    FVolume := List.replicate 8 ⟨200, ul⟩ }

/-- A transfer that is exhausted: its only entry has the volume zero. -/
def exhaustedTransfer : TransferInstruction := exampleTransfer [("water", "A1", "B2", 0)]

/-- The eight transfers `A1..H1 → A2..H2`, all exhausted. -/
def exhaustedColumn : TransferInstruction :=
  exampleTransfer [("water", "A1", "A2", 0), ("water", "B1", "B2", 0),
    ("water", "C1", "C2", 0), ("water", "D1", "D2", 0), ("water", "E1", "E2", 0),
    ("water", "F1", "F2", 0), ("water", "G1", "G2", 0), ("water", "H1", "H2", 0)]

/-! ## Tip boxes (`lhtypes.go`) -/

/-- `wtype.LHTipbox`, with the fields that `GetTips` reads or writes and those that tell the
box apart; `Tips[i][j]` is the tip in column `i` and row `j`, `nil` when there is none. -/
structure LHTipbox where
  ID : String
  Type_ : String
  Mnfr : String
  Nrows : Int
  Ncols : Int
  Tiptype : Option LHTip
  NTips : Int
  Tips : List (List (Option LHTip))
deriving DecidableEq, Repr

/-- `NewLHTipbox` followed by `initialize_tips`: a box of `ncols` columns of `nrows` copies
of the tip type. -/
def NewLHTipbox (nrows ncols : Int) (manufacturer boxtype : String) (tiptype : LHTip) :
    LHTipbox :=
  { ID := "tipbox", Type_ := boxtype, Mnfr := manufacturer, Nrows := nrows, Ncols := ncols,
    Tiptype := some tiptype, NTips := nrows * ncols,
    Tips := List.replicate ncols.toNat (List.replicate nrows.toNat (some tiptype)) }

/-- The read `tb.Tips[i][j]`. -/
def LHTipbox.tipAt (tb : LHTipbox) (i j : Nat) : Except Fault (Option LHTip) := do
  idx (← idx tb.Tips i) j

/-- The counting loop of `GetTips` over the positions `cells` of one line of the box: the
number of positions with a tip that is not dirty. -/
def LHTipbox.countClean (tb : LHTipbox) : List (Nat × Nat) → Except Fault Int
  | [] => .ok 0
  | (i, j) :: rest => do
    let here : Int := match (← tb.tipAt i j) with
      | some tip => if tip.Dirty then 0 else 1
      | none => 0
    let c ← tb.countClean rest
    pure (here + c)

/-- The loop of `GetTips` that writes `tb.Tips[i][j] = nil` for the positions `cells`. -/
def LHTipbox.clearTips (tb : LHTipbox) : List (Nat × Nat) → Except Fault LHTipbox
  | [] => .ok tb
  | (i, j) :: rest => do
    let col ← idx tb.Tips i
    if j < col.length then
      LHTipbox.clearTips { tb with Tips := tb.Tips.set i (col.set j none) } rest
    else .error .indexOutOfRange

/-- The outer loop of `GetTips` over the lines of the box (rows for a horizontal channel,
columns for a vertical one), each given by the positions that are counted and the positions
that are taken. The first line with at least `multi` clean tips ends the loop: its first
`multi` positions are emptied and their coordinates `WellCoords{j, i}` are returned.
`FormatA1` is not in the source tree: the coordinates are returned as they are. -/
def LHTipbox.scan (tb : LHTipbox) (multi : Int) :
    List (List (Nat × Nat) × List (Nat × Nat)) →
    Except Fault (Option (List WellCoords) × LHTipbox)
  | [] => .ok (none, tb)
  | (counted, taken) :: rest => do
    let c ← tb.countClean counted
    if c ≥ multi then
      if multi < 0 then .error .makeSliceNegative
      else
        let tb2 ← tb.clearTips taken
        pure (some (taken.map (fun p => WellCoords.mk p.2 p.1)), tb2)
    else tb.scan multi rest

/-- `LHTipbox.GetTips(mirror, multi, orient)`: the coordinates returned (`none` for `nil`)
and the box after the call. -/
def LHTipbox.GetTips (tb : LHTipbox) (_mirror : Bool) (multi orient : Int) :
    Except Fault (Option (List WellCoords) × LHTipbox) := do
  let (ret, tb2) ←
    if orient = LHHChannel then
      tb.scan multi ((List.range tb.Nrows.toNat).map (fun j =>
        ((List.range tb.Ncols.toNat).map (fun i => (i, j)),
         (List.range multi.toNat).map (fun i => (i, j)))))
    else if orient = LHVChannel then
      tb.scan multi ((List.range tb.Ncols.toNat).map (fun i =>
        ((List.range tb.Nrows.toNat).map (fun j => (i, j)),
         (List.range multi.toNat).map (fun j => (i, j)))))
    else pure (none, tb)
  pure (ret, { tb2 with NTips := tb2.NTips - multi })

/-- A box of 8 rows and 12 columns of clean tips. -/
def exampleTipbox : LHTipbox := NewLHTipbox 8 12 "factory" "tipbox" (exampleTip "tip50" 1 50)

/-! ## Tip waste (`lhtypes.go`) -/

/-- The value of a Go `int` (64 bits, two's complement) after an arithmetic operation whose
exact result is `x`. -/
def wrapInt (x : Int) : Int := (x + 2 ^ 63) % 2 ^ 64 - 2 ^ 63

/-- `wtype.LHTipwaste`, with the fields that `Empty` and `Dispose` read or write and those that
name the waste. `Capacity` and `Contents` are Go `int`s. -/
structure LHTipwaste where
  ID : String
  Type_ : String
  Mnfr : String
  Capacity : Int
  Contents : Int
deriving DecidableEq, Repr

/-- `NewLHTipwaste(capacity, typ, mfr, ...)`: an empty waste. -/
def NewLHTipwaste (capacity : Int) (typ mfr : String) : LHTipwaste :=
  { ID := "tipwaste", Type_ := typ, Mnfr := mfr, Capacity := capacity, Contents := 0 }

/-- `LHTipwaste.Empty`. -/
def LHTipwaste.Empty (lht : LHTipwaste) : LHTipwaste := { lht with Contents := 0 }

/-- `LHTipwaste.Dispose(n)`: the result and the waste after the call. -/
def LHTipwaste.Dispose (lht : LHTipwaste) (n : Int) : Bool × LHTipwaste :=
  if wrapInt (lht.Capacity - lht.Contents) < n then (false, lht)
  else (true, { lht with Contents := wrapInt (lht.Contents + n) })

/-- A call on a tip waste. -/
inductive WasteCall
  | dispose (n : Int)
  | empty
deriving DecidableEq, Repr

/-- The waste after a sequence of calls. -/
def LHTipwaste.run (lht : LHTipwaste) : List WasteCall → LHTipwaste
  | [] => lht
  | .dispose n :: rest => LHTipwaste.run (lht.Dispose n).2 rest
  | .empty :: rest => LHTipwaste.run lht.Empty rest

/-! ## Construction of conditions (`lhpolicy.go`) -/

/-- `LHVariableCondition.SetNumeric(up, low)` on `NewLHVariableCondition(variable)`: the
condition built, or the panic "Nonsensical numeric condition requested". -/
def SetNumeric (testvariable : String) (up low : ℚ) : Except Fault LHVariableCondition :=
  if up > low then .error .nonsensicalCondition
  else .ok ⟨testvariable, .numeric ⟨up, low⟩⟩

/-- `LHVariableCondition.SetCategoric(category)` on `NewLHVariableCondition(variable)`. -/
def SetCategoric (testvariable category : String) : Except Fault LHVariableCondition :=
  if category = "" then .error .emptyCategory
  else .ok ⟨testvariable, .category ⟨category⟩⟩

/-- `LHPolicyRule.AddNumericConditionOn(variable, up, low)`. -/
def LHPolicyRule.AddNumericConditionOn (lhpr : LHPolicyRule) (testvariable : String) (up low : ℚ) :
    Except Fault LHPolicyRule := do
  let lhvc ← SetNumeric testvariable up low
  pure { lhpr with Conditions := lhpr.Conditions ++ [lhvc] }

/-- `LHPolicyRule.AddCategoryConditionOn(variable, category)`. -/
def LHPolicyRule.AddCategoryConditionOn (lhpr : LHPolicyRule) (testvariable category : String) :
    Except Fault LHPolicyRule := do
  let lhvc ← SetCategoric testvariable category
  pure { lhpr with Conditions := lhpr.Conditions ++ [lhvc] }

/-! ## The sequences that the spec prescribes for suck, blow and reset -/

/-- The sequence that the spec prescribes for a suck, given the values of the options of the
resolved policy (`none` for an option that is not set): the entry group or the single move,
the pre-mix, the pipette speed, the aspirate, the speed reset and the wait. -/
def suckSequence (ins : SuckInstruction) (entryspeed : Option ℚ) (zoffset defaultzspeed : ℚ)
    (premix : Option Int) (premixvol : Option ℚ) (aspspeed : Option ℚ)
    (defaultpipettespeed : ℚ) (aspwait : Option ℚ) : List RobotInstruction :=
  let n := ins.Multi.toNat
  let into : RobotInstruction :=
    .move { Head := ins.Head, Pos := ins.PltFrom, Plt := ins.FPlateType, Well := ins.WellFrom,
            WVolume := ins.FVolume, Reference := List.replicate n 0,
            OffsetZ := List.replicate n zoffset }
  (match entryspeed with
    | some speed =>
      [.move { Head := ins.Head, Pos := ins.PltFrom, Plt := ins.FPlateType,
               Well := ins.WellFrom, WVolume := ins.FVolume, Reference := List.replicate n 1,
               OffsetZ := List.replicate n 5 },
       .setDriveSpeed { Drive := "Z", Speed := speed },
       into,
       .setDriveSpeed { Drive := "Z", Speed := defaultzspeed }]
    | none => [into])
  ++ (match premix with
    | some cycles =>
      [.moveMix { Plt := ins.PltFrom, PlateType := ins.FPlateType, Well := ins.WellFrom,
                  FVolume := ins.FVolume, Multi := ins.Multi,
                  Volume := (match premixvol with
                    | some x => List.replicate n ⟨x, ul⟩
                    | none => ins.Volume),
                  Cycles := List.replicate n cycles }]
    | none => [])
  ++ (match aspspeed with
    | some speed => [.setPipetteSpeed { Head := ins.Head, Channel := -1, Speed := speed }]
    | none => [])
  ++ [.aspirate { Head := ins.Head, Volume := ins.Volume, Multi := ins.Multi,
                  Overstroke := ins.Overstroke, What := ins.What, Plt := ins.FPlateType }]
  ++ (match aspspeed with
    | some _ =>
      [.setPipetteSpeed { Head := ins.Head, Channel := -1, Speed := defaultpipettespeed }]
    | none => [])
  ++ (match aspwait with
    | some t => [.wait { Time := t }]
    | none => [])

/-- The sequence that the spec prescribes for a blow, given the values of the options of the
resolved policy: the entry group or the single move, the pipette speed, the dispense, the
speed reset, the wait, the post-mix and the touch-off move. -/
def blowSequence (ins : BlowInstruction) (entryspeed : Option ℚ) (reference : Int)
    (zoffset defaultzspeed : ℚ) (dspspeed : Option ℚ) (defaultpipettespeed : ℚ)
    (dspwait : Option ℚ) (postmix : Option Int) (postmixvol : Option ℚ) (touchoff : Bool)
    (touchoffset : ℚ) : List RobotInstruction :=
  let n := ins.Multi.toNat
  let into : RobotInstruction :=
    .move { Head := ins.Head, Pos := ins.PltTo, Plt := ins.TPlateType, Well := ins.WellTo,
            WVolume := ins.TVolume, Reference := List.replicate n reference,
            OffsetZ := List.replicate n zoffset }
  (match entryspeed with
    | some speed =>
      [.move { Head := ins.Head, Pos := ins.PltTo, Plt := ins.TPlateType, Well := ins.WellTo,
               WVolume := ins.TVolume, Reference := List.replicate n 1,
               OffsetZ := List.replicate n 5 },
       .setDriveSpeed { Drive := "Z", Speed := speed },
       into,
       .setDriveSpeed { Drive := "Z", Speed := defaultzspeed }]
    | none => [into])
  ++ (match dspspeed with
    | some speed => [.setPipetteSpeed { Head := ins.Head, Channel := -1, Speed := speed }]
    | none => [])
  ++ [.dispense { Head := ins.Head, Volume := ins.Volume, Multi := ins.Multi,
                  Plt := ins.TPlateType, What := ins.What }]
  ++ (match dspspeed with
    | some _ =>
      [.setPipetteSpeed { Head := ins.Head, Channel := -1, Speed := defaultpipettespeed }]
    | none => [])
  ++ (match dspwait with
    | some t => [.wait { Time := t }]
    | none => [])
  ++ (match postmix with
    | some cycles =>
      [.moveMix { Plt := ins.PltTo, PlateType := ins.TPlateType, Well := ins.WellTo,
                  FVolume := ins.TVolume, Multi := ins.Multi,
                  Volume := (match postmixvol with
                    | some x => List.replicate n ⟨x, ul⟩
                    | none => ins.Volume),
                  Cycles := List.replicate n cycles }]
    | none => [])
  ++ (if touchoff then
      [.move { Head := ins.Head, Pos := ins.PltTo, Plt := ins.TPlateType, Well := ins.WellTo,
               WVolume := ins.TVolume, Reference := List.replicate n 0,
               OffsetZ := List.replicate n touchoffset }]
    else [])

/-- The sequence that the spec prescribes for a reset on the head `head`: the move to the
blowout position, the blowout, the move to the piston-reset position and the piston reset of
all channels. -/
def resetSequence (ins : ResetInstruction) (head : Int) (blowoutreference : Int)
    (blowoutoffset blowoutvolume : ℚ) (blowoutvolumeunit : String) (ptzreference : Int)
    (ptzoffset : ℚ) : List RobotInstruction :=
  [.move { Well := ins.WellTo, Pos := ins.PltTo, Plt := ins.TPlateType, WVolume := ins.TVolume,
           Head := head, Reference := [blowoutreference], OffsetZ := [blowoutoffset] },
   .blowout { Head := head,
              Volume := [NewVolume blowoutvolume (ParsePrefixedUnit blowoutvolumeunit)],
              Multi := ins.What.length, Plt := ins.TPlateType, What := ins.What },
   .move { Well := ins.WellTo, Pos := ins.PltTo, Plt := ins.TPlateType, WVolume := ins.TVolume,
           Head := head, Reference := [ptzreference], OffsetZ := [ptzoffset] },
   .ptz { Head := head, Channel := -1 }]

/-- A `default` policy in which every option of the suck and of the blow is set. -/
def richDefault : LHPolicy :=
  ⟨[("ASPZOFFSET", .float 1), ("ASPENTRYSPEED", .float 2), ("DEFAULTZSPEED", .float 10),
    ("PRE_MIX", .int 3), ("PRE_MIX_VOL", .float 20), ("ASPSPEED", .float (3 / 2)),
    ("DEFAULTPIPETTESPEED", .float 3), ("ASP_WAIT", .float (1 / 2)),
    ("DSPREFERENCE", .int 0), ("DSPZOFFSET", .float (1 / 2)), ("DSPENTRYSPEED", .float 2),
    ("DSPSPEED", .float (3 / 2)), ("DSP_WAIT", .float (1 / 4)), ("POST_MIX", .int 2),
    ("TOUCHOFF", .bool true), ("TOUCHOFFSET", .float (1 / 10))]⟩

/-- The rule set without rules whose `default` policy is `richDefault`. -/
def richPolicy : LHPolicyRuleSet := { Policies := [("default", richDefault)], Rules := [] }

/-- A suck of 10 ul of water from `A1` on one channel. -/
def exampleSuck : SuckInstruction :=
  { What := ["water"], PltFrom := ["position_1"], WellFrom := ["A1"], Volume := [⟨10, ul⟩],
    FPlateType := ["pcrplate"], FVolume := [⟨100, ul⟩], Multi := 1,
    Prms := some (exampleChannel 1 LHVChannel) }

/-- A blow of 10 ul of water into `B2` on one channel. -/
def exampleBlow : BlowInstruction :=
  { What := ["water"], PltTo := ["position_2"], WellTo := ["B2"], Volume := [⟨10, ul⟩],
    TPlateType := ["pcrplate"], TVolume := [⟨0, ul⟩], Multi := 1,
    Prms := some (exampleChannel 1 LHVChannel) }

/-- A reset after a dispense of 10 ul of water into `B2`, on the head 0. -/
def exampleReset : ResetInstruction :=
  { What := ["water"], PltFrom := ["position_1"], PltTo := ["position_2"],
    WellFrom := ["A1"], WellTo := ["B2"], Volume := [⟨10, ul⟩], FPlateType := ["pcrplate"],
    TPlateType := ["pcrplate"], FVolume := [⟨100, ul⟩], TVolume := [⟨0, ul⟩],
    Prms := some (exampleChannel 1 LHVChannel) }

/-- A head whose own channel parameters (10 to 1000 ul) differ from those of its adaptor
(1 to 50 ul); `ntips` tips of the type `tip` are loaded on the adaptor. -/
def adaptedHead (ntips : Int) (tip : Option LHTip) : LHHead :=
  { Name := "head", Manufacturer := "factory", ID := "head",
    Adaptor := some { Name := "adaptor", ID := "adaptor", Manufacturer := "factory",
                      Params := ⟨.heap 1,
                        { exampleChannel 1 LHVChannel with
                          Name := "adaptor", Minvol := ⟨1, ul⟩, Maxvol := ⟨50, ul⟩ }⟩,
                      Ntipsloaded := ntips, Tiptypeloaded := tip },
    Params := ⟨.heap 0,
      { exampleChannel 1 LHVChannel with
        Name := "head", Minvol := ⟨10, ul⟩, Maxvol := ⟨1000, ul⟩ }⟩ }

/-- Hardware whose only head has a tip of 1 to 50 ul loaded on its adaptor of 1 to 50 ul; the
one known tip type is `tip50`. -/
def tipLoadedHardware : LHProperties (Nat × Nat) :=
  { HeadsLoaded := [adaptedHead 1 (some (exampleTip "tip50" 1 50))],
    Tips := [exampleTip "tip50" 1 50], tipState := (96, 96) }

/-! ## Driver emission (`compositerobotinstruction.go`) -/

/-- A call on the interface `LiquidhandlingDriver`, which is not in the source tree: the
method and its arguments. -/
inductive DriverCall
  | mix (head : Int) (volume fvolume : List ℚ) (platetype : List String) (cycles : List Int)
      (multi : Int) (prms : LHPolicy)
deriving DecidableEq, Repr

/-- `MixInstruction.OutputTo(driver)`: the calls made on the driver. Both slices are filled
from `mi.Volume`, as in the source. -/
def MixInstruction.OutputTo (mi : MixInstruction) : List DriverCall :=
  let vols := mi.Volume.map (fun v => v.ConvertTo (ParsePrefixedUnit "ul"))
  let fvols := mi.Volume.map (fun v => v.ConvertTo (ParsePrefixedUnit "ul"))
  [.mix mi.Head vols fvols mi.PlateType mi.Cycles mi.Multi mi.Prms]

/-- A mix of 10 ul, three times, in a well that holds 100 ul. -/
def exampleMix : MixInstruction :=
  { Head := 0, Volume := [⟨10, ul⟩], FVolume := [⟨100, ul⟩], PlateType := ["pcrplate"],
    Multi := 1, Cycles := [3] }

/-! ## Wells (`lhtypes.go`) -/

/-- `wtype.LHComponent`, with the fields that the well operations read or write and those that
name the component; `LContainer` is the identifier of the well that holds it. -/
structure LHComponent where
  ID : String
  CName : String
  Type_ : String
  Vol : ℚ
  Vunit : String
  LContainer : Option String
deriving DecidableEq, Repr

/-- The two implementations of `Physical` that `LHWell.Add` tells apart; for any other one
it calls `wutil.Error`, which is not in the source tree. -/
inductive Physical
  | solution
  | component (c : LHComponent)
deriving DecidableEq, Repr

/-- `wtype.LHWell`, with the fields that the well operations read or write and those that name
the well: `Vol` is the volume of the well (its capacity), `Rvol` the residual volume. -/
structure LHWell where
  ID : String
  Platetype : String
  Crds : String
  Vol : ℚ
  Vunit : String
  WContents : List LHComponent
  Rvol : ℚ
  Currvol : ℚ
deriving DecidableEq, Repr

/-- `LHWell.WorkingVolume`: the volume of the well less the residual volume. -/
def LHWell.WorkingVolume (w : LHWell) : Except Fault Volume :=
  (NewVolume w.Vol (ParsePrefixedUnit w.Vunit)).Subtract
    (NewVolume w.Rvol (ParsePrefixedUnit w.Vunit))

/-- `LHWell.updateVolume`: `w.Vol` becomes the sum of the volumes of the contents. -/
def LHWell.updateVolume (w : LHWell) : LHWell :=
  { w with Vol := w.WContents.foldl (fun acc val => acc + val.Vol) 0 }

/-- `LHWell.Add(p)`. -/
def LHWell.Add (w : LHWell) : Physical → LHWell
  | .solution => w
  | .component c =>
    { w with WContents := w.WContents ++ [{ c with LContainer := some w.ID }],
             Currvol := w.Currvol + c.Vol }

/-- `LHWell.Remove(v)`: the component returned and the well after the call. `ret` and
`w.WContents[0]` are one object: its volume is set to `v.SIValue()` and then reduced by
`v.SIValue()`. `updateVolume` is deferred to the return. -/
def LHWell.Remove (w : LHWell) (v : Volume) : Except Fault (LHComponent × LHWell) := do
  let ret ← idx w.WContents 0
  if ret.Vol > v.SIValue then
    let ret2 := { ret with Vol := v.SIValue - v.SIValue }
    pure (ret2, LHWell.updateVolume { w with WContents := w.WContents.set 0 ret2 })
  else
    pure (ret, LHWell.updateVolume { w with WContents := w.WContents.drop 1 })

/-- The sum of the volumes of the components of a well. -/
def LHWell.contentsSum (w : LHWell) : ℚ := (w.WContents.map (fun c => c.Vol)).sum

/-- The capacity invariant of the spec: the component volumes and the residual volume fit in
the volume of the well. -/
def wellInvariant (w : LHWell) : Prop := w.contentsSum + w.Rvol ≤ w.Vol

instance (w : LHWell) : Decidable (wellInvariant w) := by
  unfold wellInvariant
  infer_instance

/-- A well of 100 ul with a residual volume of 5 ul that holds the components `contents`. -/
def exampleWell (contents : List LHComponent) : LHWell :=
  { ID := "well", Platetype := "pcrplate", Crds := "A:1", Vol := 100, Vunit := "ul",
    WContents := contents, Rvol := 5, Currvol := 0 }

/-- A component of `vol` ul of water. -/
def waterComponent (vol : ℚ) : LHComponent :=
  { ID := "component", CName := "water", Type_ := "water", Vol := vol, Vunit := "ul",
    LContainer := none }

/-! ## Rule sets: construction and cloning (`lhpolicy.go`) -/

/-- `NewLHPolicyRuleSet`: two empty maps. -/
def NewLHPolicyRuleSet : LHPolicyRuleSet := { Policies := [], Rules := [] }

/-- Map write `Rules[name] = rule` on the entries of the map. -/
def setRule (name : String) (rule : LHPolicyRule) :
    List (String × LHPolicyRule) → List (String × LHPolicyRule)
  | [] => [(name, rule)]
  | (k, v) :: rest => if k = name then (k, rule) :: rest else (k, v) :: setRule name rule rest

/-- `LHPolicyRuleSet.AddRule`: the consequent and the rule are stored under the name of the
rule. -/
def LHPolicyRuleSet.AddRule (lhpr : LHPolicyRuleSet) (rule : LHPolicyRule)
    (consequent : LHPolicy) : LHPolicyRuleSet :=
  { Policies := setPolicy rule.Name consequent lhpr.Policies,
    Rules := setRule rule.Name rule lhpr.Rules }

/-- `CloneLHPolicyRuleSet`: the loop `for k, _ := range parent.Rules` copies, for the name `k`
of each rule of the parent, `parent.Policies[k]` and `parent.Rules[k]` into a new rule set. A
read of a map under a key it does not hold gives the zero value (the `nil` policy, the empty
rule). The rules of the child are listed in the order of the parent. -/
def CloneLHPolicyRuleSet (parent : LHPolicyRuleSet) : LHPolicyRuleSet :=
  parent.Rules.foldl (fun child kr =>
    { Policies := setPolicy kr.1 ((parent.Policies.lookup kr.1).getD ⟨[]⟩) child.Policies,
      Rules := setRule kr.1 ((parent.Rules.lookup kr.1).getD {}) child.Rules })
    NewLHPolicyRuleSet

/-- A suck of 10 ul of water from a PCR plate: no rule for glycerol matches it. -/
def waterSuck : RobotInstruction := .suck exampleSuck

/-- The options of a policy that the examples of policy resolution look at. -/
def policyView (p : LHPolicy) : Option PolicyValue × Option PolicyValue × Option PolicyValue :=
  (p.get "ASPZOFFSET", p.get "DSPZOFFSET", p.get "ASPSPEED")

/-- Hardware whose only head has a tip of 20 to 300 ul loaded on its adaptor of 1 to 50 ul;
the known tip types are `tip50` (1 to 50 ul) and `tip300` (20 to 300 ul). -/
def loadedTipHardware : LHProperties (Nat × Nat) :=
  { HeadsLoaded := [adaptedHead 1 (some (exampleTip "tip300" 20 300))],
    Tips := [exampleTip "tip50" 1 50, exampleTip "tip300" 20 300], tipState := (96, 96) }

/-- The head that a primitive instruction addresses, for the primitives that name one. -/
def headOf : RobotInstruction → Option Int
  | .aspirate i => some i.Head
  | .dispense i => some i.Head
  | .blowout i => some i.Head
  | .ptz i => some i.Head
  | .move i => some i.Head
  | .loadTips i => some i.Head
  | .unloadTips i => some i.Head
  | .setPipetteSpeed i => some i.Head
  | .mix i => some i.Head
  | _ => none

/-- A single-channel transfer of 10 ul of water from `A1` to `B2` whose channel parameters
name the head 1. -/
def headOneTransfer : SingleChannelTransferInstruction :=
  { What := "water", PltFrom := "position_1", PltTo := "position_2", WellFrom := "A1",
    WellTo := "B2", Volume := some ⟨10, ul⟩, FPlateType := "pcrplate",
    TPlateType := "pcrplate", FVolume := some ⟨100, ul⟩, TVolume := some ⟨0, ul⟩,
    Prms := some { exampleChannel 1 LHVChannel with Head := 1 } }

/-- The compiler state of the scenarios with the pipette speeds set: `ASPSPEED`, `DSPSPEED`
and `DEFAULTPIPETTESPEED` are added to the policy `exampleDefault`. -/
def speedState : CompilerState (Nat × Nat) :=
  { policy := { Policies := [("default",
        ⟨[("ASPSPEED", .float (3 / 2)), ("DSPSPEED", .float (3 / 2)),
          ("DEFAULTPIPETTESPEED", .float 3)] ++ exampleDefault.entries⟩)], Rules := [] },
    prms := exampleHardware }

/-- Two transfers within the thirteenth row (`M`) of a plate of 16 rows. -/
def tallTransfer : TransferInstruction :=
  exampleTransfer [("water", "M1", "M2", 20), ("water", "M3", "M4", 20)]

/-- Two transfers within the 24th column of a plate of 24 columns. -/
def lastColumnTransfer : TransferInstruction :=
  exampleTransfer [("water", "A24", "A24", 20), ("water", "B24", "B24", 20)]

/-! ## Levels of the lowering -/

/-- The volume `v` less `m`, in the unit of `v`: what `Subtract` leaves when it does not
fault. -/
def Volume.minus (v m : Volume) : Volume := ⟨v.Mvalue - m.ConvertTo v.Munit, v.Munit⟩

/-- Every slice of a transfer instruction has one entry per transfer. -/
def TransferInstruction.WF (ins : TransferInstruction) : Prop :=
  ins.PltFrom.length = ins.What.length ∧ ins.PltTo.length = ins.What.length
    ∧ ins.WellFrom.length = ins.What.length ∧ ins.WellTo.length = ins.What.length
    ∧ ins.Volume.length = ins.What.length ∧ ins.FPlateType.length = ins.What.length
    ∧ ins.TPlateType.length = ins.What.length ∧ ins.FVolume.length = ins.What.length
    ∧ ins.TVolume.length = ins.What.length

instance (ins : TransferInstruction) : Decidable ins.WF := by
  unfold TransferInstruction.WF
  infer_instance

/-- Every source well holds at least the volume that is to be taken from it: `V_i <= F_i` as
physical volumes, for the volumes `V` and the source volumes `F`. -/
def sourcesSuffice (V F : List Volume) : Prop :=
  ∀ p ∈ V.zip F, p.1.SIValue ≤ p.2.SIValue

instance (V F : List Volume) : Decidable (sourcesSuffice V F) := by
  unfold sourcesSuffice
  infer_instance

/-- The volumes of a transfer instruction before `Generate` touches them. -/
def TransferInstruction.volumes (ins : TransferInstruction) : TransferVolumesState :=
  { Volume := ins.Volume, FVolume := ins.FVolume, TVolume := ins.TVolume }

/-- Modelled from the spec: the entry that the single-channel block receives for the transfer
`i`, "everything left whose remaining volume is >= 0.001 ul": none for a transfer whose
remaining volume is below 0.001 ul, and otherwise the transfer with the volumes `st` that the
multi-channel phase has left. -/
def remainingEntry (ins : TransferInstruction) (st : TransferVolumesState) (i : Nat) :
    Option TransferParams := do
  let v ← st.Volume[i]?
  if v.LessThanFloat (1 / 1000) then none
  else
    let fv ← st.FVolume[i]?
    let tv ← st.TVolume[i]?
    pure { What := ← ins.What[i]?, PltFrom := ← ins.PltFrom[i]?, PltTo := ← ins.PltTo[i]?,
           WellFrom := ← ins.WellFrom[i]?, WellTo := ← ins.WellTo[i]?, Volume := v,
           FVolume := fv, TVolume := tv, FPlateType := ← ins.FPlateType[i]?,
           TPlateType := ← ins.TPlateType[i]? }

/-- The shape of the volumes of a transfer: `n` entries in each slice. -/
def volumesLength (n : Nat) (st : TransferVolumesState) : Prop :=
  st.Volume.length = n ∧ st.FVolume.length = n ∧ st.TVolume.length = n

/-- Modelled from the spec: what the multi-channel phase does with one parallel set `S`. The
entry of the block carries one volume `m` for each member of the set, `m` is the volume of a
member and the least of the volumes of the members ("the minimum of the set's individual
volumes"), and each member is left with its volume less `m`, its source volume less `m` and
its destination volume plus `m`. -/
def setTaken (before after : TransferVolumesState) (S : List Nat) (entry : List Volume) :
    Prop :=
  ∃ m, entry = S.map (fun _ => m)
    ∧ (∃ j ∈ S, before.Volume[j]? = some m)
    ∧ (∀ j ∈ S, ∀ v, before.Volume[j]? = some v → m.SIValue ≤ v.SIValue)
    ∧ ∀ i ∈ S, after.Volume[i]? = (before.Volume[i]?).map (fun v => v.minus m)
        ∧ after.FVolume[i]? = (before.FVolume[i]?).map (fun v => v.minus m)
        ∧ after.TVolume[i]? = (before.TVolume[i]?).map (fun v => v.Add m)

/-- The volumes of the transfer `i` are the same in the two states. -/
def untouched (before after : TransferVolumesState) (i : Nat) : Prop :=
  after.Volume[i]? = before.Volume[i]? ∧ after.FVolume[i]? = before.FVolume[i]?
    ∧ after.TVolume[i]? = before.TVolume[i]?

/-- In the state `st` every source holds at least the volume still to be taken from it. -/
def sourcesHold (st : TransferVolumesState) : Prop :=
  ∀ (i : Nat) (v f : Volume), st.Volume[i]? = some v → st.FVolume[i]? = some f →
    v.SIValue ≤ f.SIValue

/-- Eight transfers `A1..H1` to `A2..H2`: 20 ul each, but 30 ul for the last one. -/
def unevenColumn : TransferInstruction :=
  exampleTransfer [("water", "A1", "A2", 20), ("water", "B1", "B2", 20),
    ("water", "C1", "C2", 20), ("water", "D1", "D2", 20), ("water", "E1", "E2", 20),
    ("water", "F1", "F2", 20), ("water", "G1", "G2", 20), ("water", "H1", "H2", 30)]

/-- Hardware with one head of 1 to 300 ul and one tip type of 1 to 300 ul. -/
def wideHardware : LHProperties (Nat × Nat) :=
  { HeadsLoaded := [exampleHead "head" 0 1 300], Tips := [exampleTip "tip300" 1 300],
    tipState := (96, 96) }

/-- A single-channel block with one entry: one millilitre of water, from a source that holds
two litres (stated in microlitres) to an empty destination. -/
def millilitreBlock : SingleChannelBlockInstruction :=
  { What := ["water"], PltFrom := ["position_1"], PltTo := ["position_2"],
    WellFrom := ["A1"], WellTo := ["B2"], Volume := [⟨1, ml⟩], FPlateType := ["reservoir"],
    TPlateType := ["reservoir"], FVolume := [⟨2000000, ul⟩], TVolume := [⟨0, ul⟩],
    Prms := some (exampleChannel 1 LHVChannel) }

/-- The volume, the source volume and the destination volume that a single-channel transfer
records. -/
def transferView : RobotInstruction → Option (Option Volume × Option Volume × Option Volume)
  | .singleChannelTransfer i => some (i.Volume, i.FVolume, i.TVolume)
  | _ => none

/-! ## Export filtering of syntax trees (`antha/ast/filter.go`) -/

/-- `ast.CommentGroup`: the texts of the comments of the group. The node types of the package
`ast` are declared in `ast.go`, which is not in the source tree; they are given here with the
fields that `filter.go` and the tests read. -/
structure CommentGroup where
  List : List String
deriving DecidableEq, Repr

/-- `ast.Ident`. -/
structure Ident where
  Name : String
deriving DecidableEq, Repr

mutual
/-- `ast.Expr`, with the node types that `filterType` and `fieldName` tell apart; every other
expression is `other`. The field list of a struct type and the method list of an interface
type are the `List` of the `*FieldList`, which the parser always allocates; the parameter
and result lists of a function type may be `nil` (`none`). -/
inductive Expr
  | ident (i : Ident)
  | selectorExpr (X : Expr) (Sel : Ident)
  | starExpr (X : Expr)
  | parenExpr (X : Expr)
  | arrayType (Elt : Expr)
  | structType (Fields : List Field) (Incomplete : Bool)
  | funcType (Params : Option (List Field)) (Results : Option (List Field))
  | interfaceType (Methods : List Field) (Incomplete : Bool)
  | mapType (Key Value : Expr)
  | chanType (Value : Expr)
  | other (text : String)
/-- `ast.Field`: the lead comment `Doc`, the names (none for an anonymous field), the type
and the line comment `Comment`. -/
inductive Field
  | mk (Doc : Option CommentGroup) (Names : List Ident) (Type_ : Expr)
      (Comment : Option CommentGroup)
end

/-- The lead comment of a field. -/
def Field.Doc : Field → Option CommentGroup
  | .mk doc _ _ _ => doc

/-- The names of a field. -/
def Field.Names : Field → List Ident
  | .mk _ names _ _ => names

/-- The type of a field. -/
def Field.Type_ : Field → Expr
  | .mk _ _ typ _ => typ

/-- The line comment of a field. -/
def Field.Comment : Field → Option CommentGroup
  | .mk _ _ _ comment => comment

/-- `ast.Spec`: an import, a value specification (whose type may be absent) or a type
specification. -/
inductive Spec
  | importSpec (Path : String)
  | valueSpec (Doc : Option CommentGroup) (Names : List Ident) (Type_ : Option Expr)
      (Comment : Option CommentGroup)
  | typeSpec (Doc : Option CommentGroup) (Name : Ident) (Type_ : Expr)
      (Comment : Option CommentGroup)

/-- `ast.Decl`: a general declaration with its keyword and specifications, a function
declaration, or a bad declaration. -/
inductive Decl
  | badDecl
  | genDecl (Doc : Option CommentGroup) (Tok : String) (Specs : List Spec)
  | funcDecl (Doc : Option CommentGroup) (Name : Ident) (Type_ : Expr)

/-- `ast.File`: the package name, the top-level declarations and the comments. -/
structure File where
  Name : Ident
  Decls : List Decl
  Comments : List CommentGroup

/-- `ast.Filter`. -/
abbrev Filter := String → Bool

/-- Modelled from the spec: `ast.IsExported`, which is not in the source tree: a name is
exported when it starts with an upper-case letter. -/
def IsExported (name : String) : Bool :=
  match name.toList with
  | c :: _ => c.isUpper
  | [] => false

/-- `exportFilter`. -/
def exportFilter (name : String) : Bool := IsExported name

/-- `filterIdentList`: the identifiers whose name passes the filter, in their order. -/
def filterIdentList (list : List Ident) (f : Filter) : List Ident :=
  list.filter (fun x => f x.Name)

/-- `fieldName`: the name of an anonymous field of type `x`, if `x` can be the type of
one. -/
def fieldName : Expr → Option Ident
  | .ident t => some t
  | .selectorExpr (.ident _) sel => some sel
  | .starExpr x => fieldName x
  | _ => none

/-- The end of `filterFieldList`: `removedFields` is also set when fewer fields are kept than
the list `list` had (`j < len(list)`). -/
def fieldListResult (list : List Field) (r : List Field × Bool) : List Field × Bool :=
  (r.1, r.2 || decide (r.1.length < list.length))

mutual
/-- `filterType`: the type as the call leaves it (the source filters in place) and the
result of the call. -/
def filterType (f : Filter) (export_ : Bool) : Expr → Expr × Bool
  | .ident t => (.ident t, f t.Name)
  | .parenExpr x =>
    let r := filterType f export_ x
    (.parenExpr r.1, r.2)
  | .arrayType elt =>
    let r := filterType f export_ elt
    (.arrayType r.1, r.2)
  | .structType fields incomplete =>
    let r := fieldListResult fields (filterFieldLoop f export_ fields)
    (.structType r.1 (if r.2 then true else incomplete), decide (r.1.length > 0))
  | .funcType params results =>
    let b1 := filterParamList f export_ params
    let b2 := filterParamList f export_ results
    (.funcType b1.1 b2.1, b1.2 || b2.2)
  | .interfaceType methods incomplete =>
    let r := fieldListResult methods (filterFieldLoop f export_ methods)
    (.interfaceType r.1 (if r.2 then true else incomplete), decide (r.1.length > 0))
  | .mapType key value =>
    let b1 := filterType f export_ key
    let b2 := filterType f export_ value
    (.mapType b1.1 b2.1, b1.2 || b2.2)
  | .chanType value =>
    let r := filterType f export_ value
    (.chanType r.1, r.2)
  | typ => (typ, false)
/-- The loop of `filterFieldList` over the fields of the list: the fields kept, and whether
the loop has set `removedFields` (a name of a field was removed). -/
def filterFieldLoop (f : Filter) (export_ : Bool) : List Field → List Field × Bool
  | [] => ([], false)
  | fld :: rest =>
    let r := filterFieldLoop f export_ rest
    match filterField f export_ fld with
    | (some kept, removedFields) => (kept :: r.1, removedFields || r.2)
    | (none, removedFields) => (r.1, removedFields || r.2)
/-- The body of the loop of `filterFieldList` for one field: the field as it is kept, if it
is, and whether a name of it was removed. An anonymous field is kept iff its type names an
identifier that passes the filter; a field with names keeps those that pass, and is kept iff
one does. The type of a kept field is filtered in export mode. -/
def filterField (f : Filter) (export_ : Bool) : Field → Option Field × Bool
  | .mk doc names typ comment =>
    if names.length = 0 then
      match fieldName typ with
      | some name =>
        if f name.Name then
          (some (.mk doc names (if export_ then (filterType f export_ typ).1 else typ) comment),
            false)
        else (none, false)
      | none => (none, false)
    else
      let names2 := filterIdentList names f
      let removedFields := decide (names2.length < names.length)
      if names2.length > 0 then
        (some (.mk doc names2 (if export_ then (filterType f export_ typ).1 else typ) comment),
          removedFields)
      else (none, removedFields)
/-- `filterParamList`: `false` for a `nil` list; otherwise the types of the parameters are
filtered, and the result tells whether one of the calls returned true. -/
def filterParamList (f : Filter) (export_ : Bool) :
    Option (List Field) → Option (List Field) × Bool
  | none => (none, false)
  | some fields =>
    let r := filterParamLoop f export_ fields
    (some r.1, r.2)
/-- The loop of `filterParamList`. -/
def filterParamLoop (f : Filter) (export_ : Bool) : List Field → List Field × Bool
  | [] => ([], false)
  | .mk doc names typ comment :: rest =>
    let r1 := filterType f export_ typ
    let r := filterParamLoop f export_ rest
    (.mk doc names r1.1 comment :: r.1, r1.2 || r.2)
end

/-- `filterFieldList` on a field list that is not `nil`: the fields kept and
`removedFields`. -/
def filterFieldList (f : Filter) (export_ : Bool) (fields : List Field) : List Field × Bool :=
  fieldListResult fields (filterFieldLoop f export_ fields)

/-- `filterType` on a type that may be absent: no case of the type switch matches `nil`. -/
def filterTypeOpt (f : Filter) (export_ : Bool) : Option Expr → Option Expr × Bool
  | none => (none, false)
  | some typ => let r := filterType f export_ typ; (some r.1, r.2)

/-- `filterSpec`: the specification as the call leaves it, and the result. -/
def filterSpec (f : Filter) (export_ : Bool) : Spec → Spec × Bool
  | .valueSpec doc names typ comment =>
    let names2 := filterIdentList names f
    if names2.length > 0 then
      (.valueSpec doc names2 (if export_ then (filterTypeOpt f export_ typ).1 else typ) comment,
        true)
    else (.valueSpec doc names2 typ comment, false)
  | .typeSpec doc name typ comment =>
    if f name.Name then
      (.typeSpec doc name (if export_ then (filterType f export_ typ).1 else typ) comment, true)
    else if !export_ then
      let r := filterType f export_ typ
      (.typeSpec doc name r.1 comment, r.2)
    else (.typeSpec doc name typ comment, false)
  | s => (s, false)

/-- `filterSpecList`: the specifications for which `filterSpec` returns true, as the calls
leave them. -/
def filterSpecList (f : Filter) (export_ : Bool) (list : List Spec) : List Spec :=
  list.filterMap (fun s => let r := filterSpec f export_ s; if r.2 then some r.1 else none)

/-- `filterDecl`: the declaration as the call leaves it, and the result. -/
def filterDecl (f : Filter) (export_ : Bool) : Decl → Decl × Bool
  | .genDecl doc tok specs =>
    let specs2 := filterSpecList f export_ specs
    (.genDecl doc tok specs2, decide (specs2.length > 0))
  | .funcDecl doc name typ => (.funcDecl doc name typ, f name.Name)
  | d => (d, false)

/-- `filterFile`: the file as the call leaves it, and the result. -/
def filterFile (f : Filter) (export_ : Bool) (src : File) : File × Bool :=
  let decls := src.Decls.filterMap
    (fun d => let r := filterDecl f export_ d; if r.2 then some r.1 else none)
  ({ src with Decls := decls }, decide (decls.length > 0))

/-- `FileExports`. -/
def FileExports (src : File) : File × Bool := filterFile exportFilter true src

/-- The names under which a struct has the field: the names of the field, and for an
anonymous field the name that `fieldName` finds in its type, if it finds one. -/
def Field.fieldNames (fld : Field) : List String :=
  if fld.Names.length = 0 then (fieldName fld.Type_).toList.map (fun x => x.Name)
  else fld.Names.map (fun x => x.Name)

/-- The lead comment, the names and the line comment of a field. -/
def Field.view (fld : Field) : Option CommentGroup × List String × Option CommentGroup :=
  (fld.Doc, fld.fieldNames, fld.Comment)

/-- The struct type that a specification declares: for `T struct {...}`, the name `T` and
the fields of the struct, each with its comments and names. -/
def structOfSpec :
    Spec → Option (String × List (Option CommentGroup × List String × Option CommentGroup))
  | .typeSpec _ name (.structType fields _) _ => some (name.Name, fields.map Field.view)
  | _ => none

/-- The name of the type that a specification declares. -/
def typeNameOfSpec : Spec → Option String
  | .typeSpec _ name _ _ => some name.Name
  | _ => none

/-- The specifications of a declaration. -/
def Decl.Specs : Decl → List Spec
  | .genDecl _ _ specs => specs
  | _ => []

/-- The names of the types that the file declares at top level, in their order. -/
def File.typeNames (file : File) : List String :=
  file.Decls.flatMap (fun d => d.Specs.filterMap typeNameOfSpec)

/-- The struct types that the file declares at top level, in their order, each with its
fields. -/
def File.structs (file : File) :
    List (String × List (Option CommentGroup × List String × Option CommentGroup)) :=
  file.Decls.flatMap (fun d => d.Specs.filterMap structOfSpec)

/-- Modelled from the spec: the export filter on one field: its names that pass, with the
comments of the field; nothing when no name passes. -/
def exportedField (f : Filter) (fld : Option CommentGroup × List String × Option CommentGroup) :
    Option (Option CommentGroup × List String × Option CommentGroup) :=
  if (fld.2.1.filter f).length = 0 then none else some (fld.1, fld.2.1.filter f, fld.2.2)

/-- Modelled from the spec: the export filter on the fields of a struct: "every field name
that is not exported has been removed (a field all of whose names are unexported disappears
entirely), while every exported field name remains, in its original order, with its lead
(Doc) and line (Comment) comment groups unchanged". -/
def exportedFields (f : Filter)
    (fields : List (Option CommentGroup × List String × Option CommentGroup)) :
    List (Option CommentGroup × List String × Option CommentGroup) :=
  fields.filterMap (exportedField f)

/-- Modelled from the spec: the export filter on one struct type: "type declarations with
unexported names are removed", and the fields of the others are filtered. -/
def exportedStruct (f : Filter)
    (s : String × List (Option CommentGroup × List String × Option CommentGroup)) :
    Option (String × List (Option CommentGroup × List String × Option CommentGroup)) :=
  if f s.1 then some (s.1, exportedFields f s.2) else none

/-- Modelled from the spec: the export filter on the struct types of a file. -/
def exportedStructs (f : Filter)
    (structs : List (String × List (Option CommentGroup × List String × Option CommentGroup))) :
    List (String × List (Option CommentGroup × List String × Option CommentGroup)) :=
  structs.filterMap (exportedStruct f)

/-- The fields of the struct type `T` in a specification, if the specification declares
it. -/
def fieldsOfSpec (T : String) : Spec → List Field
  | .typeSpec _ name (.structType fields _) _ => if name.Name = T then fields else []
  | _ => []

/-- The field `F` of the struct type `T` as `getField` of `parser_test.go` finds it: the
first field with the name `F` in the struct types `T` of the `type` declarations of the
file. -/
def getField (file : File) (T F : String) : Option Field :=
  (file.Decls.flatMap (fun d => match d with
    | .genDecl _ tok specs => if tok = "type" then specs.flatMap (fieldsOfSpec T) else []
    | _ => [])).find? (fun fld => fld.Names.any (fun name => name.Name = F))

/-- `commentText` of `parser_test.go`: the texts of the comments of the group, one after the
other; the empty text for no group. -/
def commentText : Option CommentGroup → String
  | some c => String.join c.List
  | none => ""

/-- The lead and line comment texts of a field that was looked up, as `checkFieldComments`
of `parser_test.go` compares them. -/
def fieldComments (fld : Option Field) : Option (String × String) :=
  fld.map (fun x => (commentText x.Doc, commentText x.Comment))

/-- The file of the test `TestLeadAndLineComments`: the struct `T` with the fields `F1`, `F2`
and `f3` and their comments. -/
def leadAndLineFile : File :=
  { Name := ⟨"p"⟩,
    Decls := [.genDecl none "type" [.typeSpec none ⟨"T"⟩
      (.structType
        [.mk (some ⟨["/* F1 lead comment */", "//"]⟩) [⟨"F1"⟩] (.ident ⟨"int"⟩)
            (some ⟨["/* F1 */", "// line comment"]⟩),
         .mk (some ⟨["// F2 lead", "// comment"]⟩) [⟨"F2"⟩] (.ident ⟨"int"⟩)
            (some ⟨["// F2 line comment"]⟩),
         .mk (some ⟨["// f3 lead comment"]⟩) [⟨"f3"⟩] (.ident ⟨"int"⟩)
            (some ⟨["// f3 line comment"]⟩)] false) none]],
    Comments :=
      [⟨["/* F1 lead comment */", "//"]⟩, ⟨["/* F1 */", "// line comment"]⟩,
       ⟨["// F2 lead", "// comment"]⟩, ⟨["// F2 line comment"]⟩,
       ⟨["// f3 lead comment"]⟩, ⟨["// f3 line comment"]⟩] }

/-! # Verified properties -/

/-! ## Volume splitting -/

theorem ConvertTo_self (v : Volume) : v.ConvertTo v.Munit = v.Mvalue := by
  simp [Volume.ConvertTo]

theorem ConvertTo_same {v : Volume} {u : Int} (h : v.Munit = u) : v.ConvertTo u = v.Mvalue := by
  subst h; exact ConvertTo_self v

theorem Modf_of_nonneg {x : ℚ} (h : 0 ≤ x) : Modf x = ⌊x⌋ := by simp [Modf, h]

theorem log2Fuel_spec : ∀ (fuel n : Nat), n ≤ fuel → n ≠ 0 →
    2 ^ log2Fuel fuel n ≤ n ∧ n < 2 ^ (log2Fuel fuel n + 1) := by
  intro fuel
  induction fuel with
  | zero =>
    intro n hn h0
    omega
  | succ f ih =>
    intro n hn h0
    unfold log2Fuel
    by_cases h2 : 2 ≤ n
    · rw [if_pos h2]
      obtain ⟨h1, h3⟩ := ih (n / 2) (by omega) (by omega)
      constructor
      · rw [pow_succ]
        omega
      · rw [pow_succ]
        omega
    · rw [if_neg h2]
      constructor <;> simp <;> omega

theorem log2_spec (n : Nat) (h : n ≠ 0) : 2 ^ log2 n ≤ n ∧ n < 2 ^ (log2 n + 1) :=
  log2Fuel_spec n n (le_refl n) h

theorem pow2_eq (e : Int) : pow2 e = (2 : ℚ) ^ e := by
  unfold pow2
  by_cases h : 0 ≤ e
  · rw [if_pos h]
    obtain ⟨k, rfl⟩ := Int.eq_ofNat_of_zero_le h
    simp
  · rw [if_neg h]
    obtain ⟨k, rfl⟩ := Int.exists_eq_neg_ofNat (le_of_lt (not_le.mp h))
    simp

theorem pow2_pos (e : Int) : 0 < pow2 e := by
  rw [pow2_eq]
  positivity

theorem binaryExponent_spec (x : ℚ) (hx : x ≠ 0) :
    (2 : ℚ) ^ binaryExponent x ≤ |x| ∧ |x| < (2 : ℚ) ^ (binaryExponent x + 1) := by
  have hnum : x.num.natAbs ≠ 0 := by
    simpa using hx
  obtain ⟨ha1, ha2⟩ := log2_spec x.num.natAbs hnum
  obtain ⟨hb1, hb2⟩ := log2_spec x.den x.den_nz
  have habs : |x| = (x.num.natAbs : ℚ) / (x.den : ℚ) := by
    conv_lhs => rw [← Rat.num_div_den x]
    rw [abs_div, Nat.abs_cast, ← Int.cast_abs, Int.abs_eq_natAbs, Int.cast_natCast]
  have hden : (0 : ℚ) < x.den := by exact_mod_cast x.den_pos
  have ha1q : (2 : ℚ) ^ (log2 x.num.natAbs : Int) ≤ (x.num.natAbs : ℚ) := by
    rw [zpow_natCast]
    exact_mod_cast ha1
  have ha2q : (x.num.natAbs : ℚ) < (2 : ℚ) ^ ((log2 x.num.natAbs : Int) + 1) := by
    rw [show ((log2 x.num.natAbs : Int) + 1) = ((log2 x.num.natAbs + 1 : Nat) : Int) by simp,
      zpow_natCast]
    exact_mod_cast ha2
  have hb1q : (2 : ℚ) ^ (log2 x.den : Int) ≤ (x.den : ℚ) := by
    rw [zpow_natCast]
    exact_mod_cast hb1
  have hb2q : (x.den : ℚ) < (2 : ℚ) ^ ((log2 x.den : Int) + 1) := by
    rw [show ((log2 x.den : Int) + 1) = ((log2 x.den + 1 : Nat) : Int) by simp, zpow_natCast]
    exact_mod_cast hb2
  have h2 : (0 : ℚ) < 2 := by norm_num
  have hup : |x| < (2 : ℚ) ^ ((log2 x.num.natAbs : Int) - (log2 x.den : Int) + 1) := by
    rw [habs, div_lt_iff₀ hden]
    calc (x.num.natAbs : ℚ) < (2 : ℚ) ^ ((log2 x.num.natAbs : Int) + 1) := ha2q
      _ = (2 : ℚ) ^ ((log2 x.num.natAbs : Int) - (log2 x.den : Int) + 1)
            * (2 : ℚ) ^ (log2 x.den : Int) := by
          rw [← zpow_add₀ (ne_of_gt h2)]
          congr 1
          ring
      _ ≤ (2 : ℚ) ^ ((log2 x.num.natAbs : Int) - (log2 x.den : Int) + 1) * (x.den : ℚ) :=
          mul_le_mul_of_nonneg_left hb1q (by positivity)
  have hlow : (2 : ℚ) ^ ((log2 x.num.natAbs : Int) - (log2 x.den : Int) - 1) ≤ |x| := by
    rw [habs, le_div_iff₀ hden]
    calc (2 : ℚ) ^ ((log2 x.num.natAbs : Int) - (log2 x.den : Int) - 1) * (x.den : ℚ)
        ≤ (2 : ℚ) ^ ((log2 x.num.natAbs : Int) - (log2 x.den : Int) - 1)
            * (2 : ℚ) ^ ((log2 x.den : Int) + 1) :=
          mul_le_mul_of_nonneg_left (le_of_lt hb2q) (by positivity)
      _ = (2 : ℚ) ^ (log2 x.num.natAbs : Int) := by
          rw [← zpow_add₀ (ne_of_gt h2)]
          congr 1
          ring
      _ ≤ (x.num.natAbs : ℚ) := ha1q
  unfold binaryExponent
  rw [pow2_eq]
  by_cases hc : (2 : ℚ) ^ ((log2 x.num.natAbs : Int) - (log2 x.den : Int)) ≤ |x|
  · rw [if_pos hc]
    exact ⟨hc, hup⟩
  · rw [if_neg hc]
    refine ⟨hlow, ?_⟩
    rw [sub_add_cancel]
    exact not_le.mp hc

theorem roundHalfEven_floor (x : ℚ) : ⌊x⌋ ≤ roundHalfEven x ∧ roundHalfEven x ≤ ⌊x⌋ + 1 := by
  unfold roundHalfEven
  split_ifs <;> constructor <;> omega

theorem roundHalfEven_intCast (z : Int) : roundHalfEven (z : ℚ) = z := by
  unfold roundHalfEven
  simp

theorem roundHalfEven_err (x : ℚ) : |(roundHalfEven x : ℚ) - x| ≤ 1 / 2 := by
  have h1 := Int.floor_le x
  have h2 := Int.lt_floor_add_one x
  unfold roundHalfEven
  rw [abs_le]
  split_ifs with ha hb hc
  · constructor <;> linarith
  · push_cast
    constructor <;> linarith
  · have : x - ⌊x⌋ = 1 / 2 := le_antisymm (not_lt.mp hb) (not_lt.mp ha)
    constructor <;> linarith
  · have : x - ⌊x⌋ = 1 / 2 := le_antisymm (not_lt.mp hb) (not_lt.mp ha)
    push_cast
    constructor <;> linarith

theorem roundHalfEven_mono {x y : ℚ} (h : x ≤ y) : roundHalfEven x ≤ roundHalfEven y := by
  have hf : ⌊x⌋ ≤ ⌊y⌋ := Int.floor_le_floor h
  rcases lt_or_eq_of_le hf with hlt | heq
  · have := (roundHalfEven_floor x).2
    have := (roundHalfEven_floor y).1
    omega
  · unfold roundHalfEven
    rw [← heq]
    have hxy : x - ⌊x⌋ ≤ y - ⌊x⌋ := by linarith
    split_ifs <;> first | omega | (exfalso; linarith)

theorem roundFloat64_zero : roundFloat64 0 = 0 := by
  simp [roundFloat64]

theorem roundFloat64_err (x : ℚ) : |roundFloat64 x - x| ≤ |x| / 2 ^ 53 := by
  by_cases hx : x = 0
  · subst hx
    simp [roundFloat64]
  · obtain ⟨hlo, -⟩ := binaryExponent_spec x hx
    have hu : 0 < pow2 (binaryExponent x - 52) := pow2_pos _
    have hr := roundHalfEven_err (x / pow2 (binaryExponent x - 52))
    have heq : roundFloat64 x - x
        = ((roundHalfEven (x / pow2 (binaryExponent x - 52)) : ℚ)
            - x / pow2 (binaryExponent x - 52)) * pow2 (binaryExponent x - 52) := by
      simp only [roundFloat64, if_neg hx]
      field_simp
    rw [heq, abs_mul, abs_of_pos hu]
    have h2 : (0 : ℚ) < 2 := by norm_num
    have hsplit : pow2 (binaryExponent x - 52) = (2 : ℚ) ^ binaryExponent x / 2 ^ 52 := by
      rw [pow2_eq, zpow_sub₀ (ne_of_gt h2)]
      norm_cast
    calc |(roundHalfEven (x / pow2 (binaryExponent x - 52)) : ℚ)
            - x / pow2 (binaryExponent x - 52)| * pow2 (binaryExponent x - 52)
        ≤ 1 / 2 * pow2 (binaryExponent x - 52) := mul_le_mul_of_nonneg_right hr (le_of_lt hu)
      _ = (2 : ℚ) ^ binaryExponent x / 2 ^ 53 := by
          rw [hsplit]
          ring
      _ ≤ |x| / 2 ^ 53 := div_le_div_of_nonneg_right hlo (by positivity)

theorem roundFloat64_bounds (x : ℚ) (hx : 0 < x) :
    (2 : ℚ) ^ binaryExponent x ≤ roundFloat64 x
      ∧ roundFloat64 x ≤ (2 : ℚ) ^ (binaryExponent x + 1) := by
  obtain ⟨hlo, hhi⟩ := binaryExponent_spec x (ne_of_gt hx)
  rw [abs_of_pos hx] at hlo hhi
  have hu : 0 < pow2 (binaryExponent x - 52) := pow2_pos _
  have h2 : (0 : ℚ) < 2 := by norm_num
  have hsplit : (2 : ℚ) ^ binaryExponent x = 2 ^ 52 * pow2 (binaryExponent x - 52) := by
    rw [pow2_eq, zpow_sub₀ (ne_of_gt h2)]
    norm_cast
    field_simp
  have hsplit2 : (2 : ℚ) ^ (binaryExponent x + 1) = 2 ^ 53 * pow2 (binaryExponent x - 52) := by
    rw [zpow_add₀ (ne_of_gt h2), hsplit]
    norm_num
    ring
  have hq1 : (((2 : Int) ^ 52 : Int) : ℚ) ≤ x / pow2 (binaryExponent x - 52) := by
    have e1 : (((2 : Int) ^ 52 : Int) : ℚ) = (2 : ℚ) ^ 52 := by norm_cast
    rw [le_div_iff₀ hu, e1, ← hsplit]
    exact hlo
  have hq2 : x / pow2 (binaryExponent x - 52) ≤ (((2 : Int) ^ 53 : Int) : ℚ) := by
    have e1 : (((2 : Int) ^ 53 : Int) : ℚ) = (2 : ℚ) ^ 53 := by norm_cast
    rw [div_le_iff₀ hu, e1, ← hsplit2]
    exact le_of_lt hhi
  have hr1 := roundHalfEven_mono hq1
  have hr2 := roundHalfEven_mono hq2
  rw [roundHalfEven_intCast] at hr1 hr2
  simp only [roundFloat64, if_neg (ne_of_gt hx)]
  constructor
  · rw [hsplit]
    apply mul_le_mul_of_nonneg_right _ (le_of_lt hu)
    exact_mod_cast hr1
  · rw [hsplit2]
    apply mul_le_mul_of_nonneg_right _ (le_of_lt hu)
    exact_mod_cast hr2

theorem roundFloat64_pos (x : ℚ) (hx : 0 < x) : 0 < roundFloat64 x :=
  lt_of_lt_of_le (by positivity) (roundFloat64_bounds x hx).1

theorem binaryExponent_mono {x y : ℚ} (hx : 0 < x) (h : x ≤ y) :
    binaryExponent x ≤ binaryExponent y := by
  have hy : 0 < y := lt_of_lt_of_le hx h
  obtain ⟨hlo, -⟩ := binaryExponent_spec x (ne_of_gt hx)
  obtain ⟨-, hhi⟩ := binaryExponent_spec y (ne_of_gt hy)
  rw [abs_of_pos hx] at hlo
  rw [abs_of_pos hy] at hhi
  by_contra hlt
  have hle : binaryExponent y + 1 ≤ binaryExponent x := by omega
  have : (2 : ℚ) ^ (binaryExponent y + 1) ≤ (2 : ℚ) ^ binaryExponent x :=
    zpow_le_zpow_right₀ (by norm_num) hle
  linarith

theorem roundFloat64_mono {x y : ℚ} (hx : 0 ≤ x) (h : x ≤ y) :
    roundFloat64 x ≤ roundFloat64 y := by
  rcases eq_or_lt_of_le hx with h0 | hpos
  · subst h0
    rw [roundFloat64_zero]
    rcases eq_or_lt_of_le h with h1 | h1
    · subst h1
      rw [roundFloat64_zero]
    · exact le_of_lt (roundFloat64_pos y h1)
  · have hy : 0 < y := lt_of_lt_of_le hpos h
    have he := binaryExponent_mono hpos h
    rcases eq_or_lt_of_le he with heq | hlt
    · simp only [roundFloat64, if_neg (ne_of_gt hpos), if_neg (ne_of_gt hy), heq]
      have hu : 0 < pow2 (binaryExponent y - 52) := pow2_pos _
      apply mul_le_mul_of_nonneg_right _ (le_of_lt hu)
      have : x / pow2 (binaryExponent y - 52) ≤ y / pow2 (binaryExponent y - 52) :=
        div_le_div_of_nonneg_right h (le_of_lt hu)
      exact_mod_cast roundHalfEven_mono this
    · have h1 := (roundFloat64_bounds x hpos).2
      have h2 := (roundFloat64_bounds y hy).1
      have : (2 : ℚ) ^ (binaryExponent x + 1) ≤ (2 : ℚ) ^ binaryExponent y :=
        zpow_le_zpow_right₀ (by norm_num) (by omega)
      linarith

theorem roundFloat64_of_exponent_le (z : Int) (hz : z ≠ 0)
    (he : binaryExponent (z : ℚ) ≤ 52) : roundFloat64 (z : ℚ) = z := by
  have hzq : (z : ℚ) ≠ 0 := by exact_mod_cast hz
  obtain ⟨k, hk⟩ := Int.eq_ofNat_of_zero_le (show 0 ≤ 52 - binaryExponent (z : ℚ) by omega)
  have hu : pow2 (binaryExponent (z : ℚ) - 52) = 1 / (((2 : Int) ^ k : Int) : ℚ) := by
    rw [pow2_eq, show binaryExponent (z : ℚ) - 52 = -(k : Int) by omega, zpow_neg, zpow_natCast]
    push_cast
    ring
  simp only [roundFloat64, if_neg hzq, hu]
  have hq : (z : ℚ) / (1 / (((2 : Int) ^ k : Int) : ℚ)) = ((z * 2 ^ k : Int) : ℚ) := by
    push_cast
    field_simp
  rw [hq, roundHalfEven_intCast]
  push_cast
  field_simp

theorem roundFloat64_intCast (z : Int) (h0 : 0 < z) (h : z < 2 ^ 53) :
    roundFloat64 (z : ℚ) = z := by
  apply roundFloat64_of_exponent_le z (ne_of_gt h0)
  have hzq : (0 : ℚ) < (z : ℚ) := by exact_mod_cast h0
  obtain ⟨hlo, -⟩ := binaryExponent_spec (z : ℚ) (ne_of_gt hzq)
  rw [abs_of_pos hzq] at hlo
  by_contra hgt
  have hle : (53 : Int) ≤ binaryExponent (z : ℚ) := by omega
  have h1 : (2 : ℚ) ^ (53 : Int) ≤ (2 : ℚ) ^ binaryExponent (z : ℚ) :=
    zpow_le_zpow_right₀ (by norm_num) hle
  have h2 : (z : ℚ) < 2 ^ 53 := by exact_mod_cast h
  have h3 : (2 : ℚ) ^ (53 : Int) = 2 ^ 53 := by norm_cast
  linarith

theorem one_le_roundFloat64 {x : ℚ} (h : 1 ≤ x) : 1 ≤ roundFloat64 x := by
  have h1 : roundFloat64 ((1 : Int) : ℚ) = ((1 : Int) : ℚ) :=
    roundFloat64_intCast 1 (by norm_num) (by norm_num)
  have := roundFloat64_mono (show (0 : ℚ) ≤ ((1 : Int) : ℚ) by norm_num)
    (show ((1 : Int) : ℚ) ≤ x by exact_mod_cast h)
  rw [h1] at this
  exact_mod_cast this

theorem intOfFloat64_intCast (m : Int) : intOfFloat64 (m : ℚ) = m := by
  unfold intOfFloat64
  split_ifs <;> simp

/-- C3 (failing input): one millilitre split by a channel of 1 to 300 microlitres comes back
as four volumes of 250 millilitres: the value is computed in the unit of `Min` and labelled
with the unit of `Vol`, so the parts sum to one litre and not to the millilitre requested. -/
theorem C3_transferVolumes_mixes_units :
    TransferVolumes ⟨1, ml⟩ ⟨1, ul⟩ ⟨300, ul⟩ = .ok (List.replicate 4 ⟨250, ml⟩)
      ∧ sumSI (List.replicate 4 ⟨250, ml⟩) = 1
      ∧ (⟨1, ml⟩ : Volume).SIValue = 1 / 1000 := by
  decide!

/-- C4 (failing input): 60 ul on a channel of 40 to 50 ul is split into two volumes of 30 ul,
both below the channel minimum. -/
theorem C4_transferVolumes_below_min :
    TransferVolumes ⟨60, ul⟩ ⟨40, ul⟩ ⟨50, ul⟩ = .ok [⟨30, ul⟩, ⟨30, ul⟩]
      ∧ (⟨30, ul⟩ : Volume).Mvalue < (⟨40, ul⟩ : Volume).Mvalue := by
  decide!

/-- C6 (failing input): a volume exactly equal to the channel maximum is not returned whole:
50 ul on a channel of 1 to 50 ul is split into two volumes of 25 ul, because the source
tests `vol < max`. -/
theorem C6_transferVolumes_at_max :
    TransferVolumes ⟨50, ul⟩ ⟨1, ul⟩ ⟨50, ul⟩ = .ok [⟨25, ul⟩, ⟨25, ul⟩]
      ∧ TransferVolumes ⟨50, ul⟩ ⟨1, ul⟩ ⟨50, ul⟩ ≠ .ok [⟨50, ul⟩] := by
  decide!

/-- C7 (counterexample): on `float64` the parts are not `V / n` and can reach `max`, and
their number can be `⌊V / max⌋ + 2`. With `max` the `float64` nearest to 1.1, the volume
16.5 is split into `⌊16.5 / max⌋ + 1 = 15` parts, but each part is the rounded quotient of
16.5 by 15, which is `max` itself and not the rational `16.5 / 15`. With
`max = (2 ^ 53 - 1) / 2 ^ 52` and `V = (3 * 2 ^ 53 - 4) / 2 ^ 52`, both of them `float64`,
the quotient `V / max` is below 3 but is rounded to 3, and `V` is split into four parts where
`⌊V / max⌋ + 1` is 3. From `2 ^ 53` on, the sum `n += 1` is itself rounded: `2 ^ 53 + 1` is
rounded to `2 ^ 53`. -/
theorem C7_rounded_parts_reach_max :
    roundFloat64 (11 / 10) = 2476979795053773 / 2251799813685248
      ∧ TransferVolumes ⟨33 / 2, ul⟩ ⟨1, ul⟩ ⟨2476979795053773 / 2251799813685248, ul⟩
        = .ok (List.replicate 15 ⟨2476979795053773 / 2251799813685248, ul⟩)
      ∧ ⌊(33 / 2 : ℚ) / (2476979795053773 / 2251799813685248)⌋ + 1 = 15
      ∧ (33 / 2 : ℚ) / 15 < 2476979795053773 / 2251799813685248
      ∧ roundFloat64 (9007199254740991 / 4503599627370496) = 9007199254740991 / 4503599627370496
      ∧ roundFloat64 (27021597764222972 / 4503599627370496)
        = 27021597764222972 / 4503599627370496
      ∧ TransferVolumes ⟨27021597764222972 / 4503599627370496, ul⟩ ⟨1, ul⟩
          ⟨9007199254740991 / 4503599627370496, ul⟩
        = .ok (List.replicate 4 ⟨6755399441055743 / 4503599627370496, ul⟩)
      ∧ ⌊(27021597764222972 / 4503599627370496 : ℚ)
          / (9007199254740991 / 4503599627370496)⌋ + 1 = 3
      ∧ roundFloat64 (9007199254740992 + 1) = 9007199254740992 := by
  decide!

theorem floor_le_floor_roundFloat64 {q : ℚ} (h0 : 0 ≤ q) (h : q < 2 ^ 52) :
    ⌊q⌋ ≤ ⌊roundFloat64 q⌋ ∧ ⌊roundFloat64 q⌋ ≤ ⌊q⌋ + 1 := by
  have hf0 : 0 ≤ ⌊q⌋ := Int.floor_nonneg.mpr h0
  have hfq : (⌊q⌋ : ℚ) ≤ q := Int.floor_le q
  have hfl : (⌊q⌋ : ℚ) < 2 ^ 52 := lt_of_le_of_lt hfq h
  have hfi : ⌊q⌋ < 2 ^ 52 := by exact_mod_cast hfl
  have h1 : roundFloat64 ((⌊q⌋ + 1 : Int) : ℚ) = ((⌊q⌋ + 1 : Int) : ℚ) :=
    roundFloat64_intCast _ (by omega) (by omega)
  have hup : roundFloat64 q ≤ ((⌊q⌋ + 1 : Int) : ℚ) := by
    rw [← h1]
    apply roundFloat64_mono h0
    push_cast
    exact le_of_lt (Int.lt_floor_add_one q)
  have hlow : (⌊q⌋ : ℚ) ≤ roundFloat64 q := by
    rcases eq_or_lt_of_le hf0 with hz | hpos
    · rw [← hz]
      rcases eq_or_lt_of_le h0 with hq0 | hqpos
      · rw [← hq0, roundFloat64_zero]
        norm_num
      · exact_mod_cast le_of_lt (roundFloat64_pos q hqpos)
    · have h2 : roundFloat64 ((⌊q⌋ : Int) : ℚ) = ((⌊q⌋ : Int) : ℚ) :=
        roundFloat64_intCast _ hpos (by omega)
      rw [← h2]
      exact roundFloat64_mono (by exact_mod_cast hf0) hfq
  constructor
  · exact Int.le_floor.mpr hlow
  · have : ⌊roundFloat64 q⌋ ≤ ⌊((⌊q⌋ + 1 : Int) : ℚ)⌋ := Int.floor_le_floor hup
    rwa [Int.floor_intCast] at this

/-- C7 (amended): for `V > max > 0` in the unit of the bounds and `V ≥ min`, with `max` a
`float64` and `V / max` below `2 ^ 52`, `TransferVolumes` returns exactly `n = ⌊q⌋ + 1`
volumes, `q` being the `float64` quotient of `V` by `max`, so that `n` is `⌊V / max⌋ + 1` or
`⌊V / max⌋ + 2`; each volume is the `float64` quotient of `V` by `n`, in the unit of `V`,
which is within `2 ^ -53` of `V / n` and is at most `max`. -/
theorem C7_transferVolumes_split (V Min Max : Volume) (hu : V.Munit = Min.Munit)
    (hmax : 0 < Max.Mvalue) (hV : Max.Mvalue < V.Mvalue) (hmin : Min.Mvalue ≤ V.Mvalue)
    (hrep : roundFloat64 Max.Mvalue = Max.Mvalue) (hcount : V.Mvalue / Max.Mvalue < 2 ^ 52) :
    ∃ n : Nat, (n : Int) = ⌊roundFloat64 (V.Mvalue / Max.Mvalue)⌋ + 1
      ∧ ⌊V.Mvalue / Max.Mvalue⌋ + 1 ≤ (n : Int) ∧ (n : Int) ≤ ⌊V.Mvalue / Max.Mvalue⌋ + 2
      ∧ TransferVolumes V Min Max
          = .ok (List.replicate n ⟨roundFloat64 (V.Mvalue / n), V.Munit⟩)
      ∧ roundFloat64 (V.Mvalue / n) ≤ Max.Mvalue
      ∧ |roundFloat64 (V.Mvalue / n) - V.Mvalue / n| ≤ V.Mvalue / n / 2 ^ 53 := by
  have hVpos : 0 < V.Mvalue := lt_trans hmax hV
  have hq : 1 ≤ V.Mvalue / Max.Mvalue := by
    rw [le_div_iff₀ hmax]
    linarith
  have hq0 : 0 ≤ V.Mvalue / Max.Mvalue := by linarith
  obtain ⟨hf1, hf2⟩ := floor_le_floor_roundFloat64 hq0 hcount
  have hfq : 1 ≤ ⌊V.Mvalue / Max.Mvalue⌋ := Int.le_floor.mpr (by exact_mod_cast hq)
  have hfi : ⌊V.Mvalue / Max.Mvalue⌋ < 2 ^ 52 := by
    have : (⌊V.Mvalue / Max.Mvalue⌋ : ℚ) < 2 ^ 52 := lt_of_le_of_lt (Int.floor_le _) hcount
    exact_mod_cast this
  have hr1 := one_le_roundFloat64 hq
  have hn : (((⌊roundFloat64 (V.Mvalue / Max.Mvalue)⌋ + 1).toNat : Nat) : Int)
      = ⌊roundFloat64 (V.Mvalue / Max.Mvalue)⌋ + 1 := Int.toNat_of_nonneg (by omega)
  have hnq : (((⌊roundFloat64 (V.Mvalue / Max.Mvalue)⌋ + 1).toNat : Nat) : ℚ)
      = ((⌊roundFloat64 (V.Mvalue / Max.Mvalue)⌋ + 1 : Int) : ℚ) := by
    have h := congrArg (fun z : Int => (z : ℚ)) hn
    simp only [Int.cast_natCast] at h
    exact h
  have hk1 : roundFloat64 ((⌊roundFloat64 (V.Mvalue / Max.Mvalue)⌋ + 1 : Int) : ℚ)
      = ((⌊roundFloat64 (V.Mvalue / Max.Mvalue)⌋ + 1 : Int) : ℚ) :=
    roundFloat64_intCast _ (by omega) (by omega)
  have hnpos : (0 : ℚ) < ((⌊roundFloat64 (V.Mvalue / Max.Mvalue)⌋ + 1 : Int) : ℚ) := by
    exact_mod_cast (show (0 : Int) < ⌊roundFloat64 (V.Mvalue / Max.Mvalue)⌋ + 1 by omega)
  -- the exact quotient is below the number of parts
  have hlt : V.Mvalue / Max.Mvalue
      < ((⌊roundFloat64 (V.Mvalue / Max.Mvalue)⌋ + 1 : Int) : ℚ) := by
    by_contra hge
    have hmono := roundFloat64_mono (le_of_lt hnpos) (not_lt.mp hge)
    rw [hk1] at hmono
    have := Int.lt_floor_add_one (roundFloat64 (V.Mvalue / Max.Mvalue))
    push_cast at hmono
    linarith
  have hpart : V.Mvalue / ((⌊roundFloat64 (V.Mvalue / Max.Mvalue)⌋ + 1 : Int) : ℚ)
      < Max.Mvalue := by
    rw [div_lt_iff₀ hnpos]
    rw [div_lt_iff₀ hmax] at hlt
    linarith
  refine ⟨(⌊roundFloat64 (V.Mvalue / Max.Mvalue)⌋ + 1).toNat, hn, by omega, by omega, ?_, ?_, ?_⟩
  · have hc : V.ConvertTo Min.Munit = V.Mvalue := ConvertTo_same hu
    simp only [TransferVolumes, Volume.Unit, Volume.RawValue, hc, NewVolume]
    rw [if_neg (not_lt.mpr hmin), if_neg (not_lt.mpr (le_of_lt hV)),
      Modf_of_nonneg (by linarith), hnq]
    have hk2 : roundFloat64 ((⌊roundFloat64 (V.Mvalue / Max.Mvalue)⌋ : ℚ) + 1)
        = ((⌊roundFloat64 (V.Mvalue / Max.Mvalue)⌋ + 1 : Int) : ℚ) := by
      rw [← hk1]
      push_cast
      rfl
    rw [hk2, intOfFloat64_intCast]
  · rw [hnq]
    calc roundFloat64 (V.Mvalue / ((⌊roundFloat64 (V.Mvalue / Max.Mvalue)⌋ + 1 : Int) : ℚ))
        ≤ roundFloat64 Max.Mvalue :=
          roundFloat64_mono (le_of_lt (div_pos hVpos hnpos)) (le_of_lt hpart)
      _ = Max.Mvalue := hrep
  · rw [hnq]
    have herr := roundFloat64_err
      (V.Mvalue / ((⌊roundFloat64 (V.Mvalue / Max.Mvalue)⌋ + 1 : Int) : ℚ))
    rwa [abs_of_pos (div_pos hVpos hnpos)] at herr

/-- C7 (witness): 120 ul on a channel of at most 50 ul gives `⌊120 / 50⌋ + 1 = 3` volumes of
40 ul. -/
theorem C7_transferVolumes_split_witness :
    TransferVolumes ⟨120, ul⟩ ⟨1, ul⟩ ⟨50, ul⟩ = .ok [⟨40, ul⟩, ⟨40, ul⟩, ⟨40, ul⟩] := by
  obtain ⟨n, hn, -, -, h, -⟩ := C7_transferVolumes_split ⟨120, ul⟩ ⟨1, ul⟩ ⟨50, ul⟩ rfl
    (by decide!) (by decide!) (by decide!) (by decide!) (by decide!)
  have h3 : n = 3 := by
    have : ⌊roundFloat64 ((120 : ℚ) / 50)⌋ = 2 := by decide!
    simp only [this] at hn
    omega
  subst h3
  rw [h]
  decide!

/-! ## Policy engine -/

/-- C8 (failing input): with two matching rules of priorities 10 and 1, `GetPolicyFor` selects
the rule visited last, whatever its priority (`matchpriority` stays `-1`): visiting `high` then
`low` selects `low`, visiting `low` then `high` selects `high`. With two matching rules of
equal priority, the one visited last is selected even when it has fewer conditions. -/
theorem C8_getPolicyFor_last_match_wins :
    ruleHigh.Check glycerolSuck = .ok true ∧ ruleLow.Check glycerolSuck = .ok true
      ∧ LHPolicyRuleSet.selected ⟨examplePolicies, [("high", ruleHigh), ("low", ruleLow)]⟩
          glycerolSuck = .ok ruleLow
      ∧ LHPolicyRuleSet.selected ⟨examplePolicies, [("low", ruleLow), ("high", ruleHigh)]⟩
          glycerolSuck = .ok ruleHigh
      ∧ (LHPolicyRuleSet.GetPolicyFor ⟨examplePolicies, [("high", ruleHigh), ("low", ruleLow)]⟩
          glycerolSuck).map (fun r => r.1.get "ASPSPEED") = .ok (some (.float 1))
      ∧ ruleSpecific.Check glycerolSuck = .ok true ∧ ruleGeneral.Check glycerolSuck = .ok true
      ∧ LHPolicyRuleSet.selected
          ⟨examplePolicies, [("specific", ruleSpecific), ("general", ruleGeneral)]⟩
          glycerolSuck = .ok ruleGeneral := by
  decide!

theorem lookup_filter_ne {β : Type} (k k' : String) (l : List (String × β)) (h : k ≠ k') :
    (l.filter (fun e => e.1 != k')).lookup k = l.lookup k := by
  induction l with
  | nil => rfl
  | cons e es ih =>
    obtain ⟨a, b⟩ := e
    by_cases ha : a = k'
    · subst ha
      have h1 : (k == a) = false := by simpa using h
      simp [List.filter, List.lookup, h1, ih]
    · have h2 : (a != k') = true := by simpa using ha
      simp only [List.filter, h2, List.lookup]
      rw [ih]

theorem LHPolicy.get_set (lhp : LHPolicy) (k k' : String) (v : PolicyValue) :
    (lhp.set k' v).get k = if k = k' then some v else lhp.get k := by
  by_cases h : k = k'
  · subst h
    simp [LHPolicy.set, LHPolicy.get, List.lookup]
  · have h1 : (k == k') = false := by simpa using h
    simp only [LHPolicy.set, LHPolicy.get, List.lookup, h1, if_neg h]
    exact lookup_filter_ne k k' _ h

theorem LHPolicy.get_MergeWith (lhp other : LHPolicy) (k : String) :
    (lhp.MergeWith other).get k = (other.get k).orElse (fun _ => lhp.get k) := by
  obtain ⟨es⟩ := other
  simp only [LHPolicy.MergeWith]
  induction es with
  | nil => simp [LHPolicy.get]
  | cons e es ih =>
    obtain ⟨a, b⟩ := e
    simp only [List.foldr_cons]
    rw [LHPolicy.get_set, ih]
    by_cases h : k = a
    · subst h
      simp [LHPolicy.get, List.lookup]
    · have h1 : (k == a) = false := by simpa using h
      simp [LHPolicy.get, List.lookup, h1, if_neg h]

theorem checkConditions_ok (ins : RobotInstruction) (cs : List LHVariableCondition)
    (hp : ∀ c ∈ cs, ∃ v, ins.GetParameter c.TestVariable = .ok v) :
    ∃ b, checkConditions ins cs = .ok b := by
  induction cs with
  | nil => exact ⟨true, rfl⟩
  | cons c cs ih =>
    obtain ⟨v, hv⟩ := hp c (List.mem_cons_self _ _)
    simp only [checkConditions, LHVariableCondition.Check, hv, Except.map]
    cases c.Condition.Match v
    · exact ⟨false, rfl⟩
    · exact ih (fun c hc => hp c (List.mem_cons_of_mem _ hc))

theorem selectStep_cases (ins : RobotInstruction) (m rule : LHPolicyRule)
    (hp : ∀ c ∈ rule.Conditions, ∃ v, ins.GetParameter c.TestVariable = .ok v) :
    ∃ m2, selectStep ins (-1) m rule = .ok m2
      ∧ (m2 = m ∨ (m2 = rule ∧ rule.Check ins = .ok true))
      ∧ (rule.Check ins = .ok true → 0 ≤ rule.Priority → m2 = rule)
      ∧ (m.Conditions = [] → (rule.Check ins = .ok true → rule.Priority < 0) → m2 = m) := by
  obtain ⟨b, hb⟩ := checkConditions_ok ins rule.Conditions hp
  have hc : rule.Check ins = .ok b := hb
  unfold selectStep
  by_cases h1 : rule.Priority ≥ -1
  · rw [if_pos h1, hc]
    cases b with
    | false =>
      refine ⟨m, rfl, Or.inl rfl, ?_, ?_⟩
      · intro h; cases h
      · intro _ _; rfl
    | true =>
      by_cases h2 : rule.Priority = -1
      · simp only [if_pos h2]
        by_cases h3 : rule.Conditions.length < m.Conditions.length
        · rw [if_pos h3]
          refine ⟨rule, rfl, Or.inr ⟨rfl, trivial⟩, fun _ _ => rfl, ?_⟩
          intro hm _
          rw [hm] at h3
          simp at h3
        · rw [if_neg h3]
          refine ⟨m, rfl, Or.inl rfl, ?_, fun _ _ => rfl⟩
          intro _ h0
          omega
      · simp only [if_neg h2]
        refine ⟨rule, rfl, Or.inr ⟨rfl, trivial⟩, fun _ _ => rfl, ?_⟩
        intro _ hneg
        have := hneg trivial
        omega
  · rw [if_neg h1]
    refine ⟨m, rfl, Or.inl rfl, ?_, fun _ _ => rfl⟩
    intro _ h0
    omega

theorem selectLoop_cases (ins : RobotInstruction) (l : List (String × LHPolicyRule))
    (hp : ∀ r ∈ l, ∀ c ∈ r.2.Conditions, ∃ v, ins.GetParameter c.TestVariable = .ok v)
    (m : LHPolicyRule) :
    ∃ m2, selectLoop ins (-1) l m = .ok m2
      ∧ (m2 = m ∨ ∃ r ∈ l, r.2 = m2 ∧ r.2.Check ins = .ok true) := by
  induction l generalizing m with
  | nil => exact ⟨m, rfl, Or.inl rfl⟩
  | cons r rest ih =>
    obtain ⟨k, rule⟩ := r
    obtain ⟨m1, h1, hcase, -, -⟩ :=
      selectStep_cases ins m rule (hp (k, rule) (List.mem_cons_self _ _))
    obtain ⟨m2, h2, hcase2⟩ := ih (fun r hr => hp r (List.mem_cons_of_mem _ hr)) m1
    refine ⟨m2, by simp only [selectLoop, h1, h2], ?_⟩
    rcases hcase2 with h | ⟨r, hr, hrm, hrc⟩
    · rcases hcase with h' | ⟨h', hc⟩
      · exact Or.inl (h.trans h')
      · exact Or.inr ⟨(k, rule), List.mem_cons_self _ _, (h.trans h').symm, hc⟩
    · exact Or.inr ⟨r, List.mem_cons_of_mem _ hr, hrm, hrc⟩

theorem selectLoop_none (ins : RobotInstruction) (l : List (String × LHPolicyRule))
    (hp : ∀ r ∈ l, ∀ c ∈ r.2.Conditions, ∃ v, ins.GetParameter c.TestVariable = .ok v)
    (m : LHPolicyRule) (hm : m.Conditions = [])
    (hneg : ∀ r ∈ l, r.2.Check ins = .ok true → r.2.Priority < 0) :
    selectLoop ins (-1) l m = .ok m := by
  induction l with
  | nil => rfl
  | cons r rest ih =>
    obtain ⟨k, rule⟩ := r
    obtain ⟨m1, h1, -, -, hkeep⟩ :=
      selectStep_cases ins m rule (hp (k, rule) (List.mem_cons_self _ _))
    have : m1 = m := hkeep hm (hneg (k, rule) (List.mem_cons_self _ _))
    subst this
    simp only [selectLoop, h1]
    exact ih (fun r hr => hp r (List.mem_cons_of_mem _ hr))
      (fun r hr => hneg r (List.mem_cons_of_mem _ hr))

theorem selectLoop_some (ins : RobotInstruction) (l : List (String × LHPolicyRule))
    (hp : ∀ r ∈ l, ∀ c ∈ r.2.Conditions, ∃ v, ins.GetParameter c.TestVariable = .ok v)
    (m : LHPolicyRule)
    (hpos : ∃ r ∈ l, r.2.Check ins = .ok true ∧ 0 ≤ r.2.Priority) :
    ∃ s ∈ l, selectLoop ins (-1) l m = .ok s.2 ∧ s.2.Check ins = .ok true := by
  induction l generalizing m with
  | nil => obtain ⟨r, hr, -⟩ := hpos; cases hr
  | cons r rest ih =>
    obtain ⟨k, rule⟩ := r
    have hprest := fun r hr => hp r (List.mem_cons_of_mem (k, rule) hr)
    obtain ⟨m1, h1, -, hset, -⟩ :=
      selectStep_cases ins m rule (hp (k, rule) (List.mem_cons_self _ _))
    by_cases hrest : ∃ r ∈ rest, r.2.Check ins = .ok true ∧ 0 ≤ r.2.Priority
    · obtain ⟨s, hs, hsel, hsc⟩ := ih hprest m1 hrest
      exact ⟨s, List.mem_cons_of_mem _ hs, by simp only [selectLoop, h1, hsel], hsc⟩
    · obtain ⟨r, hr, hrc, hrp⟩ := hpos
      rcases List.mem_cons.mp hr with heq | hin
      · subst heq
        have hm1 : m1 = rule := hset hrc hrp
        obtain ⟨m2, h2, hcase⟩ := selectLoop_cases ins rest hprest m1
        rcases hcase with h | ⟨s, hs, hsm, hsc⟩
        · refine ⟨(k, rule), List.mem_cons_self _ _, ?_, hrc⟩
          rw [h, hm1] at h2
          simp only [selectLoop, h1, hm1, h2]
        · refine ⟨s, List.mem_cons_of_mem _ hs, ?_, hsc⟩
          simp only [selectLoop, h1, h2, hsm]
      · exact absurd ⟨r, hin, hrc, hrp⟩ hrest

/-- C9 (counterexample): a rule of priority `-2` without conditions matches the instruction,
but `GetPolicyFor` never looks at it (`rule.Priority >= matchpriority` fails): it returns the
`default` policy unchanged, in which `ASPZOFFSET` is 1, and not `default ⊕ rule.policy`, in
which it would be 2. -/
theorem C9_negative_priority_not_merged :
    ruleNegative.Check glycerolSuck = .ok true
      ∧ negativeRuleSet.GetPolicyFor glycerolSuck
          = .ok (⟨[("ASPZOFFSET", .float 1)]⟩, negativeRuleSet)
      ∧ ((⟨[("ASPZOFFSET", .float 1)]⟩ : LHPolicy).MergeWith
          ⟨[("ASPZOFFSET", .float 2)]⟩).get "ASPZOFFSET" = some (.float 2) := by
  decide!

/-- C9 (amended): for a rule set with a `default` policy `d` and an instruction on which the
conditions of the rules can be evaluated, `GetPolicyFor` returns a policy. It is `d`, and the
rule set is left as it was, when no rule of non-negative priority matches. Otherwise the loop
has selected a matching rule `s` of the set, and the policy is `d` if the name of `s` is empty
and else `d ⊕ Policies[s.Name]`: every option of the rule's policy with the rule's value, and
every option present only in `d` with the value of `d`. -/
theorem C9_getPolicyFor_default_merge (lhpr : LHPolicyRuleSet) (ins : RobotInstruction)
    (d : LHPolicy) (hd : lhpr.Policies.lookup "default" = some d)
    (hp : ∀ r ∈ lhpr.Rules, ∀ c ∈ r.2.Conditions,
      ∃ v, ins.GetParameter c.TestVariable = .ok v) :
    ∃ pol lhpr2, lhpr.GetPolicyFor ins = .ok (pol, lhpr2)
      ∧ ((∀ r ∈ lhpr.Rules, r.2.Check ins = .ok true → r.2.Priority < 0) →
          pol = d ∧ lhpr2 = lhpr)
      ∧ ((∃ r ∈ lhpr.Rules, r.2.Check ins = .ok true ∧ 0 ≤ r.2.Priority) →
          ∃ s ∈ lhpr.Rules, lhpr.selected ins = .ok s.2 ∧ s.2.Check ins = .ok true
            ∧ (s.2.Name = "" → pol = d)
            ∧ (s.2.Name ≠ "" → ∀ k, pol.get k =
                (((lhpr.Policies.lookup s.2.Name).getD ⟨[]⟩).get k).orElse
                  (fun _ => d.get k))) := by
  obtain ⟨m, hm, hcase⟩ := selectLoop_cases ins lhpr.Rules hp {}
  have hsel : lhpr.selected ins = .ok m := hm
  by_cases hname : m.Name = ""
  · refine ⟨d, lhpr, ?_, fun _ => ⟨rfl, rfl⟩, ?_⟩
    · simp only [LHPolicyRuleSet.GetPolicyFor, hsel, if_pos hname, hd, Option.getD_some]
    · intro hpos
      obtain ⟨s, hs, hs1, hs2⟩ := selectLoop_some ins lhpr.Rules hp {} hpos
      have hms : m = s.2 := by
        have := hm.symm.trans hs1
        exact Except.ok.inj this
      refine ⟨s, hs, hsel.trans (by rw [hms]), hs2, fun _ => rfl, ?_⟩
      intro hne
      exact absurd (hms ▸ hname) hne
  · have hG : lhpr.GetPolicyFor ins = .ok (d.MergeWith ((lhpr.Policies.lookup m.Name).getD ⟨[]⟩),
        ⟨setPolicy "default" (d.MergeWith ((lhpr.Policies.lookup m.Name).getD ⟨[]⟩))
          lhpr.Policies, lhpr.Rules⟩) := by
      simp only [LHPolicyRuleSet.GetPolicyFor, hsel, if_neg hname, hd]
    refine ⟨_, _, hG, ?_, ?_⟩
    · intro hneg
      have := selectLoop_none ins lhpr.Rules hp {} rfl hneg
      have hm0 : m = {} := Except.ok.inj (hm.symm.trans this)
      rw [hm0] at hname
      exact absurd rfl hname
    · intro hpos
      obtain ⟨s, hs, hs1, hs2⟩ := selectLoop_some ins lhpr.Rules hp {} hpos
      have hms : m = s.2 := Except.ok.inj (hm.symm.trans hs1)
      refine ⟨s, hs, hsel.trans (by rw [hms]), hs2, ?_, ?_⟩
      · intro he
        exact absurd (hms ▸ he) hname
      · intro _ k
        rw [← hms]
        exact LHPolicy.get_MergeWith d _ k

/-- C9 (witness): the policy-merge scenario. With `default` = {ASPZOFFSET 1.0, DSPZOFFSET 0.5}
and the matching glycerol rule of policy {ASPSPEED 1.5, ASPZOFFSET 0.2}, the policy returned
for a glycerol suck has ASPZOFFSET 0.2, DSPZOFFSET 0.5 and ASPSPEED 1.5. -/
theorem C9_getPolicyFor_default_merge_witness :
    ∃ pol lhpr2, glycerolRuleSet.GetPolicyFor glycerolSuck = .ok (pol, lhpr2)
      ∧ pol.get "ASPZOFFSET" = some (.float (1 / 5))
      ∧ pol.get "DSPZOFFSET" = some (.float (1 / 2))
      ∧ pol.get "ASPSPEED" = some (.float (3 / 2)) := by
  obtain ⟨pol, lhpr2, h, -, hmerge⟩ := C9_getPolicyFor_default_merge glycerolRuleSet glycerolSuck
    ⟨[("ASPZOFFSET", .float 1), ("DSPZOFFSET", .float (1 / 2))]⟩ (by decide!)
    (by
      intro r hr c hc
      have hr2 : r = ("glycerol", ruleGlycerol) := by simpa [glycerolRuleSet] using hr
      subst hr2
      have hc2 : c = glycerolCondition := by simpa [ruleGlycerol] using hc
      subst hc2
      exact ⟨_, rfl⟩)
  obtain ⟨s, hs, -, -, -, hget⟩ :=
    hmerge ⟨("glycerol", ruleGlycerol), by simp [glycerolRuleSet], by decide!, by decide!⟩
  have hs2 : s = ("glycerol", ruleGlycerol) := by simpa [glycerolRuleSet] using hs
  subst hs2
  have hg := hget (by decide!)
  refine ⟨pol, lhpr2, h, ?_, ?_, ?_⟩
  · rw [hg]; decide!
  · rw [hg]; decide!
  · rw [hg]; decide!

/-! ## Parallel-set detection -/

theorem getD_set_eq {α : Type} (l : List α) (i : Nat) (a d : α) (h : i < l.length) :
    (l.set i a).getD i d = a := by
  simp [List.getD_eq_getElem?_getD, List.getElem?_set, h]

theorem getD_set_ne {α : Type} (l : List α) (i j : Nat) (a d : α) (h : i ≠ j) :
    (l.set i a).getD j d = l.getD j d := by
  simp [List.getD_eq_getElem?_getD, List.getElem?_set, h]

theorem newRow_length : newRow.length = 12 := rfl

theorem newRow_getD (t : Nat) : newRow.getD t [] = [] := by
  unfold newRow
  rw [List.getD_eq_getElem?_getD, List.getElem?_replicate]
  split <;> rfl

theorem idx_of_lt {α : Type} (l : List α) (i : Nat) (d : α) (h : i < l.length) :
    idx l i = .ok (l.getD i d) := by
  simp [idx, List.getD_eq_getElem?_getD, h]

theorem hashTransfer_spec (parse : String → WellCoords) (ins : TransferInstruction)
    (channel : LHChannelParameter) (tfrs : ParallelTable) (i : Nat) (fc tc : Nat)
    (hwf : TableWF tfrs) (hc : orientCoords parse ins channel i = some ((fc : Int), (tc : Int)))
    (hf : fc < 12) (ht : tc < 12) :
    ∃ tfrs2, hashTransfer parse ins channel tfrs i = .ok tfrs2 ∧ TableWF tfrs2
      ∧ ∀ f t, cell tfrs2 f t = if f = fc ∧ t = tc then cell tfrs f t ++ [i] else cell tfrs f t := by
  unfold orientCoords at hc
  cases hwfrom : ins.WellFrom[i]? with
  | none => simp [hwfrom] at hc
  | some wf =>
    cases hwto : ins.WellTo[i]? with
    | none => simp [hwfrom, hwto] at hc
    | some wt =>
      simp only [hwfrom, hwto, Option.some.injEq, Prod.mk.injEq] at hc
      obtain ⟨hcf, hct⟩ := hc
      obtain ⟨hlen, hrows⟩ := hwf
      have hfl : fc < tfrs.length := by omega
      have hrow : ∃ row, tfrs[fc]? = some row := ⟨tfrs[fc], by simp [hfl]⟩
      obtain ⟨row, hrow⟩ := hrow
      have halen : (row.getD newRow).length = 12 := by
        cases row with
        | none => exact newRow_length
        | some a => simpa using hrows fc a hrow
      have htl : tc < (row.getD newRow).length := by omega
      refine ⟨tfrs.set fc (some ((row.getD newRow).set tc
          ((row.getD newRow).getD tc [] ++ [i]))), ?_, ?_, ?_⟩
      · have h1 : ¬ ((fc : Int) < 0) := by omega
        have h2 : ¬ ((tc : Int) < 0) := by omega
        have hi1 : idx tfrs fc = .ok row := by simp [idx, hrow]
        simp only [hashTransfer, idx, hwfrom, hwto, hcf, hct, idxInt, bind, Except.bind,
          pure, Except.pure, h1, h2, if_false, Int.toNat_ofNat]
        simp only [← idx.eq_1, hi1, idx_of_lt _ _ [] htl]
      · refine ⟨by simp [hlen], ?_⟩
        intro f a ha
        by_cases hff : fc = f
        · subst hff
          simp [List.getElem?_set, hfl] at ha
          subst ha
          simp [halen]
        · rw [List.getElem?_set_ne hff] at ha
          exact hrows f a ha
      · intro f t
        unfold cell
        by_cases hff : f = fc
        · subst hff
          rw [getD_set_eq _ _ _ _ hfl]
          have hr : tfrs.getD f none = row := by
            simp [List.getD_eq_getElem?_getD, hrow]
          rw [hr]
          simp only [Option.getD_some, true_and]
          by_cases htt : t = tc
          · subst htt
            rw [if_pos rfl, getD_set_eq _ _ _ _ htl]
          · rw [if_neg htt, getD_set_ne _ _ _ _ _ (Ne.symm htt)]
        · rw [getD_set_ne _ _ _ _ _ (Ne.symm hff)]
          simp [hff]

theorem hashTransfers_spec (parse : String → WellCoords) (ins : TransferInstruction)
    (channel : LHChannelParameter) (is : List Nat) (tfrs : ParallelTable) (hwf : TableWF tfrs)
    (hc : ∀ i ∈ is, ∃ fc tc : Nat, fc < 12 ∧ tc < 12
      ∧ orientCoords parse ins channel i = some ((fc : Int), (tc : Int))) :
    ∃ tfrs2, hashTransfers parse ins channel is tfrs = .ok tfrs2 ∧ TableWF tfrs2
      ∧ ∀ f t : Nat, cell tfrs2 f t = cell tfrs f t
          ++ is.filter (fun i => orientCoords parse ins channel i = some ((f : Int), (t : Int))) := by
  induction is generalizing tfrs with
  | nil => exact ⟨tfrs, rfl, hwf, by simp⟩
  | cons i rest ih =>
    obtain ⟨fc, tc, hf, ht, hci⟩ := hc i (List.mem_cons_self _ _)
    obtain ⟨t1, h1, hwf1, hcell1⟩ := hashTransfer_spec parse ins channel tfrs i fc tc hwf hci hf ht
    obtain ⟨t2, h2, hwf2, hcell2⟩ := ih t1 hwf1 (fun j hj => hc j (List.mem_cons_of_mem _ hj))
    refine ⟨t2, by simp only [hashTransfers, h1, h2], hwf2, ?_⟩
    intro f t
    rw [hcell2, hcell1]
    by_cases hft : f = fc ∧ t = tc
    · obtain ⟨rfl, rfl⟩ := hft
      simp [List.filter, hci]
    · rw [if_neg hft]
      have : ¬ (orientCoords parse ins channel i = some ((f : Int), (t : Int))) := by
        rw [hci]
        intro h
        simp only [Option.some.injEq, Prod.mk.injEq, Nat.cast_inj] at h
        exact hft ⟨h.1.symm, h.2.symm⟩
      simp [List.filter, this]

theorem newTable_wf : TableWF newTable := by
  refine ⟨rfl, ?_⟩
  intro f a h
  unfold newTable at h
  rw [List.getElem?_replicate] at h
  split at h <;> simp at h

theorem cell_newTable (f t : Nat) : cell newTable f t = [] := by
  unfold cell
  have : newTable.getD f none = none := by
    unfold newTable
    rw [List.getD_eq_getElem?_getD, List.getElem?_replicate]
    split <;> rfl
  rw [this]
  exact newRow_getD t

theorem mem_collectSets (multi : Int) (tfrs : ParallelTable)
    (hm : multi ≠ 0) (s : List Nat) :
    s ∈ collectSets multi tfrs ↔ ∃ f t : Nat, s = cell tfrs f t ∧ (s.length : Int) = multi := by
  unfold collectSets
  simp only [List.mem_flatMap]
  constructor
  · rintro ⟨row, hrow, hs⟩
    cases row with
    | none => simp at hs
    | some a =>
      simp only [List.mem_filter, decide_eq_true_eq] at hs
      obtain ⟨hsa, hlen⟩ := hs
      obtain ⟨f, hf, hfe⟩ := List.mem_iff_getElem.mp hrow
      obtain ⟨t, ht, hte⟩ := List.mem_iff_getElem.mp hsa
      refine ⟨f, t, ?_, hlen⟩
      unfold cell
      simp [List.getD_eq_getElem?_getD, hf, hfe, ht, hte]
  · rintro ⟨f, t, hst, hlen⟩
    have hne : s ≠ [] := by
      intro h
      rw [h] at hlen
      simp at hlen
      exact hm hlen.symm
    unfold cell at hst
    cases hrow : tfrs.getD f none with
    | none =>
      rw [hrow] at hst
      simp only [Option.getD_none] at hst
      rw [newRow_getD] at hst
      exact absurd hst hne
    | some a =>
      rw [hrow] at hst
      simp only [Option.getD_some] at hst
      have hmem : some a ∈ tfrs := by
        rw [List.getD_eq_getElem?_getD] at hrow
        cases hget : tfrs[f]? with
        | none => simp [hget] at hrow
        | some r =>
          simp only [hget, Option.getD_some] at hrow
          subst hrow
          exact List.getElem?_mem hget
      refine ⟨some a, hmem, ?_⟩
      simp only [List.mem_filter, decide_eq_true_eq]
      refine ⟨?_, hlen⟩
      rw [List.getD_eq_getElem?_getD] at hst
      cases hget : a[t]? with
      | none =>
        simp only [hget, Option.getD_none] at hst
        exact absurd hst hne
      | some r =>
        simp only [hget, Option.getD_some] at hst
        subst hst
        exact List.getElem?_mem hget


/-- C10 (failing input): two transfers within column 13 of a 384-well plate form a group of
size 2 for a vertical two-channel head, but `GetParallelSetsFor` returns no set: the index 12
is outside its table of 12 rows and the call panics with an index out of range. -/
theorem C10_column_thirteen_faults :
    parallelGroup MakeWellCoordsA1 wideTransfer (exampleChannel 2 LHVChannel) 12 12 = [0, 1]
      ∧ wideTransfer.GetParallelSetsFor MakeWellCoordsA1 (exampleChannel 2 LHVChannel)
          = .error .indexOutOfRange := by
  decide!

/-- C10 (within the table): for `multi = 1`, `GetParallelSetsFor` returns no set. For
`multi > 1` and transfers whose source and destination orient-coordinates (column for a
vertical channel, row for a horizontal one) all lie in `0..11`, it returns exactly the groups
of transfer indices sharing the pair of coordinates whose size is `multi`: a list is returned
iff it is the whole group of some pair and has `multi` members. -/
theorem C10_parallel_sets (parse : String → WellCoords) (ins : TransferInstruction)
    (channel : LHChannelParameter) :
    (channel.Multi = 1 → ins.GetParallelSetsFor parse channel = .ok [])
      ∧ (1 < channel.Multi →
          (∀ i < ins.What.length, ∃ fc tc : Nat, fc < 12 ∧ tc < 12
            ∧ orientCoords parse ins channel i = some ((fc : Int), (tc : Int))) →
          ∃ sets, ins.GetParallelSetsFor parse channel = .ok sets
            ∧ ∀ s, s ∈ sets ↔ ∃ f t : Int, s = parallelGroup parse ins channel f t
                ∧ (s.length : Int) = channel.Multi) := by
  constructor
  · intro h1
    simp only [TransferInstruction.GetParallelSetsFor, if_pos h1]
  · intro hm hc
    have hne1 : ¬ channel.Multi = 1 := by omega
    obtain ⟨tfrs, hrun, hwf, hcell⟩ := hashTransfers_spec parse ins channel
      (List.range ins.What.length) newTable newTable_wf
      (fun i hi => hc i (List.mem_range.mp hi))
    refine ⟨collectSets channel.Multi tfrs, ?_, ?_⟩
    · simp only [TransferInstruction.GetParallelSetsFor, if_neg hne1, hrun]
    · intro s
      rw [mem_collectSets channel.Multi tfrs (by omega) s]
      constructor
      · rintro ⟨f, t, hs, hlen⟩
        refine ⟨f, t, ?_, hlen⟩
        rw [hs, hcell, cell_newTable]
        rfl
      · rintro ⟨f, t, hs, hlen⟩
        have hne : s ≠ [] := by
          intro h
          rw [h] at hlen
          simp at hlen
          omega
        obtain ⟨i, hi⟩ := List.exists_mem_of_ne_nil s hne
        rw [hs] at hi
        simp only [parallelGroup, List.mem_filter, List.mem_range, decide_eq_true_eq] at hi
        obtain ⟨hil, hic⟩ := hi
        obtain ⟨fc, tc, -, -, hci⟩ := hc i hil
        rw [hci] at hic
        simp only [Option.some.injEq, Prod.mk.injEq] at hic
        obtain ⟨hf, ht⟩ := hic
        refine ⟨fc, tc, ?_, hlen⟩
        rw [hs, hcell, cell_newTable, hf, ht]
        rfl

/-- C10 (witness): a one-channel head gets no set; for the eight transfers `A1..H1 → A2..H2`
and a vertical eight-channel head, the sets returned are the groups of size eight, and the
group of column 1 to column 2 is among them. -/
theorem C10_parallel_sets_witness :
    columnTransfer.GetParallelSetsFor MakeWellCoordsA1 (exampleChannel 1 LHVChannel) = .ok []
      ∧ ∃ sets, columnTransfer.GetParallelSetsFor MakeWellCoordsA1
            (exampleChannel 8 LHVChannel) = .ok sets
          ∧ [0, 1, 2, 3, 4, 5, 6, 7] ∈ sets := by
  refine ⟨(C10_parallel_sets MakeWellCoordsA1 columnTransfer (exampleChannel 1 LHVChannel)).1 rfl,
    ?_⟩
  obtain ⟨sets, h, hiff⟩ :=
    (C10_parallel_sets MakeWellCoordsA1 columnTransfer (exampleChannel 8 LHVChannel)).2
      (by decide) (by
        intro i hi
        refine ⟨0, 1, by decide, by decide, ?_⟩
        have hi8 : i < 8 := hi
        interval_cases i <;> decide!)
  exact ⟨sets, h, (hiff _).mpr ⟨0, 1, by decide!, by decide!⟩⟩

/-! ## Volume conservation: the liquid moved by a lowered transfer -/

theorem bind_eq_ok {α β : Type} {x : Except Fault α} {f : α → Except Fault β} {b : β}
    (h : x >>= f = .ok b) : ∃ a, x = .ok a ∧ f a = .ok b := by
  cases x with
  | error e => cases h
  | ok a => exact ⟨a, rfl, h⟩

theorem map_eq_ok {α β : Type} {x : Except Fault α} {f : α → β} {b : β}
    (h : x.map f = .ok b) : ∃ a, x = .ok a ∧ f a = b := by
  cases x with
  | error e => cases h
  | ok a => exact ⟨a, rfl, Except.ok.inj h⟩

theorem chooseHead_mem {vol : Volume} {heads : List LHHead} {h : LHHead}
    (hc : chooseHead vol heads = some h) : h ∈ heads := by
  induction heads with
  | nil => cases hc
  | cons x xs ih =>
    simp only [chooseHead] at hc
    split at hc
    · cases hc; exact List.mem_cons_self _ _
    · exact List.mem_cons_of_mem _ (ih hc)

theorem idx_eq_ok {α : Type} {l : List α} {i : Nat} {a : α} (h : idx l i = .ok a) :
    l[i]? = some a := by
  unfold idx at h
  split at h
  · cases h; assumption
  · cases h

theorem toBool_eq_ok {α : Type} {x : Except Fault α} (h : x.toBool = true) :
    ∃ r, x = .ok r := by
  cases x with
  | error e => cases h
  | ok r => exact ⟨r, rfl⟩

/-- C2 (evaluation of the code): the block `mixedBlock` lowers without fault on hardware with
a head of 10 to 50 ul and a head of 1 to 5 ul. Its second entry, 20 ul, selects the channel of
10 to 50 ul, whose tips are loaded before its transfers run, but it is split with the bounds
of the channel of the previous entry: five single-channel transfers of 4 ul, below the
minimum of 10 ul of the channel they run on. -/
theorem C2_block_splits_with_previous_channel :
    (mixedBlock.Generate counterTips exampleState.policy twoHeadHardware).map
      (fun r => r.1.filterMap blockEvent)
      = .ok [.tipsOn 1, .transfer "serum" (some ⟨4, ul⟩), .tipsOff 1, .tipsOn 0,
          .transfer "buffer" (some ⟨4, ul⟩), .transfer "buffer" (some ⟨4, ul⟩),
          .transfer "buffer" (some ⟨4, ul⟩), .transfer "buffer" (some ⟨4, ul⟩),
          .transfer "buffer" (some ⟨4, ul⟩), .tipsOff 0]
    ∧ (ChooseChannel ⟨20, ul⟩ twoHeadHardware (.alloc 2)).map
        (fun c => (c.1.val.Head, c.1.val.Minvol, c.1.val.Maxvol))
      = .ok (0, ⟨10, ul⟩, ⟨50, ul⟩)
    ∧ (Volume.mk 4 ul).LessThan ⟨10, ul⟩ = true := by
  decide!

/-! ## Order of the parallel sets -/

theorem range_map_getD {α : Type} (l : List α) (d : α) :
    (List.range l.length).map (fun i => l.getD i d) = l := by
  apply List.ext_getElem
  · simp
  · intro i h1 h2
    simp [List.getD_eq_getElem?_getD, List.getElem?_eq_getElem h2]

theorem collectSets_eq (multi : Int) (tfrs : ParallelTable) (hwf : TableWF tfrs)
    (hm : multi ≠ 0) :
    collectSets multi tfrs = (List.range 12).flatMap (fun (f : Nat) =>
      ((List.range 12).map (fun (t : Nat) => cell tfrs f t)).filter
        (fun s => decide ((s.length : Int) = multi))) := by
  obtain ⟨hlen, hrows⟩ := hwf
  unfold collectSets
  conv_lhs => rw [← range_map_getD tfrs none, hlen]
  rw [List.flatMap_map]
  apply List.flatMap_congr
  intro f hf
  have hf12 : f < 12 := List.mem_range.mp hf
  have hget : tfrs.getD f none = (tfrs[f]?).getD none := List.getD_eq_getElem?_getD _ _ _
  cases hrow : tfrs[f]? with
  | none =>
    have := List.getElem?_eq_none_iff.mp hrow
    omega
  | some row =>
    cases row with
    | none =>
      have hc : ∀ t, cell tfrs f t = [] := by
        intro t
        simp only [cell, hget, hrow, Option.getD_some, Option.getD_none]
        exact newRow_getD t
      simp only [hget, hrow, Option.getD_some, hc]
      symm
      rw [List.filter_eq_nil_iff]
      intro s hs
      obtain ⟨t, -, rfl⟩ := List.mem_map.mp hs
      simp only [List.length_nil, decide_eq_true_eq]
      intro h0
      exact hm (by simpa using h0.symm)
    | some a =>
      have ha : a.length = 12 := hrows f a hrow
      have hc : ∀ t, cell tfrs f t = a.getD t [] := by
        intro t
        simp only [cell, hget, hrow, Option.getD_some]
      simp only [hget, hrow, Option.getD_some, hc]
      conv_lhs => rw [← range_map_getD a [], ha]

/-- C11 (counterexample): the transfers 0 and 1 form the group of column 2 and the transfers
2 and 3 the group of column 1; `GetParallelSetsFor` returns the group `[2, 3]` before the
group `[0, 1]`, although the smallest index of `[0, 1]` is the smaller one. -/
theorem C11_sets_not_in_encounter_order :
    crossTransfer.GetParallelSetsFor MakeWellCoordsA1 (exampleChannel 2 LHVChannel)
      = .ok [[2, 3], [0, 1]] := by
  decide!

/-- C11 (amended): for a channel with `multi > 1` and transfers whose orient-coordinates all
lie in `0..11`, `GetParallelSetsFor` returns the eligible sets in the order of the table it
walks: by increasing source orient-coordinate and, for one source coordinate, by increasing
destination orient-coordinate. The result is the list of the groups of the pairs
`(0,0), (0,1), ..., (0,11), (1,0), ..., (11,11)`, in this order, from which the groups whose
size is not `multi` are dropped. -/
theorem C11_sets_in_table_order (parse : String → WellCoords) (ins : TransferInstruction)
    (channel : LHChannelParameter) (hm : 1 < channel.Multi)
    (hc : ∀ i < ins.What.length, ∃ fc tc : Nat, fc < 12 ∧ tc < 12
      ∧ orientCoords parse ins channel i = some ((fc : Int), (tc : Int))) :
    ins.GetParallelSetsFor parse channel = .ok ((List.range 12).flatMap (fun (f : Nat) =>
      ((List.range 12).map (fun (t : Nat) => parallelGroup parse ins channel (f : Int) (t : Int))).filter
        (fun s => decide ((s.length : Int) = channel.Multi)))) := by
  have hne1 : ¬ channel.Multi = 1 := by omega
  obtain ⟨tfrs, hrun, hwf, hcell⟩ := hashTransfers_spec parse ins channel
    (List.range ins.What.length) newTable newTable_wf
    (fun i hi => hc i (List.mem_range.mp hi))
  simp only [TransferInstruction.GetParallelSetsFor, if_neg hne1, hrun]
  rw [collectSets_eq channel.Multi tfrs hwf (by omega)]
  congr 1
  apply List.flatMap_congr
  intro f _
  congr 1
  apply List.map_congr_left
  intro t _
  rw [hcell f t, cell_newTable]
  rfl

/-- C11 (witness): in the four-transfer scenario the group of column 1, `[2, 3]`, comes before
the group of column 2, `[0, 1]`. -/
theorem C11_sets_in_table_order_witness :
    crossTransfer.GetParallelSetsFor MakeWellCoordsA1 (exampleChannel 2 LHVChannel)
      = .ok ((List.range 12).flatMap (fun (f : Nat) =>
        ((List.range 12).map (fun (t : Nat) => parallelGroup MakeWellCoordsA1 crossTransfer
            (exampleChannel 2 LHVChannel) (f : Int) (t : Int))).filter
          (fun s => decide ((s.length : Int) = (exampleChannel 2 LHVChannel).Multi))))
      ∧ parallelGroup MakeWellCoordsA1 crossTransfer (exampleChannel 2 LHVChannel) 0 0 = [2, 3]
      ∧ parallelGroup MakeWellCoordsA1 crossTransfer (exampleChannel 2 LHVChannel) 1 1 = [0, 1] :=
  ⟨C11_sets_in_table_order MakeWellCoordsA1 crossTransfer (exampleChannel 2 LHVChannel)
      (by decide) (by
        intro i hi
        have hi4 : i < 4 := hi
        interval_cases i
        · exact ⟨1, 1, by decide, by decide, by decide!⟩
        · exact ⟨1, 1, by decide, by decide, by decide!⟩
        · exact ⟨0, 0, by decide, by decide, by decide!⟩
        · exact ⟨0, 0, by decide, by decide, by decide!⟩),
    by decide!, by decide!⟩

/-! ## Channel and tip selection -/

theorem SIValue_eq (v : Volume) : v.SIValue = v.Mvalue * (10 : ℚ) ^ v.Munit := by
  simp [Volume.SIValue, Volume.ConvertTo]

theorem ConvertTo_mul (w : Volume) (u : Int) :
    w.ConvertTo u * (10 : ℚ) ^ u = w.SIValue := by
  rw [SIValue_eq, Volume.ConvertTo, mul_assoc, ← zpow_add₀ (by norm_num : (10 : ℚ) ≠ 0)]
  congr 2
  omega

theorem LessThan_iff (v w : Volume) : v.LessThan w = true ↔ v.SIValue < w.SIValue := by
  have hpos : (0 : ℚ) < (10 : ℚ) ^ v.Munit := zpow_pos (by norm_num) _
  rw [← ConvertTo_mul w v.Munit, SIValue_eq v]
  simp only [Volume.LessThan, Volume.RawValue, decide_eq_true_eq]
  exact (mul_lt_mul_right hpos).symm

theorem EqualTo_iff (v w : Volume) : v.EqualTo w = true ↔ v.SIValue = w.SIValue := by
  have hpos : (10 : ℚ) ^ v.Munit ≠ 0 := zpow_ne_zero _ (by norm_num)
  rw [← ConvertTo_mul w v.Munit, SIValue_eq v]
  simp only [Volume.EqualTo, Volume.RawValue, decide_eq_true_eq]
  exact (mul_left_inj' hpos).symm

theorem GreaterThan_iff (v w : Volume) : v.GreaterThan w = true ↔ w.SIValue < v.SIValue := by
  have hpos : (0 : ℚ) < (10 : ℚ) ^ v.Munit := zpow_pos (by norm_num) _
  rw [← ConvertTo_mul w v.Munit, SIValue_eq v]
  simp only [Volume.GreaterThan, Volume.RawValue, decide_eq_true_eq]
  exact (mul_lt_mul_right hpos).symm

theorem chooseHead_split {vol : Volume} {heads : List LHHead} {head : LHHead}
    (h : chooseHead vol heads = some head) :
    ∃ pre post, heads = pre ++ head :: post
      ∧ (∀ e ∈ pre, vol.SIValue < e.Params.val.Minvol.SIValue)
      ∧ head.Params.val.Minvol.SIValue ≤ vol.SIValue := by
  induction heads with
  | nil => cases h
  | cons x xs ih =>
    simp only [chooseHead] at h
    split at h
    · rename_i hx
      cases h
      refine ⟨[], xs, rfl, by simp, ?_⟩
      rcases Bool.or_eq_true _ _ ▸ hx with h1 | h1
      · exact le_of_lt ((LessThan_iff _ _).mp h1)
      · exact le_of_eq ((EqualTo_iff _ _).mp h1)
    · rename_i hx
      obtain ⟨pre, post, hsplit, hpre, hle⟩ := ih h
      refine ⟨x :: pre, post, by rw [hsplit]; rfl, ?_, hle⟩
      intro e he
      rcases List.mem_cons.mp he with rfl | he
      · simp only [Bool.or_eq_true, not_or] at hx
        have h1 : ¬ e.Params.val.Minvol.SIValue < vol.SIValue :=
          fun hlt => hx.1 ((LessThan_iff _ _).mpr hlt)
        have h2 : ¬ e.Params.val.Minvol.SIValue = vol.SIValue :=
          fun heq => hx.2 ((EqualTo_iff _ _).mpr heq)
        exact lt_of_le_of_ne (not_lt.mp h1) (Ne.symm h2)
      · exact hpre e he

/-- C13: when `ChooseChannel(V, hw)` succeeds, the heads loaded split into the heads before
the selected one, whose minimum volumes all are above `V`, the selected head, whose minimum
volume is at most `V`, and the heads after it; the channel returned is `GetParams` of the
selected head. Volumes are compared as physical volumes. -/
theorem C13_chooseChannel_first_head {σ : Type} (vol : Volume) (prms : LHProperties σ)
    (fresh : Addr) (c : ChannelPtr) (tt : String)
    (h : ChooseChannel vol prms fresh = .ok (c, tt)) :
    ∃ pre head post, prms.HeadsLoaded = pre ++ head :: post
      ∧ (∀ e ∈ pre, vol.SIValue < e.Params.val.Minvol.SIValue)
      ∧ head.Params.val.Minvol.SIValue ≤ vol.SIValue
      ∧ head.GetParams fresh = .ok c := by
  unfold ChooseChannel at h
  split at h
  · cases h
  · rename_i headchosen hhead
    obtain ⟨pre, post, hsplit, hpre, hle⟩ := chooseHead_split hhead
    refine ⟨pre, headchosen, post, hsplit, hpre, hle, ?_⟩
    split at h
    · cases h
    · split at h
      · cases h
      · simp only at h
        split at h
        · cases h
        · obtain ⟨c', hc', he⟩ := map_eq_ok h
          cases he
          exact hc'

/-- C13 (witness): on the hardware with a head of 10 to 50 ul followed by a head of 1 to 5 ul,
4 ul selects the second head: the first one has a minimum above 4 ul. -/
theorem C13_chooseChannel_first_head_witness :
    ∃ c tt, ChooseChannel ⟨4, ul⟩ twoHeadHardware (.alloc 0) = .ok (c, tt)
      ∧ ∃ pre head post, twoHeadHardware.HeadsLoaded = pre ++ head :: post
        ∧ (∀ e ∈ pre, (Volume.mk 4 ul).SIValue < e.Params.val.Minvol.SIValue)
        ∧ head.Params.val.Minvol.SIValue ≤ (Volume.mk 4 ul).SIValue
        ∧ head.GetParams (.alloc 0) = .ok c := by
  obtain ⟨⟨c, tt⟩, hr⟩ := toBool_eq_ok
    (by decide! : (ChooseChannel ⟨4, ul⟩ twoHeadHardware (.alloc 0)).toBool = true)
  exact ⟨c, tt, hr, C13_chooseChannel_first_head ⟨4, ul⟩ twoHeadHardware (.alloc 0) c tt hr⟩

/-- C14 (evaluation of the code): for 600 ul and the tip types `tip500` (minimum 500 ul) and
`tip5ml` (minimum 0.1 ml), both of which have a minimum of at most 600 ul, `ChooseChannel`
returns `tip5ml`: it compares 600 - 500 = 100, counted in ul, with 0.6 - 0.1 = 0.5, counted
in ml. As physical volumes `tip500` is the closer one: 100 ul against 500 ul. -/
theorem C14_tip_difference_in_mixed_units :
    (ChooseChannel ⟨600, ul⟩ unitTipsHardware (.alloc 0)).map (fun r => r.2) = .ok "tip5ml"
      ∧ unitTipsHardware.Tips.map (fun t => (t.Type_, t.MinVol))
          = [("tip500", ⟨500, ul⟩), ("tip5ml", ⟨1 / 10, ml⟩)]
      ∧ (Volume.mk 500 ul).SIValue ≤ (Volume.mk 600 ul).SIValue
      ∧ (Volume.mk (1 / 10) ml).SIValue ≤ (Volume.mk 600 ul).SIValue
      ∧ (Volume.mk 600 ul).SIValue - (Volume.mk 500 ul).SIValue
          < (Volume.mk 600 ul).SIValue - (Volume.mk (1 / 10) ml).SIValue := by
  decide!

/-- C15 (evaluation of the code): for 100000 ul on the hardware with one head and one tip type
of minimum 1 ul, a head is selected, its adaptor minimum does not exceed the volume and the
tip minimum is below the volume, but `ChooseChannel` faults with "NO TIP TYPE FOUND": the
difference 99999 is not below the initial distance `99999.0`. The same happens for 200 ul and
a tip minimum of 500 nl, whose difference is counted in nanolitres. -/
theorem C15_far_tip_not_found :
    ChooseChannel ⟨100000, ul⟩ exampleHardware (.alloc 0) = .error .noTipTypeFound
      ∧ exampleHardware.HeadsLoaded.map
          (fun h => (h.Params.val.Minvol, h.Adaptor.map (fun a => a.Params.val.Minvol)))
          = [(⟨1, ul⟩, some ⟨1, ul⟩)]
      ∧ exampleHardware.Tips.map (fun t => t.MinVol) = [⟨1, ul⟩]
      ∧ (Volume.mk 1 ul).SIValue ≤ (Volume.mk 100000 ul).SIValue
      ∧ ChooseChannel ⟨200, ul⟩ nanoTipHardware (.alloc 0) = .error .noTipTypeFound
      ∧ nanoTipHardware.HeadsLoaded.map
          (fun h => (h.Params.val.Minvol, h.Adaptor.map (fun a => a.Params.val.Minvol)))
          = [(⟨1, ul⟩, some ⟨1, ul⟩)]
      ∧ nanoTipHardware.Tips.map (fun t => t.MinVol) = [⟨500, nl⟩]
      ∧ (Volume.mk 1 ul).SIValue ≤ (Volume.mk 200 ul).SIValue
      ∧ (Volume.mk 500 nl).SIValue ≤ (Volume.mk 200 ul).SIValue := by
  decide!

/-! ## Tips in single-channel blocks -/

theorem getTips_shape {σ : Type} {ops : TipOps σ} {tiptype : String} {params p2 : LHProperties σ}
    {channel : LHChannelParameter} {multi : Int} {mirror : Bool} {i : RobotInstruction}
    (h : GetTips ops tiptype params channel multi mirror = .ok (i, p2)) :
    (∃ g, i = .loadTipsMove g ∧ g.Head = channel.Head)
      ∧ p2.HeadsLoaded = params.HeadsLoaded ∧ p2.Tips = params.Tips := by
  unfold GetTips at h
  split at h
  · cases h
  · cases h
    exact ⟨⟨_, rfl, rfl⟩, rfl, rfl⟩

theorem dropTips_shape {σ : Type} {ops : TipOps σ} {tiptype : String} {params p2 : LHProperties σ}
    {channel : LHChannelParameter} {multi : Int} {i : RobotInstruction}
    (h : DropTips ops tiptype params channel multi = .ok (i, p2)) :
    (∃ d, i = .unloadTipsMove d ∧ d.Head = channel.Head)
      ∧ p2.HeadsLoaded = params.HeadsLoaded ∧ p2.Tips = params.Tips := by
  unfold DropTips at h
  split at h
  · cases h
  · cases h
    exact ⟨⟨_, rfl, rfl⟩, rfl, rfl⟩

/-- What one turn of the inner loop of a single-channel block emits and how it leaves the
state: a tip change (a drop and a load) when the tips were used more than the limit or the
channel or the tip type differs, and then the single-channel transfer. -/
theorem scb_chunk_shape {σ : Type} {ops : TipOps σ} {ins : SingleChannelBlockInstruction}
    {pol : LHPolicy} {t : Nat} {newchannel : ChannelPtr} {newtiptype : String}
    {st st2 : BlockState σ} {vol : Volume} {out : List RobotInstruction}
    (h : ins.chunk ops pol t newchannel newtiptype st vol = .ok (out, st2)) :
    ∃ limit s, pol.int "TIP_REUSE_LIMIT" = .ok limit
      ∧ ins.What[t]? = some s.What ∧ s.Volume = some vol
      ∧ st2.prms.HeadsLoaded = st.prms.HeadsLoaded ∧ st2.prms.Tips = st.prms.Tips
      ∧ (((decide (st.n_tip_uses > limit) || st.channel.addr != newchannel.addr
            || newtiptype != st.tiptype) = true →
          ∃ d g, out = [.unloadTipsMove d, .loadTipsMove g, .singleChannelTransfer s]
            ∧ d.Head = st.channel.val.Head ∧ g.Head = newchannel.val.Head
            ∧ st2.n_tip_uses = 1 ∧ st2.channel = newchannel ∧ st2.tiptype = newtiptype)
        ∧ (¬ (decide (st.n_tip_uses > limit) || st.channel.addr != newchannel.addr
            || newtiptype != st.tiptype) = true →
          out = [.singleChannelTransfer s] ∧ st2.n_tip_uses = st.n_tip_uses + 1
            ∧ st2.channel = st.channel ∧ st2.tiptype = st.tiptype)) := by
  unfold SingleChannelBlockInstruction.chunk at h
  obtain ⟨limit, hlimit, h⟩ := bind_eq_ok h
  obtain ⟨⟨change, st1⟩, hblk, h⟩ := bind_eq_ok h
  obtain ⟨w, hw, h⟩ := bind_eq_ok h
  obtain ⟨x1, -, h⟩ := bind_eq_ok h
  obtain ⟨x2, -, h⟩ := bind_eq_ok h
  obtain ⟨x3, -, h⟩ := bind_eq_ok h
  obtain ⟨x4, -, h⟩ := bind_eq_ok h
  obtain ⟨x5, -, h⟩ := bind_eq_ok h
  obtain ⟨x6, -, h⟩ := bind_eq_ok h
  obtain ⟨fv, -, h⟩ := bind_eq_ok h
  obtain ⟨tv, -, h⟩ := bind_eq_ok h
  obtain ⟨fv2, -, h⟩ := bind_eq_ok h
  cases h
  refine ⟨limit,
    { What := w, PltFrom := x1, PltTo := x2, WellFrom := x3, WellTo := x4,
      Volume := some vol, FPlateType := x5, TPlateType := x6,
      FVolume := some (CopyVolume fv), TVolume := some (CopyVolume tv), Prms := ins.Prms },
    hlimit, idx_eq_ok hw, rfl, ?_⟩
  split at hblk
  · rename_i hcond
    obtain ⟨⟨drop, p1⟩, hd, hblk⟩ := bind_eq_ok hblk
    obtain ⟨⟨get, p2⟩, hg, hblk⟩ := bind_eq_ok hblk
    cases hblk
    obtain ⟨⟨d, rfl, hdh⟩, hd1, hd2⟩ := dropTips_shape hd
    obtain ⟨⟨g, rfl, hgh⟩, hg1, hg2⟩ := getTips_shape hg
    refine ⟨hg1.trans hd1, hg2.trans hd2, fun _ => ⟨d, g, rfl, hdh, hgh, rfl, rfl, rfl⟩, ?_⟩
    intro hn
    exact absurd hcond hn
  · rename_i hcond
    cases hblk
    refine ⟨rfl, rfl, fun hc => absurd hc hcond, fun _ => ⟨rfl, rfl, rfl, rfl⟩⟩

theorem scb_chunk_bracket {σ : Type} {ops : TipOps σ} {ins : SingleChannelBlockInstruction}
    {pol : LHPolicy} {t : Nat} {newchannel : ChannelPtr} {newtiptype : String}
    {st st2 : BlockState σ} {vol : Volume} {out : List RobotInstruction}
    (h : ins.chunk ops pol t newchannel newtiptype st vol = .ok (out, st2)) :
    out.foldl bracketStep (some true) = some true := by
  obtain ⟨limit, s, -, -, -, -, -, hyes, hno⟩ := scb_chunk_shape h
  by_cases hc : (decide (st.n_tip_uses > limit) || st.channel.addr != newchannel.addr
      || newtiptype != st.tiptype) = true
  · obtain ⟨d, g, rfl, -⟩ := hyes hc
    rfl
  · obtain ⟨rfl, -⟩ := hno hc
    rfl

theorem scb_chunks_bracket {σ : Type} {ops : TipOps σ} {ins : SingleChannelBlockInstruction}
    {pol : LHPolicy} {t : Nat} {newchannel : ChannelPtr} {newtiptype : String}
    (tvs : List Volume) :
    ∀ (st st2 : BlockState σ) (out : List RobotInstruction),
      ins.chunks ops pol t newchannel newtiptype tvs st = .ok (out, st2) →
      out.foldl bracketStep (some true) = some true := by
  induction tvs with
  | nil =>
    intro st st2 out h
    simp only [SingleChannelBlockInstruction.chunks] at h
    cases h
    rfl
  | cons vol rest ih =>
    intro st st2 out h
    simp only [SingleChannelBlockInstruction.chunks] at h
    cases hc : ins.chunk ops pol t newchannel newtiptype st vol with
    | error e => rw [hc] at h; cases h
    | ok r =>
      obtain ⟨o1, s1⟩ := r
      rw [hc] at h
      simp only at h
      cases hr : SingleChannelBlockInstruction.chunks ops ins pol t newchannel newtiptype rest s1 with
      | error e => rw [hr] at h; cases h
      | ok r2 =>
        obtain ⟨o2, s2⟩ := r2
        rw [hr] at h
        simp only at h
        cases h
        rw [List.foldl_append, scb_chunk_bracket hc, ih s1 _ o2 hr]

theorem scb_entries_bracket {σ : Type} {ops : TipOps σ} {ins : SingleChannelBlockInstruction}
    {pol : LHPolicy} (ts : List Nat) :
    ∀ (st st2 : BlockState σ) (outs : List (List RobotInstruction)),
      ins.entries ops pol ts st = .ok (outs, st2) →
      outs.flatten.foldl bracketStep (some true) = some true := by
  induction ts with
  | nil =>
    intro st st2 outs h
    simp only [SingleChannelBlockInstruction.entries] at h
    cases h
    rfl
  | cons t rest ih =>
    intro st st2 outs h
    simp only [SingleChannelBlockInstruction.entries] at h
    cases he : ins.entry ops pol t st with
    | error e => rw [he] at h; cases h
    | ok r =>
      obtain ⟨o1, s1⟩ := r
      rw [he] at h
      simp only at h
      cases hr : SingleChannelBlockInstruction.entries ops ins pol rest s1 with
      | error e => rw [hr] at h; cases h
      | ok r2 =>
        obtain ⟨o2, s2⟩ := r2
        rw [hr] at h
        simp only at h
        cases h
        have h1 : o1.foldl bracketStep (some true) = some true := by
          unfold SingleChannelBlockInstruction.entry at he
          obtain ⟨v, -, he⟩ := bind_eq_ok he
          obtain ⟨⟨newchannel, newtiptype⟩, -, he⟩ := bind_eq_ok he
          obtain ⟨tvs, -, he⟩ := bind_eq_ok he
          exact scb_chunks_bracket tvs st s1 o1 he
        rw [List.flatten_cons, List.foldl_append, h1, ih s1 _ o2 hr]

/-- C17: whenever `SingleChannelBlockInstruction.Generate` returns, the sequence it returns
starts with a tip load (`GetTips`), ends with a tip drop (`DropTips`), and run through the
bracketing automaton from "no tips loaded" it ends in "no tips loaded" without a violation:
tips are loaded only when none are loaded, dropped only when some are, every single-channel
transfer occurs while tips are loaded, and nothing else occurs. So every interior drop is
immediately followed by a load and no transfer follows the final drop. -/
theorem C17_block_tips_bracketed {σ : Type} (ops : TipOps σ)
    (ins : SingleChannelBlockInstruction) (policy policy2 : LHPolicyRuleSet)
    (prms prms2 : LHProperties σ) (out : List RobotInstruction)
    (h : ins.Generate ops policy prms = .ok (out, policy2, prms2)) :
    ins.Volume ≠ []
      ∧ (∃ g d body, out = .loadTipsMove g :: body ++ [.unloadTipsMove d])
      ∧ out.foldl bracketStep (some false) = some false := by
  unfold SingleChannelBlockInstruction.Generate at h
  obtain ⟨⟨pol, policy'⟩, -, h⟩ := bind_eq_ok h
  obtain ⟨v0, hv0, h⟩ := bind_eq_ok h
  obtain ⟨⟨channel, tiptype⟩, -, h⟩ := bind_eq_ok h
  obtain ⟨⟨get, prms1⟩, hget, h⟩ := bind_eq_ok h
  obtain ⟨⟨outs, bst⟩, hent, h⟩ := bind_eq_ok h
  obtain ⟨⟨drop, prms3⟩, hdrop, h⟩ := bind_eq_ok h
  cases h
  obtain ⟨⟨g, rfl, -⟩, -⟩ := getTips_shape hget
  obtain ⟨⟨d, rfl, -⟩, -⟩ := dropTips_shape hdrop
  have hb := scb_entries_bracket (List.range ins.Volume.length) _ bst outs hent
  refine ⟨?_, ⟨g, d, outs.flatten, rfl⟩, ?_⟩
  · intro hnil
    have := idx_eq_ok hv0
    rw [hnil] at this
    cases this
  · rw [List.cons_append, List.foldl_cons, List.foldl_append]
    simp only [bracketStep]
    rw [hb]
    rfl

/-- C17 (witness): the block of ten transfers of 10 ul with a tip-reuse limit of 3 lowers, and
its output is bracketed. -/
theorem C17_block_tips_bracketed_witness :
    ∃ out policy2 prms2,
      tenBlock.Generate counterTips (limitPolicy 3) exampleHardware = .ok (out, policy2, prms2)
      ∧ tenBlock.Volume ≠ []
      ∧ (∃ g d body, out = .loadTipsMove g :: body ++ [.unloadTipsMove d])
      ∧ out.foldl bracketStep (some false) = some false := by
  obtain ⟨⟨out, policy2, prms2⟩, hr⟩ := toBool_eq_ok
    (by decide! : (tenBlock.Generate counterTips (limitPolicy 3) exampleHardware).toBool = true)
  exact ⟨out, policy2, prms2, hr,
    C17_block_tips_bracketed counterTips tenBlock (limitPolicy 3) policy2 exampleHardware prms2
      out hr⟩

theorem succ_mod_cases (j m : Nat) (hm : 0 < m) :
    (j + 1) % m = if j % m + 1 = m then 0 else j % m + 1 := by
  have hr : j % m < m := Nat.mod_lt _ hm
  have hj : j + 1 = m * (j / m) + (j % m + 1) := by
    have := Nat.div_add_mod j m
    omega
  split
  · rename_i heq
    have hj2 : j + 1 = m * (j / m + 1) := by rw [Nat.mul_add, Nat.mul_one]; omega
    rw [hj2, Nat.mul_mod_right]
  · rename_i hne
    rw [hj, Nat.mul_add_mod, Nat.mod_eq_of_lt (by omega)]

theorem usesAfter_succ (L k : Nat) : usesAfter L (k + 1) = k % (L + 1) + 1 := by
  simp [usesAfter]

theorem usesAfter_gt (L k : Nat) : L < usesAfter L k ↔ (k ≠ 0 ∧ k % (L + 1) = 0) := by
  cases k with
  | zero => simp [usesAfter]
  | succ j =>
    rw [usesAfter_succ, succ_mod_cases j (L + 1) (by omega)]
    have hr : j % (L + 1) < L + 1 := Nat.mod_lt _ (by omega)
    split <;> constructor <;> intro h <;> omega

theorem usesAfter_keep (L k : Nat) (h : ¬ (k ≠ 0 ∧ k % (L + 1) = 0)) :
    usesAfter L (k + 1) = usesAfter L k + 1 := by
  cases k with
  | zero => simp [usesAfter]
  | succ j =>
    rw [usesAfter_succ, usesAfter_succ, succ_mod_cases j (L + 1) (by omega)]
    rw [succ_mod_cases j (L + 1) (by omega)] at h
    split
    · rename_i heq
      rw [if_pos heq] at h
      exact absurd ⟨by omega, rfl⟩ h
    · rfl

theorem usesAfter_change (L k : Nat) (h : k ≠ 0 ∧ k % (L + 1) = 0) :
    usesAfter L (k + 1) = 1 := by
  rw [usesAfter_succ, h.2]

theorem reuseEvents_append (L : Nat) (head : Int) (a b : List (String × Volume)) (k : Nat) :
    reuseEvents L head k (a ++ b)
      = reuseEvents L head k a ++ reuseEvents L head (k + a.length) b := by
  induction a generalizing k with
  | nil => simp [reuseEvents]
  | cons x xs ih =>
    obtain ⟨w, v⟩ := x
    have hk : k + 1 + xs.length = k + (xs.length + 1) := by omega
    rw [List.cons_append]
    simp only [reuseEvents, List.length_cons]
    rw [ih (k + 1), hk]
    simp

theorem chooseChannel_congr {σ : Type} (vol : Volume) (p q : LHProperties σ) (fresh : Addr)
    (h1 : p.HeadsLoaded = q.HeadsLoaded) (h2 : p.Tips = q.Tips) :
    ChooseChannel vol p fresh = ChooseChannel vol q fresh := by
  unfold ChooseChannel
  rw [h1, h2]

/-- The state of a single-channel block all of whose entries select the channel `c` and the
tip type `tt`, after `k` transfers. -/
theorem scb_chunk_reuse {σ : Type} {ops : TipOps σ} {ins : SingleChannelBlockInstruction}
    {pol : LHPolicy} {t : Nat} {c : ChannelPtr} {tt : String}
    {st st2 : BlockState σ} {vol : Volume} {out : List RobotInstruction} {L k : Nat}
    (hL : pol.int "TIP_REUSE_LIMIT" = .ok (L : Int))
    (hinv : st.channel = c ∧ st.tiptype = tt ∧ st.n_tip_uses = (usesAfter L k : Int))
    (h : ins.chunk ops pol t c tt st vol = .ok (out, st2)) :
    (∃ w, out.map blockEvent = (reuseEvents L c.val.Head k [(w, vol)]).map some)
      ∧ (st2.channel = c ∧ st2.tiptype = tt ∧ st2.n_tip_uses = (usesAfter L (k + 1) : Int))
      ∧ st2.prms.HeadsLoaded = st.prms.HeadsLoaded ∧ st2.prms.Tips = st.prms.Tips := by
  obtain ⟨limit, s, hlimit, -, hvol, hh, ht, hyes, hno⟩ := scb_chunk_shape h
  obtain ⟨hc, htt, hn⟩ := hinv
  have hlim : limit = (L : Int) := Except.ok.inj (hlimit.symm.trans hL)
  subst hlim
  have hcond : (decide (st.n_tip_uses > (L : Int)) || st.channel.addr != c.addr
      || tt != st.tiptype) = true ↔ (k ≠ 0 ∧ k % (L + 1) = 0) := by
    rw [← usesAfter_gt, hc, htt, hn]
    simp
  by_cases hk : k ≠ 0 ∧ k % (L + 1) = 0
  · obtain ⟨d, g, rfl, hd, hg, h1, h2, h3⟩ := hyes (hcond.mpr hk)
    refine ⟨⟨s.What, ?_⟩, ⟨h2, h3, ?_⟩, hh, ht⟩
    · simp only [reuseEvents, if_pos hk, List.map_cons, List.map_nil, blockEvent, hd, hg, hc,
        hvol, List.cons_append, List.nil_append]
    · rw [h1, usesAfter_change L k hk]
      rfl
  · obtain ⟨rfl, h1, h2, h3⟩ := hno (fun hx => hk (hcond.mp hx))
    refine ⟨⟨s.What, ?_⟩, ⟨h2.trans hc, h3.trans htt, ?_⟩, hh, ht⟩
    · simp only [reuseEvents, if_neg hk, List.map_cons, List.map_nil, blockEvent, hvol,
        List.nil_append]
    · rw [h1, hn, usesAfter_keep L k hk]
      push_cast
      rfl

theorem scb_chunks_reuse {σ : Type} {ops : TipOps σ} {ins : SingleChannelBlockInstruction}
    {pol : LHPolicy} {t : Nat} {c : ChannelPtr} {tt : String} {L : Nat}
    (hL : pol.int "TIP_REUSE_LIMIT" = .ok (L : Int)) (tvs : List Volume) :
    ∀ (k : Nat) (st st2 : BlockState σ) (out : List RobotInstruction),
      (st.channel = c ∧ st.tiptype = tt ∧ st.n_tip_uses = (usesAfter L k : Int)) →
      ins.chunks ops pol t c tt tvs st = .ok (out, st2) →
      ∃ ts : List (String × Volume),
        out.map blockEvent = (reuseEvents L c.val.Head k ts).map some
        ∧ (st2.channel = c ∧ st2.tiptype = tt
            ∧ st2.n_tip_uses = (usesAfter L (k + ts.length) : Int))
        ∧ st2.prms.HeadsLoaded = st.prms.HeadsLoaded ∧ st2.prms.Tips = st.prms.Tips := by
  induction tvs with
  | nil =>
    intro k st st2 out hinv h
    simp only [SingleChannelBlockInstruction.chunks] at h
    cases h
    exact ⟨[], rfl, hinv, rfl, rfl⟩
  | cons vol rest ih =>
    intro k st st2 out hinv h
    simp only [SingleChannelBlockInstruction.chunks] at h
    cases hc : ins.chunk ops pol t c tt st vol with
    | error e => rw [hc] at h; cases h
    | ok r =>
      obtain ⟨o1, s1⟩ := r
      rw [hc] at h
      simp only at h
      cases hr : SingleChannelBlockInstruction.chunks ops ins pol t c tt rest s1 with
      | error e => rw [hr] at h; cases h
      | ok r2 =>
        obtain ⟨o2, s2⟩ := r2
        rw [hr] at h
        simp only at h
        cases h
        obtain ⟨⟨w, he1⟩, hinv1, hh1, ht1⟩ := scb_chunk_reuse hL hinv hc
        obtain ⟨ts, he2, hinv2, hh2, ht2⟩ := ih (k + 1) s1 _ o2 hinv1 hr
        refine ⟨(w, vol) :: ts, ?_, ?_, hh2.trans hh1, ht2.trans ht1⟩
        · rw [List.map_append, he1, he2, ← List.map_append]
          congr 1
          exact (reuseEvents_append L c.val.Head [(w, vol)] ts k).symm
        · rw [List.length_cons, show k + (ts.length + 1) = k + 1 + ts.length by omega]
          exact hinv2

theorem scb_entries_reuse {σ : Type} {ops : TipOps σ} {ins : SingleChannelBlockInstruction}
    {pol : LHPolicy} {c : ChannelPtr} {tt : String} {L : Nat} {prms : LHProperties σ}
    (hL : pol.int "TIP_REUSE_LIMIT" = .ok (L : Int))
    (hsame : ∀ v ∈ ins.Volume, ∀ fresh, ChooseChannel v prms fresh = .ok (c, tt))
    (ts : List Nat) :
    ∀ (k : Nat) (st st2 : BlockState σ) (outs : List (List RobotInstruction)),
      (st.channel = c ∧ st.tiptype = tt ∧ st.n_tip_uses = (usesAfter L k : Int)) →
      (st.prms.HeadsLoaded = prms.HeadsLoaded ∧ st.prms.Tips = prms.Tips) →
      ins.entries ops pol ts st = .ok (outs, st2) →
      ∃ es : List (String × Volume),
        outs.flatten.map blockEvent = (reuseEvents L c.val.Head k es).map some
        ∧ st2.channel = c := by
  induction ts with
  | nil =>
    intro k st st2 outs hinv _ h
    simp only [SingleChannelBlockInstruction.entries] at h
    cases h
    exact ⟨[], rfl, hinv.1⟩
  | cons t rest ih =>
    intro k st st2 outs hinv hp h
    simp only [SingleChannelBlockInstruction.entries] at h
    cases he : ins.entry ops pol t st with
    | error e => rw [he] at h; cases h
    | ok r =>
      obtain ⟨o1, s1⟩ := r
      rw [he] at h
      simp only at h
      cases hr : SingleChannelBlockInstruction.entries ops ins pol rest s1 with
      | error e => rw [hr] at h; cases h
      | ok r2 =>
        obtain ⟨o2, s2⟩ := r2
        rw [hr] at h
        simp only at h
        cases h
        unfold SingleChannelBlockInstruction.entry at he
        obtain ⟨v, hv, he⟩ := bind_eq_ok he
        obtain ⟨⟨newchannel, newtiptype⟩, hcc, he⟩ := bind_eq_ok he
        obtain ⟨tvs, -, he⟩ := bind_eq_ok he
        rw [chooseChannel_congr v st.prms prms _ hp.1 hp.2,
          hsame v (List.getElem?_mem (idx_eq_ok hv))] at hcc
        cases hcc
        obtain ⟨e1, hev1, hinv1, hh1, ht1⟩ := scb_chunks_reuse hL tvs k st s1 o1 hinv he
        obtain ⟨e2, hev2, hc2⟩ :=
          ih (k + e1.length) s1 _ o2 hinv1 ⟨hh1.trans hp.1, ht1.trans hp.2⟩ hr
        refine ⟨e1 ++ e2, ?_, hc2⟩
        rw [List.flatten_cons, List.map_append, hev1, hev2, ← List.map_append,
          reuseEvents_append]

/-- C16 (amended): for a single-channel block all of whose entries select the same
channel-parameter object `c` and the tip type `tt` (`ChooseChannel` returns the object `c`
itself for every entry, as it does when no tip is loaded on the adaptor of the head; with a
tip loaded it returns a newly merged object at each call), lowered under a policy whose
`TIP_REUSE_LIMIT` is `L >= 0`, the sequence returned is a tip load, the single-channel
transfers, and a tip drop, with a drop and load pair immediately before each transfer whose
number, counted from zero, is a positive multiple of `L + 1` and nowhere else: the pair comes
before the transfers number `L + 2`, `2L + 3`, `3L + 4`, ... counted from one, so a set of
tips is used for at most `L + 1` transfers. -/
theorem C16_tips_changed_after_limit_plus_one {σ : Type} (ops : TipOps σ)
    (ins : SingleChannelBlockInstruction) (policy policy2 : LHPolicyRuleSet)
    (prms prms2 : LHProperties σ) (out : List RobotInstruction) (L : Nat) (c : ChannelPtr)
    (tt : String)
    (hL : (policy.GetPolicyFor (.singleChannelBlock ins)).map
      (fun r => r.1.int "TIP_REUSE_LIMIT") = .ok (.ok (L : Int)))
    (hsame : ∀ v ∈ ins.Volume, ∀ fresh, ChooseChannel v prms fresh = .ok (c, tt))
    (h : ins.Generate ops policy prms = .ok (out, policy2, prms2)) :
    ∃ ts : List (String × Volume),
      out.map blockEvent
        = (BlockEvent.tipsOn c.val.Head :: reuseEvents L c.val.Head 0 ts
            ++ [BlockEvent.tipsOff c.val.Head]).map some := by
  unfold SingleChannelBlockInstruction.Generate at h
  obtain ⟨⟨pol, policy'⟩, hpol, h⟩ := bind_eq_ok h
  rw [hpol] at hL
  have hL2 : pol.int "TIP_REUSE_LIMIT" = .ok (L : Int) := Except.ok.inj hL
  obtain ⟨v0, hv0, h⟩ := bind_eq_ok h
  obtain ⟨⟨channel, tiptype⟩, hcc, h⟩ := bind_eq_ok h
  obtain ⟨⟨get, prms1⟩, hget, h⟩ := bind_eq_ok h
  obtain ⟨⟨outs, bst⟩, hent, h⟩ := bind_eq_ok h
  obtain ⟨⟨drop, prms3⟩, hdrop, h⟩ := bind_eq_ok h
  cases h
  rw [hsame v0 (List.getElem?_mem (idx_eq_ok hv0))] at hcc
  cases hcc
  obtain ⟨⟨g, rfl, hg⟩, hg1, hg2⟩ := getTips_shape hget
  obtain ⟨⟨d, rfl, hd⟩, -⟩ := dropTips_shape hdrop
  obtain ⟨ts, hev, hc⟩ := scb_entries_reuse hL2 hsame (List.range ins.Volume.length) 0 _ bst outs
    ⟨rfl, rfl, rfl⟩ ⟨hg1, hg2⟩ hent
  refine ⟨ts, ?_⟩
  simp only [List.cons_append, List.map_cons, List.map_append, hev, blockEvent, List.map_nil,
    hg, hd, hc]

theorem chooseChannel_fresh {σ : Type} {vol : Volume} {prms : LHProperties σ} {f f' : Addr}
    {r : ChannelPtr × String}
    (hn : ∀ h ∈ prms.HeadsLoaded, ∀ a, h.Adaptor = some a → a.Ntipsloaded = 0)
    (h : ChooseChannel vol prms f = .ok r) : ChooseChannel vol prms f' = .ok r := by
  unfold ChooseChannel at h ⊢
  cases hh : chooseHead vol prms.HeadsLoaded with
  | none => rw [hh] at h; cases h
  | some head =>
    rw [hh] at h
    simp only at h ⊢
    cases ha : head.Adaptor with
    | none => rw [ha] at h; cases h
    | some a =>
      rw [ha] at h
      simp only at h ⊢
      have h0 := hn head (chooseHead_mem hh) a ha
      simp only [LHHead.GetParams, ha, LHAdaptor.GetParams, h0, if_true] at h ⊢
      exact h

theorem exampleHardware_bare :
    ∀ h ∈ exampleHardware.HeadsLoaded, ∀ a, h.Adaptor = some a → a.Ntipsloaded = 0 := by
  intro h hh a ha
  simp only [exampleHardware, List.mem_singleton] at hh
  subst hh
  simp only [exampleHead, Option.some.injEq] at ha
  subst ha
  rfl

/-- C16 (counterexample): ten transfers of 10 ul on one channel with `TIP_REUSE_LIMIT = 3`. The
first set of tips is used for four transfers; the drop and load pairs come before the
operations 5 and 9, not before the operations 4, 7 and 10. With a tip loaded on the adaptor
`ChooseChannel` returns a newly merged parameter object at each call, which the block
compares by identity: three transfers under the same limit then get a drop and load pair
before each of them, the first included. -/
theorem C16_ten_transfers_limit_three :
    (tenBlock.Generate counterTips (limitPolicy 3) exampleHardware).map
        (fun r => r.1.map blockEvent)
      = .ok (([BlockEvent.tipsOn 0]
          ++ List.replicate 4 (BlockEvent.transfer "water" (some ⟨10, ul⟩))
          ++ [BlockEvent.tipsOff 0, BlockEvent.tipsOn 0]
          ++ List.replicate 4 (BlockEvent.transfer "water" (some ⟨10, ul⟩))
          ++ [BlockEvent.tipsOff 0, BlockEvent.tipsOn 0]
          ++ List.replicate 2 (BlockEvent.transfer "water" (some ⟨10, ul⟩))
          ++ [BlockEvent.tipsOff 0]).map some)
    ∧ (limitPolicy 3).GetPolicyFor (.singleChannelBlock tenBlock)
        = .ok (exampleDefault.set "TIP_REUSE_LIMIT" (.int 3), limitPolicy 3)
    ∧ (exampleDefault.set "TIP_REUSE_LIMIT" (.int 3)).int "TIP_REUSE_LIMIT" = .ok 3
    ∧ ((waterBlock 3 10).Generate counterTips (limitPolicy 3) tipLoadedHardware).map
        (fun r => r.1.map blockEvent)
      = .ok ([BlockEvent.tipsOn 0,
          .tipsOff 0, .tipsOn 0, .transfer "water" (some ⟨10, ul⟩),
          .tipsOff 0, .tipsOn 0, .transfer "water" (some ⟨10, ul⟩),
          .tipsOff 0, .tipsOn 0, .transfer "water" (some ⟨10, ul⟩),
          .tipsOff 0].map some)
    ∧ ((waterBlock 3 10).Generate counterTips (limitPolicy 3) exampleHardware).map
        (fun r => r.1.map blockEvent)
      = .ok (([BlockEvent.tipsOn 0]
          ++ List.replicate 3 (BlockEvent.transfer "water" (some ⟨10, ul⟩))
          ++ [BlockEvent.tipsOff 0]).map some) := by
  decide!

/-- C16 (witness): the amended rule on the ten transfers with `TIP_REUSE_LIMIT = 3`: the pairs
come before the transfers number 4 and 8 counted from zero. -/
theorem C16_tips_changed_after_limit_plus_one_witness :
    ∃ out policy2 prms2,
      tenBlock.Generate counterTips (limitPolicy 3) exampleHardware = .ok (out, policy2, prms2)
      ∧ ∃ ts : List (String × Volume),
        out.map blockEvent
          = (BlockEvent.tipsOn 0 :: reuseEvents 3 0 0 ts ++ [BlockEvent.tipsOff 0]).map some := by
  obtain ⟨⟨out, policy2, prms2⟩, hr⟩ := toBool_eq_ok
    (by decide! : (tenBlock.Generate counterTips (limitPolicy 3) exampleHardware).toBool = true)
  have hsame : ∀ v ∈ tenBlock.Volume, ∀ fresh, ChooseChannel v exampleHardware fresh
      = .ok (⟨.heap 1, (exampleHead "head" 0 1 50).Params.val⟩, "tip50") := by
    intro v hv fresh
    have hv2 : v = ⟨10, ul⟩ := List.eq_of_mem_replicate hv
    subst hv2
    exact chooseChannel_fresh exampleHardware_bare
      (by decide! : ChooseChannel ⟨10, ul⟩ exampleHardware (.alloc 0)
        = .ok (⟨.heap 1, (exampleHead "head" 0 1 50).Params.val⟩, "tip50"))
  exact ⟨out, policy2, prms2, hr,
    C16_tips_changed_after_limit_plus_one counterTips tenBlock (limitPolicy 3) policy2
      exampleHardware prms2 out 3 ⟨.heap 1, (exampleHead "head" 0 1 50).Params.val⟩ "tip50"
      (by decide!) hsame hr⟩

/-! ## Multi-channel blocks, exhausted transfers and tip boxes -/

/-- C12 (evaluation of the code): the planner turns the eight transfers `A1..H1 → A2..H2` of
20 ul into one multi-channel block with `Multi = 8`, and that block emits one multi-channel
transfer. Its wells and its volumes have eight entries and the volumes are equal, but its
liquid classes `What` are empty and its `Multi` is 0: the block never sets either. -/
theorem C12_multi_transfer_lacks_what_and_multi :
    (columnTransfer.Generate MakeWellCoordsA1 (multiPolicy 100) multiHardware).map
        (fun r => (multiBlocks r.1).map (fun b => (b.Multi, b.What)))
      = .ok [(8, [List.replicate 8 "water"])]
    ∧ (columnTransfer.Generate MakeWellCoordsA1 (multiPolicy 100) multiHardware).bind
        (fun r => (multiBlocks r.1).mapM (fun b =>
          (b.Generate counterTips r.2.2 multiHardware).map (fun q => multiTransfers q.1)))
      = .ok [[{ What := [], Multi := 0,
                PltFrom := List.replicate 8 "position_1",
                PltTo := List.replicate 8 "position_2",
                WellFrom := ["A1", "B1", "C1", "D1", "E1", "F1", "G1", "H1"],
                WellTo := ["A2", "B2", "C2", "D2", "E2", "F2", "G2", "H2"],
                Volume := List.replicate 8 ⟨20, ul⟩,
                FPlateType := List.replicate 8 "pcrplate",
                TPlateType := List.replicate 8 "pcrplate",
                FVolume := List.replicate 8 ⟨100, ul⟩,
                TVolume := List.replicate 8 ⟨0, ul⟩,
                Prms := some (exampleChannel 8 LHVChannel) }]] := by
  decide!

/-- C18 (evaluation of the code): with `TIP_REUSE_LIMIT = 1`, the multi-channel block of the
eight transfers of 100 ul emits three multi-channel transfers (of the `float64` third of
100 ul, 33.333333333333336 ul) between one tip load and one tip drop: the tips are never
replaced, the block never counts their uses. The single-channel
block of three transfers under the same limit replaces the tips before the third one. -/
theorem C18_multi_block_never_replaces_tips :
    (deepTransfer.Generate MakeWellCoordsA1 (multiPolicy 1) multiHardware).bind
      (fun r => (multiBlocks r.1).mapM (fun b =>
        (b.Generate counterTips r.2.2 multiHardware).map (fun q => q.1.map multiEvent)))
      = .ok [[some (.tipsOn 0 8),
          some (.transfer (List.replicate 8 ⟨4691249611844267 / 140737488355328, ul⟩)),
          some (.transfer (List.replicate 8 ⟨4691249611844267 / 140737488355328, ul⟩)),
          some (.transfer (List.replicate 8 ⟨4691249611844267 / 140737488355328, ul⟩)),
          some (.tipsOff 0 8)]]
    ∧ ((waterBlock 3 10).Generate counterTips (limitPolicy 1) exampleHardware).map
        (fun r => r.1.map blockEvent)
      = .ok [some (.tipsOn 0), some (.transfer "water" (some ⟨10, ul⟩)),
          some (.transfer "water" (some ⟨10, ul⟩)), some (.tipsOff 0), some (.tipsOn 0),
          some (.transfer "water" (some ⟨10, ul⟩)), some (.tipsOff 0)] := by
  decide!

/-- C19 (evaluation of the code): for the transfer whose only entry has the volume zero and
`CAN_MULTI` false, the planner returns an empty single-channel block, whose lowering faults on
`ins.Volume[0]`: the planner does not complete. With `CAN_MULTI` true the eight exhausted
transfers `A1..H1 → A2..H2` give a multi-channel block of volume zero followed by the empty
single-channel block, and the lowering faults as well. -/
theorem C19_exhausted_transfer_faults :
    (exhaustedTransfer.Generate MakeWellCoordsA1 exampleState.policy exampleHardware).map
        (fun r => r.1)
      = .ok [.singleChannelBlock { Prms := some (exampleHead "head" 0 1 50).Params.val }]
    ∧ ((SingleChannelBlockInstruction.mk SCB [] [] [] [] [] [] [] [] [] []
          (some (exampleHead "head" 0 1 50).Params.val)).Generate counterTips
          exampleState.policy exampleHardware).map (fun r => r.1)
        = .error .indexOutOfRange
    ∧ (lower MakeWellCoordsA1 counterTips 6 (.transfer exhaustedTransfer) exampleState).map
        (fun r => r.1) = .error .indexOutOfRange
    ∧ (exhaustedColumn.Generate MakeWellCoordsA1 (multiPolicy 100) multiHardware).map
        (fun r => (r.1.map RobotInstruction.InstructionType, (multiBlocks r.1).map (fun b => b.Volume)))
      = .ok ([MCB, SCB], [[List.replicate 8 ⟨0, ul⟩]])
    ∧ (lower MakeWellCoordsA1 counterTips 6 (.transfer exhaustedColumn)
        ⟨multiPolicy 100, multiHardware⟩).map (fun r => r.1) = .error .noHeadChosen := by
  decide!

/-- C20 (evaluation of the code): on a box of 8 rows and 12 columns of clean tips, two calls
`GetTips(false, 1, LHVChannel)` both succeed and both return the coordinate `(0, 0)`. After
the first call the position holds no tip, and the column still counts seven clean tips, so
the second call returns the same position although it is empty; the tip next to it is left
in the box. Two horizontal calls for three tips return the same three coordinates. -/
theorem C20_getTips_returns_taken_position :
    (exampleTipbox.GetTips false 1 LHVChannel).bind (fun r1 =>
      (r1.2.tipAt 0 0).bind (fun before =>
        (r1.2.GetTips false 1 LHVChannel).bind (fun r2 =>
          (r2.2.tipAt 0 1).map (fun next =>
            (r1.1, before.isSome, r2.1, next.isSome, r2.2.NTips)))))
      = .ok (some [⟨0, 0⟩], false, some [⟨0, 0⟩], true, 94)
    ∧ (exampleTipbox.GetTips false 3 LHHChannel).bind (fun r1 =>
        (r1.2.GetTips false 3 LHHChannel).map (fun r2 => (r1.1, r2.1)))
      = .ok (some [⟨0, 0⟩, ⟨0, 1⟩, ⟨0, 2⟩], some [⟨0, 0⟩, ⟨0, 1⟩, ⟨0, 2⟩]) := by
  decide!

/-! ## Tip waste and rule conditions -/

theorem wrapInt_of_range (x : Int) (h1 : -(2 ^ 63) ≤ x) (h2 : x < 2 ^ 63) : wrapInt x = x := by
  unfold wrapInt
  omega

theorem dispose_spec (lht : LHTipwaste) (n : Int)
    (hinv : 0 ≤ lht.Contents ∧ lht.Contents ≤ lht.Capacity) (hcap : lht.Capacity < 2 ^ 63)
    (hn : 0 ≤ n) :
    lht.Dispose n = if lht.Contents + n ≤ lht.Capacity
      then (true, { lht with Contents := lht.Contents + n }) else (false, lht) := by
  have h1 : wrapInt (lht.Capacity - lht.Contents) = lht.Capacity - lht.Contents :=
    wrapInt_of_range _ (by omega) (by omega)
  unfold LHTipwaste.Dispose
  rw [h1]
  by_cases h : lht.Contents + n ≤ lht.Capacity
  · have h2 : wrapInt (lht.Contents + n) = lht.Contents + n :=
      wrapInt_of_range _ (by omega) (by omega)
    rw [if_neg (by omega), if_pos h, h2]
  · rw [if_pos (by omega), if_neg h]

theorem dispose_invariant (lht : LHTipwaste) (n : Int)
    (hinv : 0 ≤ lht.Contents ∧ lht.Contents ≤ lht.Capacity) (hcap : lht.Capacity < 2 ^ 63)
    (hn : 0 ≤ n) :
    0 ≤ (lht.Dispose n).2.Contents ∧ (lht.Dispose n).2.Contents ≤ (lht.Dispose n).2.Capacity
      ∧ (lht.Dispose n).2.Capacity = lht.Capacity := by
  rw [dispose_spec lht n hinv hcap hn]
  split
  · rename_i h
    exact ⟨by show (0 : Int) ≤ lht.Contents + n; omega, h, rfl⟩
  · exact ⟨hinv.1, hinv.2, rfl⟩

theorem run_invariant (calls : List WasteCall) (lht : LHTipwaste)
    (hinv : 0 ≤ lht.Contents ∧ lht.Contents ≤ lht.Capacity) (hcap : lht.Capacity < 2 ^ 63)
    (hcalls : ∀ n, WasteCall.dispose n ∈ calls → 0 ≤ n) :
    0 ≤ (lht.run calls).Contents ∧ (lht.run calls).Contents ≤ (lht.run calls).Capacity
      ∧ (lht.run calls).Capacity = lht.Capacity := by
  induction calls generalizing lht with
  | nil => exact ⟨hinv.1, hinv.2, rfl⟩
  | cons c rest ih =>
    cases c with
    | dispose n =>
      have hn : 0 ≤ n := hcalls n (List.mem_cons_self _ _)
      obtain ⟨h1, h2, h3⟩ := dispose_invariant lht n hinv hcap hn
      obtain ⟨g1, g2, g3⟩ := ih (lht.Dispose n).2 ⟨h1, h2⟩ (by rw [h3]; exact hcap)
        (fun m hm => hcalls m (List.mem_cons_of_mem _ hm))
      exact ⟨g1, g2, g3.trans h3⟩
    | empty =>
      have hc0 : 0 ≤ lht.Capacity := le_trans hinv.1 hinv.2
      obtain ⟨g1, g2, g3⟩ := ih lht.Empty ⟨le_refl _, hc0⟩ hcap
        (fun m hm => hcalls m (List.mem_cons_of_mem _ hm))
      exact ⟨g1, g2, g3⟩

/-- C21: for a tip waste with `0 <= Contents <= Capacity` and `n >= 0` (Go `int`s),
`Dispose(n)` returns true iff `Contents + n <= Capacity`; when it does, `Contents` has
increased by exactly `n` and nothing else has changed, and when it does not, the waste is
unchanged. Hence after every sequence of `Dispose` calls with non-negative arguments and
`Empty` calls on a new waste of non-negative capacity, `0 <= Contents <= Capacity` holds and
the capacity is the one the waste was made with. -/
theorem C21_tipwaste_dispose (lht : LHTipwaste) (n : Int)
    (hinv : 0 ≤ lht.Contents ∧ lht.Contents ≤ lht.Capacity) (hcap : lht.Capacity < 2 ^ 63)
    (hn : 0 ≤ n) :
    ((lht.Dispose n).1 = true ↔ lht.Contents + n ≤ lht.Capacity)
      ∧ ((lht.Dispose n).1 = true →
          (lht.Dispose n).2 = { lht with Contents := lht.Contents + n })
      ∧ ((lht.Dispose n).1 = false → (lht.Dispose n).2 = lht)
      ∧ ∀ (capacity : Int) (typ mfr : String) (calls : List WasteCall),
          0 ≤ capacity → capacity < 2 ^ 63 →
          (∀ m, WasteCall.dispose m ∈ calls → 0 ≤ m) →
          0 ≤ ((NewLHTipwaste capacity typ mfr).run calls).Contents
            ∧ ((NewLHTipwaste capacity typ mfr).run calls).Contents
                ≤ ((NewLHTipwaste capacity typ mfr).run calls).Capacity
            ∧ ((NewLHTipwaste capacity typ mfr).run calls).Capacity = capacity := by
  rw [dispose_spec lht n hinv hcap hn]
  refine ⟨?_, ?_, ?_, ?_⟩
  · split <;> simp_all
  · split
    · intro _; rfl
    · intro h; cases h
  · split
    · intro h; cases h
    · intro _; rfl
  · intro capacity typ mfr calls hc0 hc1 hcalls
    exact run_invariant calls (NewLHTipwaste capacity typ mfr) ⟨le_refl _, hc0⟩ hc1 hcalls

/-- C21 (witness): a waste of capacity 96 that holds 90 tips takes 6 more and refuses 7; a new
waste of capacity 96 after `Dispose(90)`, `Dispose(7)`, `Empty`, `Dispose(8)` holds 8. -/
theorem C21_tipwaste_dispose_witness :
    ((({ NewLHTipwaste 96 "waste" "factory" with Contents := 90 } : LHTipwaste).Dispose 6).1
        = true ↔ (90 : Int) + 6 ≤ 96)
      ∧ (({ NewLHTipwaste 96 "waste" "factory" with Contents := 90 } : LHTipwaste).Dispose 7)
          = (false, { NewLHTipwaste 96 "waste" "factory" with Contents := 90 })
      ∧ ((NewLHTipwaste 96 "waste" "factory").run
          [.dispose 90, .dispose 7, .empty, .dispose 8]).Contents = 8 :=
  ⟨(C21_tipwaste_dispose { NewLHTipwaste 96 "waste" "factory" with Contents := 90 } 6
      ⟨by decide, by decide⟩ (by decide) (by decide)).1, by decide, by decide⟩

/-- C22 (evaluation of the code): `SetNumeric(10, 1)`, the range from 1 to 10, panics with
"Nonsensical numeric condition requested", and so does `AddNumericConditionOn`; the bounds
`SetNumeric(1, 10)`, whose upper bound is below the lower one, are accepted and give a
condition with `Upper = 1` and `Lower = 10`, which matches no number: neither 5 nor 1 nor
10. The test that rejects is `up > low`. -/
theorem C22_setNumeric_rejects_proper_bounds :
    SetNumeric "VOLUME" 10 1 = .error .nonsensicalCondition
      ∧ (LHPolicyRule.AddNumericConditionOn { Name := "rule" } "VOLUME" 10 1)
          = .error .nonsensicalCondition
      ∧ SetNumeric "VOLUME" 1 10 = .ok ⟨"VOLUME", .numeric ⟨1, 10⟩⟩
      ∧ (LHNumericCondition.mk 1 10).Match (.float 5) = false
      ∧ (LHNumericCondition.mk 1 10).Match (.float 1) = false
      ∧ (LHNumericCondition.mk 1 10).Match (.float 10) = false
      ∧ (LHNumericCondition.mk 10 1).Match (.float 5) = true := by
  decide!

theorem checkConditions_true (ins : RobotInstruction) (cs : List LHVariableCondition) :
    checkConditions ins cs = .ok true
      ↔ ∀ c ∈ cs, ∃ v, ins.GetParameter c.TestVariable = .ok v ∧ c.Condition.Match v = true := by
  induction cs with
  | nil => simp [checkConditions]
  | cons c rest ih =>
    simp only [checkConditions, List.mem_cons, forall_eq_or_imp]
    cases hp : ins.GetParameter c.TestVariable with
    | error e =>
      simp [LHVariableCondition.Check, hp, Except.map]
    | ok v =>
      cases hm : c.Condition.Match v with
      | false => simp [LHVariableCondition.Check, hp, Except.map, hm]
      | true => simp [LHVariableCondition.Check, hp, Except.map, hm, ih]

/-- C23: `LHPolicyRule.Check(ins)` returns true iff for every condition of the rule
`ins.GetParameter` of the condition's variable returns a value that the condition matches. A
categorical condition matches exactly the string equal to its category and the sequences of
strings all equal to it; a numeric condition matches exactly the numbers `x` with
`Lower <= x <= Upper` and the sequences of such numbers; a value of any other type, the
absent value included, matches neither. -/
theorem C23_check_type_aware (rule : LHPolicyRule) (ins : RobotInstruction)
    (cc : LHCategoryCondition) (nc : LHNumericCondition) (v : Param) :
    (rule.Check ins = .ok true
        ↔ ∀ c ∈ rule.Conditions,
            ∃ w, ins.GetParameter c.TestVariable = .ok w ∧ c.Condition.Match w = true)
      ∧ ((LHCondition.category cc).Match v = true
        ↔ v = .str cc.Category ∨ ∃ l, v = .strs l ∧ ∀ s ∈ l, s = cc.Category)
      ∧ ((LHCondition.numeric nc).Match v = true
        ↔ (∃ x, v = .float x ∧ nc.Lower ≤ x ∧ x ≤ nc.Upper)
          ∨ ∃ l, v = .floats l ∧ ∀ x ∈ l, nc.Lower ≤ x ∧ x ≤ nc.Upper) := by
  refine ⟨checkConditions_true ins rule.Conditions, ?_, ?_⟩
  · cases v <;> simp [LHCondition.Match, LHCategoryCondition.Match]
  · cases v <;> simp [LHCondition.Match, LHNumericCondition.Match, and_comm]

/-! ## Suck, blow and reset lowering -/

theorem repeatEval_ok {α : Type} (n : Int) (x : α) :
    repeatEval n (.ok x : Except Fault α) = .ok (List.replicate n.toNat x) := by
  unfold repeatEval
  split
  · rename_i h
    rw [h]
    rfl
  · rfl

theorem makeSlice_ok {α : Type} (n : Int) (x : α) (h : 0 ≤ n) :
    makeSlice n x = .ok (List.replicate n.toNat x) := by
  unfold makeSlice
  rw [if_neg (by omega)]

theorem float_of_get {pol : LHPolicy} {k : String} {x : ℚ} (h : pol.get k = some (.float x)) :
    pol.float k = .ok x := by
  simp [LHPolicy.float, h]

theorem int_of_get {pol : LHPolicy} {k : String} {x : Int} (h : pol.get k = some (.int x)) :
    pol.int k = .ok x := by
  simp [LHPolicy.int, h]

theorem mixStep_spec (pol : LHPolicy) (key volkey : String) (plt plateType well : List String)
    (volume fvolume : List Volume) (multi : Int) (cycles : Option Int) (mixvol : Option ℚ)
    (hmulti : 0 ≤ multi) (hk : pol.get key = cycles.map PolicyValue.int)
    (hv : cycles.isSome → pol.get volkey = mixvol.map PolicyValue.float) :
    mixStep pol key volkey plt plateType well volume fvolume multi
      = .ok (cycles.elim [] (fun c =>
          [.moveMix { Plt := plt, PlateType := plateType, Well := well, FVolume := fvolume,
                      Multi := multi,
                      Volume := mixvol.elim volume
                        (fun x => List.replicate multi.toNat ⟨x, ul⟩),
                      Cycles := List.replicate multi.toNat c }])) := by
  unfold mixStep
  cases cycles with
  | none =>
    simp only [Option.map_none'] at hk
    rw [hk]
    rfl
  | some c =>
    simp only [Option.map_some'] at hk
    have hv2 := hv rfl
    rw [hk]
    cases mixvol with
    | none =>
      simp only [Option.map_none'] at hv2
      simp only [hv2, makeSlice_ok multi (0 : Int) hmulti, PolicyValue.asInt, repeatEval_ok,
        bind, Except.bind, pure, Except.pure, Option.elim]
    | some x =>
      simp only [Option.map_some'] at hv2
      simp only [hv2, makeSlice_ok multi (0 : Int) hmulti, makeSlice_ok multi (0 : ℚ) hmulti,
        PolicyValue.asInt, PolicyValue.asFloat, Except.map, repeatEval_ok, NewVolume,
        bind, Except.bind, pure, Except.pure, Option.elim]

theorem setSpeedStep_spec (pol : LHPolicy) (key : String) (head : Int) (speed : Option ℚ)
    (hk : pol.get key = speed.map PolicyValue.float) :
    setSpeedStep pol key head
      = .ok (speed.elim []
          (fun s => [.setPipetteSpeed { Head := head, Channel := -1, Speed := s }])) := by
  unfold setSpeedStep
  cases speed with
  | none =>
    simp only [Option.map_none'] at hk
    rw [hk]
    rfl
  | some s =>
    simp only [Option.map_some'] at hk
    rw [hk]
    rfl

theorem resetSpeedStep_spec (pol : LHPolicy) (key : String) (head : Int) (speed : Option ℚ)
    (dp : ℚ) (hk : pol.get key = speed.map PolicyValue.float)
    (hd : speed.isSome → pol.get "DEFAULTPIPETTESPEED" = some (.float dp)) :
    resetSpeedStep pol key head
      = .ok (speed.elim []
          (fun _ => [.setPipetteSpeed { Head := head, Channel := -1, Speed := dp }])) := by
  unfold resetSpeedStep
  cases speed with
  | none =>
    simp only [Option.map_none'] at hk
    rw [hk]
    rfl
  | some s =>
    simp only [Option.map_some'] at hk
    rw [hk]
    simp only [float_of_get (hd rfl), bind, Except.bind, pure, Except.pure, Option.elim]

theorem waitStep_spec (pol : LHPolicy) (key : String) (t : Option ℚ)
    (hk : pol.get key = t.map PolicyValue.float) :
    waitStep pol key = .ok (t.elim [] (fun x => [.wait { Time := x }])) := by
  unfold waitStep
  cases t with
  | none =>
    simp only [Option.map_none'] at hk
    rw [hk]
    rfl
  | some x =>
    simp only [Option.map_some'] at hk
    rw [hk]
    rfl

theorem suckEntry_spec (ins : SuckInstruction) (pol : LHPolicy) (entryspeed : Option ℚ)
    (zoffset defaultzspeed : ℚ)
    (hz : pol.get "ASPZOFFSET" = some (.float zoffset))
    (hentry : pol.get "ASPENTRYSPEED" = entryspeed.map PolicyValue.float)
    (hdz : entryspeed.isSome → pol.get "DEFAULTZSPEED" = some (.float defaultzspeed)) :
    suckEntry ins pol = .ok (entryspeed.elim
      [.move { Head := ins.Head, Pos := ins.PltFrom, Plt := ins.FPlateType,
               Well := ins.WellFrom, WVolume := ins.FVolume,
               Reference := List.replicate ins.Multi.toNat 0,
               OffsetZ := List.replicate ins.Multi.toNat zoffset }]
      (fun speed =>
        [.move { Head := ins.Head, Pos := ins.PltFrom, Plt := ins.FPlateType,
                 Well := ins.WellFrom, WVolume := ins.FVolume,
                 Reference := List.replicate ins.Multi.toNat 1,
                 OffsetZ := List.replicate ins.Multi.toNat 5 },
         .setDriveSpeed { Drive := "Z", Speed := speed },
         .move { Head := ins.Head, Pos := ins.PltFrom, Plt := ins.FPlateType,
                 Well := ins.WellFrom, WVolume := ins.FVolume,
                 Reference := List.replicate ins.Multi.toNat 0,
                 OffsetZ := List.replicate ins.Multi.toNat zoffset },
         .setDriveSpeed { Drive := "Z", Speed := defaultzspeed }])) := by
  unfold suckEntry
  cases entryspeed with
  | none =>
    simp only [Option.map_none'] at hentry
    simp only [hentry, float_of_get hz, repeatEval_ok, bind, Except.bind, pure, Except.pure,
      Option.elim]
  | some s =>
    simp only [Option.map_some'] at hentry
    simp only [hentry, float_of_get hz, float_of_get (hdz rfl), repeatEval_ok,
      PolicyValue.asFloat, bind, Except.bind, pure, Except.pure, Option.elim]

/-- C24: for a suck with `Multi >= 0` and a resolved policy in which `ASPZOFFSET` is a
number, each of `ASPENTRYSPEED`, `PRE_MIX`, `PRE_MIX_VOL`, `ASPSPEED` and `ASP_WAIT` is either
not set or of its type, and `DEFAULTZSPEED` (resp. `DEFAULTPIPETTESPEED`) is a number when
`ASPENTRYSPEED` (resp. `ASPSPEED`) is set, `SuckInstruction.Generate` returns exactly the
sequence `suckSequence`: the entry group or the single move into the liquid, the pre-mix iff
`PRE_MIX` is set, the pipette speed iff `ASPSPEED` is set, one aspirate with the volumes,
liquid classes, plate types and multi of the suck, the speed reset iff `ASPSPEED` is set and
the wait iff `ASP_WAIT` is set. -/
theorem C24_suck_sequence (ins : SuckInstruction) (policy policy2 : LHPolicyRuleSet)
    (pol : LHPolicy) (entryspeed : Option ℚ) (zoffset defaultzspeed : ℚ) (premix : Option Int)
    (premixvol : Option ℚ) (aspspeed : Option ℚ) (defaultpipettespeed : ℚ)
    (aspwait : Option ℚ)
    (hpol : policy.GetPolicyFor (.suck ins) = .ok (pol, policy2))
    (hmulti : 0 ≤ ins.Multi)
    (hz : pol.get "ASPZOFFSET" = some (.float zoffset))
    (hentry : pol.get "ASPENTRYSPEED" = entryspeed.map PolicyValue.float)
    (hdz : entryspeed.isSome → pol.get "DEFAULTZSPEED" = some (.float defaultzspeed))
    (hpre : pol.get "PRE_MIX" = premix.map PolicyValue.int)
    (hprevol : premix.isSome → pol.get "PRE_MIX_VOL" = premixvol.map PolicyValue.float)
    (hasp : pol.get "ASPSPEED" = aspspeed.map PolicyValue.float)
    (hdp : aspspeed.isSome →
      pol.get "DEFAULTPIPETTESPEED" = some (.float defaultpipettespeed))
    (hwait : pol.get "ASP_WAIT" = aspwait.map PolicyValue.float) :
    ins.Generate policy
      = .ok (suckSequence ins entryspeed zoffset defaultzspeed premix premixvol aspspeed
          defaultpipettespeed aspwait, policy2) := by
  unfold SuckInstruction.Generate
  simp only [hpol, suckEntry_spec ins pol entryspeed zoffset defaultzspeed hz hentry hdz,
    mixStep_spec pol "PRE_MIX" "PRE_MIX_VOL" ins.PltFrom ins.FPlateType ins.WellFrom ins.Volume
      ins.FVolume ins.Multi premix premixvol hmulti hpre hprevol,
    setSpeedStep_spec pol "ASPSPEED" ins.Head aspspeed hasp,
    resetSpeedStep_spec pol "ASPSPEED" ins.Head aspspeed defaultpipettespeed hasp hdp,
    waitStep_spec pol "ASP_WAIT" aspwait hwait, bind, Except.bind, pure, Except.pure]
  cases entryspeed <;> cases premix <;> cases premixvol <;> cases aspspeed <;> cases aspwait
    <;> rfl

/-- C24 (witness): under the policy `richDefault`, which sets every option of the suck, the
suck of 10 ul of water gives the entry group, the pre-mix of 3 cycles of 20 ul, the pipette
speed 1.5, the aspirate, the speed reset to 3 and the wait of 0.5. -/
theorem C24_suck_sequence_witness :
    exampleSuck.Generate richPolicy
      = .ok (suckSequence exampleSuck (some 2) 1 10 (some 3) (some 20) (some (3 / 2)) 3
          (some (1 / 2)), richPolicy) :=
  C24_suck_sequence exampleSuck richPolicy richPolicy richDefault (some 2) 1 10 (some 3)
    (some 20) (some (3 / 2)) 3 (some (1 / 2)) (by decide!) (by decide) (by decide!)
    (by decide!) (fun _ => by decide!) (by decide!) (fun _ => by decide!) (by decide!)
    (fun _ => by decide!) (by decide!)

theorem bool_of_get {pol : LHPolicy} {k : String} {x : Bool} (h : pol.get k = some (.bool x)) :
    pol.bool k = .ok x := by
  simp [LHPolicy.bool, h]

theorem str_of_get {pol : LHPolicy} {k : String} {x : String} (h : pol.get k = some (.str x)) :
    pol.str k = .ok x := by
  simp [LHPolicy.str, h]

theorem blowEntry_spec (ins : BlowInstruction) (pol : LHPolicy) (entryspeed : Option ℚ)
    (reference : Int) (zoffset defaultzspeed : ℚ)
    (hr : pol.get "DSPREFERENCE" = some (.int reference))
    (hz : pol.get "DSPZOFFSET" = some (.float zoffset))
    (hentry : pol.get "DSPENTRYSPEED" = entryspeed.map PolicyValue.float)
    (hdz : entryspeed.isSome → pol.get "DEFAULTZSPEED" = some (.float defaultzspeed)) :
    blowEntry ins pol = .ok (entryspeed.elim
      [.move { Head := ins.Head, Pos := ins.PltTo, Plt := ins.TPlateType,
               Well := ins.WellTo, WVolume := ins.TVolume,
               Reference := List.replicate ins.Multi.toNat reference,
               OffsetZ := List.replicate ins.Multi.toNat zoffset }]
      (fun speed =>
        [.move { Head := ins.Head, Pos := ins.PltTo, Plt := ins.TPlateType,
                 Well := ins.WellTo, WVolume := ins.TVolume,
                 Reference := List.replicate ins.Multi.toNat 1,
                 OffsetZ := List.replicate ins.Multi.toNat 5 },
         .setDriveSpeed { Drive := "Z", Speed := speed },
         .move { Head := ins.Head, Pos := ins.PltTo, Plt := ins.TPlateType,
                 Well := ins.WellTo, WVolume := ins.TVolume,
                 Reference := List.replicate ins.Multi.toNat reference,
                 OffsetZ := List.replicate ins.Multi.toNat zoffset },
         .setDriveSpeed { Drive := "Z", Speed := defaultzspeed }])) := by
  unfold blowEntry
  cases entryspeed with
  | none =>
    simp only [Option.map_none'] at hentry
    simp only [hentry, float_of_get hz, int_of_get hr, repeatEval_ok, bind, Except.bind, pure,
      Except.pure, Option.elim]
  | some s =>
    simp only [Option.map_some'] at hentry
    simp only [hentry, float_of_get hz, int_of_get hr, float_of_get (hdz rfl), repeatEval_ok,
      PolicyValue.asFloat, bind, Except.bind, pure, Except.pure, Option.elim]

theorem touchStep_spec (ins : BlowInstruction) (pol : LHPolicy) (touchoff : Bool)
    (touchoffset : ℚ) (hmulti : 0 ≤ ins.Multi)
    (ht : pol.get "TOUCHOFF" = some (.bool touchoff))
    (hto : touchoff = true → pol.get "TOUCHOFFSET" = some (.float touchoffset)) :
    touchStep ins pol = .ok (if touchoff then
      [.move { Head := ins.Head, Pos := ins.PltTo, Plt := ins.TPlateType, Well := ins.WellTo,
               WVolume := ins.TVolume, Reference := List.replicate ins.Multi.toNat 0,
               OffsetZ := List.replicate ins.Multi.toNat touchoffset }]
      else []) := by
  unfold touchStep
  cases touchoff with
  | false =>
    simp only [bool_of_get ht, bind, Except.bind, pure, Except.pure]
    rfl
  | true =>
    simp only [bool_of_get ht, float_of_get (hto rfl), makeSlice_ok ins.Multi (0 : Int) hmulti,
      makeSlice_ok ins.Multi touchoffset hmulti, bind, Except.bind, pure, Except.pure]
    rfl

/-- C25: for a blow with `Multi >= 0` and a resolved policy in which `DSPREFERENCE` is an
integer, `DSPZOFFSET` a number and `TOUCHOFF` a boolean, each of `DSPENTRYSPEED`, `DSPSPEED`,
`DSP_WAIT`, `POST_MIX` and `POST_MIX_VOL` is either not set or of its type, and
`DEFAULTZSPEED`, `DEFAULTPIPETTESPEED` and `TOUCHOFFSET` are numbers when `DSPENTRYSPEED`,
`DSPSPEED` and `TOUCHOFF` call for them, `BlowInstruction.Generate` returns exactly the
sequence `blowSequence`: the entry group or the single move, the pipette speed iff `DSPSPEED`
is set, one dispense with the volumes of the blow, the speed reset iff `DSPSPEED` is set, the
wait iff `DSP_WAIT` is set, the post-mix iff `POST_MIX` is set, and last a move at reference
0 and z-offset `TOUCHOFFSET` for each channel iff `TOUCHOFF` is true. -/
theorem C25_blow_sequence (ins : BlowInstruction) (policy policy2 : LHPolicyRuleSet)
    (pol : LHPolicy) (entryspeed : Option ℚ) (reference : Int) (zoffset defaultzspeed : ℚ)
    (dspspeed : Option ℚ) (defaultpipettespeed : ℚ) (dspwait : Option ℚ)
    (postmix : Option Int) (postmixvol : Option ℚ) (touchoff : Bool) (touchoffset : ℚ)
    (hpol : policy.GetPolicyFor (.blow ins) = .ok (pol, policy2))
    (hmulti : 0 ≤ ins.Multi)
    (hr : pol.get "DSPREFERENCE" = some (.int reference))
    (hz : pol.get "DSPZOFFSET" = some (.float zoffset))
    (hentry : pol.get "DSPENTRYSPEED" = entryspeed.map PolicyValue.float)
    (hdz : entryspeed.isSome → pol.get "DEFAULTZSPEED" = some (.float defaultzspeed))
    (hdsp : pol.get "DSPSPEED" = dspspeed.map PolicyValue.float)
    (hdp : dspspeed.isSome →
      pol.get "DEFAULTPIPETTESPEED" = some (.float defaultpipettespeed))
    (hwait : pol.get "DSP_WAIT" = dspwait.map PolicyValue.float)
    (hpost : pol.get "POST_MIX" = postmix.map PolicyValue.int)
    (hpostvol : postmix.isSome → pol.get "POST_MIX_VOL" = postmixvol.map PolicyValue.float)
    (ht : pol.get "TOUCHOFF" = some (.bool touchoff))
    (hto : touchoff = true → pol.get "TOUCHOFFSET" = some (.float touchoffset)) :
    ins.Generate policy
      = .ok (blowSequence ins entryspeed reference zoffset defaultzspeed dspspeed
          defaultpipettespeed dspwait postmix postmixvol touchoff touchoffset, policy2) := by
  unfold BlowInstruction.Generate
  simp only [hpol,
    blowEntry_spec ins pol entryspeed reference zoffset defaultzspeed hr hz hentry hdz,
    mixStep_spec pol "POST_MIX" "POST_MIX_VOL" ins.PltTo ins.TPlateType ins.WellTo ins.Volume
      ins.TVolume ins.Multi postmix postmixvol hmulti hpost hpostvol,
    setSpeedStep_spec pol "DSPSPEED" ins.Head dspspeed hdsp,
    resetSpeedStep_spec pol "DSPSPEED" ins.Head dspspeed defaultpipettespeed hdsp hdp,
    waitStep_spec pol "DSP_WAIT" dspwait hwait,
    touchStep_spec ins pol touchoff touchoffset hmulti ht hto,
    bind, Except.bind, pure, Except.pure]
  cases entryspeed <;> cases dspspeed <;> cases dspwait <;> cases postmix <;> cases postmixvol
    <;> cases touchoff <;> rfl

/-- C25 (witness): under the policy `richDefault`, in which `TOUCHOFF` is true, the blow of
10 ul of water ends with the touch-off move at z-offset 0.1. -/
theorem C25_blow_sequence_witness :
    exampleBlow.Generate richPolicy
      = .ok (blowSequence exampleBlow (some 2) 0 (1 / 2) 10 (some (3 / 2)) 3 (some (1 / 4))
          (some 2) none true (1 / 10), richPolicy) :=
  C25_blow_sequence exampleBlow richPolicy richPolicy richDefault (some 2) 0 (1 / 2) 10
    (some (3 / 2)) 3 (some (1 / 4)) (some 2) none true (1 / 10) (by decide!) (by decide)
    (by decide!) (by decide!) (by decide!) (fun _ => by decide!) (by decide!)
    (fun _ => by decide!) (by decide!) (by decide!) (fun _ => by decide!) (by decide!)
    (fun _ => by decide!)

/-- C26: for a reset with channel parameters `p` and a resolved policy in which
`BLOWOUTREFERENCE` and `PTZREFERENCE` are integers, `BLOWOUTOFFSET`, `BLOWOUTVOLUME` and
`PTZOFFSET` numbers and `BLOWOUTVOLUMEUNIT` a string, `ResetInstruction.Generate` returns
exactly four instructions, all on the head of `p`: the move to the destination wells at the
blowout reference and offset, the blowout of the blowout volume in its unit with `multi`
the number of channels of the reset, the move at the piston-reset reference and offset, and
the piston reset of all channels (`Channel = -1`). -/
theorem C26_reset_sequence (ins : ResetInstruction) (policy policy2 : LHPolicyRuleSet)
    (pol : LHPolicy) (p : LHChannelParameter) (blowoutreference : Int)
    (blowoutoffset blowoutvolume : ℚ) (blowoutvolumeunit : String) (ptzreference : Int)
    (ptzoffset : ℚ)
    (hpol : policy.GetPolicyFor (.reset ins) = .ok (pol, policy2))
    (hp : ins.Prms = some p)
    (h1 : pol.get "BLOWOUTREFERENCE" = some (.int blowoutreference))
    (h2 : pol.get "BLOWOUTOFFSET" = some (.float blowoutoffset))
    (h3 : pol.get "BLOWOUTVOLUME" = some (.float blowoutvolume))
    (h4 : pol.get "BLOWOUTVOLUMEUNIT" = some (.str blowoutvolumeunit))
    (h5 : pol.get "PTZREFERENCE" = some (.int ptzreference))
    (h6 : pol.get "PTZOFFSET" = some (.float ptzoffset)) :
    ins.Generate policy
      = .ok (resetSequence ins p.Head blowoutreference blowoutoffset blowoutvolume
          blowoutvolumeunit ptzreference ptzoffset, policy2) := by
  unfold ResetInstruction.Generate
  simp only [hpol, hp, int_of_get h1, float_of_get h2, float_of_get h3, str_of_get h4,
    int_of_get h5, float_of_get h6, bind, Except.bind, pure, Except.pure]
  rfl

/-- C26 (witness): the reset after a dispense into `B2` under the policy of the scenarios: a
move at reference 1 and offset -0.5, a blowout of 200 ul, a second move and the piston reset,
on the head 0. -/
theorem C26_reset_sequence_witness :
    exampleReset.Generate exampleState.policy
      = .ok (resetSequence exampleReset 0 1 (-1 / 2) 200 "ul" 1 (-1 / 2), exampleState.policy) :=
  C26_reset_sequence exampleReset exampleState.policy exampleState.policy exampleDefault
    (exampleChannel 1 LHVChannel) 1 (-1 / 2) 200 "ul" 1 (-1 / 2) (by decide!) rfl (by decide!)
    (by decide!) (by decide!) (by decide!) (by decide!) (by decide!)

/-! ## Effective parameters, tags, mix emission and wells -/

theorem mergeWithTip_spec (p : LHChannelParameter) (tip : LHTip) :
    (p.MergeWithTip tip).Minvol.SIValue = max p.Minvol.SIValue tip.MinVol.SIValue
      ∧ (p.MergeWithTip tip).Maxvol.SIValue = min p.Maxvol.SIValue tip.MaxVol.SIValue
      ∧ { p.MergeWithTip tip with Minvol := p.Minvol, Maxvol := p.Maxvol } = p := by
  have hmin : (if tip.MinVol.GreaterThan p.Minvol = true then CopyVolume tip.MinVol
      else p.Minvol).SIValue = max p.Minvol.SIValue tip.MinVol.SIValue := by
    by_cases h1 : tip.MinVol.GreaterThan p.Minvol = true
    · rw [if_pos h1]
      exact (max_eq_right (le_of_lt ((GreaterThan_iff _ _).mp h1))).symm
    · rw [if_neg h1]
      exact (max_eq_left (not_lt.mp (fun h => h1 ((GreaterThan_iff _ _).mpr h)))).symm
  have hmax : (if tip.MaxVol.LessThan p.Maxvol = true then CopyVolume tip.MaxVol
      else p.Maxvol).SIValue = min p.Maxvol.SIValue tip.MaxVol.SIValue := by
    by_cases h2 : tip.MaxVol.LessThan p.Maxvol = true
    · rw [if_pos h2]
      exact (min_eq_right (le_of_lt ((LessThan_iff _ _).mp h2))).symm
    · rw [if_neg h2]
      exact (min_eq_left (not_lt.mp (fun h => h2 ((LessThan_iff _ _).mpr h)))).symm
  unfold LHChannelParameter.MergeWithTip
  cases h1 : tip.MinVol.GreaterThan p.Minvol <;>
    cases h2 : tip.MaxVol.LessThan p.Maxvol <;>
    simp only [h1, h2, if_true, if_false, Bool.false_eq_true] at hmin hmax ⊢ <;>
    first
      | exact ⟨hmin, hmax, rfl⟩
      | exact ⟨hmin, hmax, trivial⟩

/-- C27 (counterexample): a head whose own parameters are 10 to 1000 ul carries an adaptor of
1 to 50 ul without tips. `GetParams` returns the parameters of the adaptor, 1 to 50 ul, not
the head's own. -/
theorem C27_adaptor_parameters_returned :
    ((adaptedHead 0 none).GetParams (.alloc 0)).map
        (fun c => (c.addr, c.val.Name, c.val.Minvol, c.val.Maxvol))
      = .ok (.heap 1, "adaptor", ⟨1, ul⟩, ⟨50, ul⟩)
    ∧ ((adaptedHead 0 none).Params.addr, (adaptedHead 0 none).Params.val.Name,
        (adaptedHead 0 none).Params.val.Minvol, (adaptedHead 0 none).Params.val.Maxvol)
      = (.heap 0, "head", ⟨10, ul⟩, ⟨1000, ul⟩) := by
  decide!

/-- C27 (amended): `LHHead.GetParams` returns the head's own channel parameters when the head
has no adaptor. With an adaptor it returns the stored parameters of the adaptor when no tip
is loaded, and otherwise a new object, the adaptor's parameters merged with the loaded tip:
its minimum volume is the larger of the adaptor's and the tip's minimum, its maximum volume
the smaller of the two maxima (as physical volumes), and every other field is as in the
adaptor's parameters. -/
theorem C27_getParams_effective (lhh : LHHead) (fresh : Addr) :
    (lhh.Adaptor = none → lhh.GetParams fresh = .ok lhh.Params)
      ∧ ∀ a, lhh.Adaptor = some a →
        (a.Ntipsloaded = 0 → lhh.GetParams fresh = .ok a.Params)
        ∧ ∀ tip, a.Ntipsloaded ≠ 0 → a.Tiptypeloaded = some tip →
          ∃ c, lhh.GetParams fresh = .ok ⟨fresh, c⟩
            ∧ c.Minvol.SIValue = max a.Params.val.Minvol.SIValue tip.MinVol.SIValue
            ∧ c.Maxvol.SIValue = min a.Params.val.Maxvol.SIValue tip.MaxVol.SIValue
            ∧ { c with Minvol := a.Params.val.Minvol, Maxvol := a.Params.val.Maxvol }
                = a.Params.val := by
  refine ⟨?_, ?_⟩
  · intro h
    simp only [LHHead.GetParams, h]
  · intro a ha
    refine ⟨?_, ?_⟩
    · intro h0
      simp only [LHHead.GetParams, ha, LHAdaptor.GetParams, h0, if_true]
    · intro tip hn ht
      refine ⟨a.Params.val.MergeWithTip tip, ?_, mergeWithTip_spec a.Params.val tip⟩
      simp only [LHHead.GetParams, ha, LHAdaptor.GetParams, hn, if_false, ht]

/-- C27 (witness): with a tip of 5 to 20 ul loaded on the adaptor of 1 to 50 ul, the head gets
the range 5 to 20 ul; the adaptor's name and head number are kept. -/
theorem C27_getParams_effective_witness :
    ∃ c, (adaptedHead 1 (some (exampleTip "tip20" 5 20))).GetParams (.alloc 0)
        = .ok ⟨.alloc 0, c⟩
      ∧ c.Minvol.SIValue = max (Volume.mk 1 ul).SIValue (Volume.mk 5 ul).SIValue
      ∧ c.Maxvol.SIValue = min (Volume.mk 50 ul).SIValue (Volume.mk 20 ul).SIValue
      ∧ { c with Minvol := ⟨1, ul⟩, Maxvol := ⟨50, ul⟩ }
          = { exampleChannel 1 LHVChannel with
              Name := "adaptor", Minvol := ⟨1, ul⟩, Maxvol := ⟨50, ul⟩ } :=
  ((C27_getParams_effective (adaptedHead 1 (some (exampleTip "tip20" 5 20))) (.alloc 0)).2
    _ rfl).2 (exampleTip "tip20" 5 20) (by decide) rfl

/-- C28 (evaluation of the code): `NewMixInstruction` sets the tag `MMX`, the tag of the
move-and-mix instruction, not `MIX`: a new mix and a new move-mix carry the same tag. The
other constructors set the tag of their own variant. -/
theorem C28_mix_tagged_as_move_mix :
    (RobotInstruction.mix {}).InstructionType = MMX
      ∧ (RobotInstruction.moveMix {}).InstructionType = MMX
      ∧ MIX ≠ MMX
      ∧ [(RobotInstruction.singleChannelBlock {}).InstructionType,
          (RobotInstruction.multiChannelBlock {}).InstructionType,
          (RobotInstruction.singleChannelTransfer {}).InstructionType,
          (RobotInstruction.multiChannelTransfer {}).InstructionType,
          (RobotInstruction.suck {}).InstructionType,
          (RobotInstruction.blow {}).InstructionType,
          (RobotInstruction.reset {}).InstructionType,
          (RobotInstruction.aspirate {}).InstructionType,
          (RobotInstruction.dispense {}).InstructionType,
          (RobotInstruction.blowout {}).InstructionType,
          (RobotInstruction.move {}).InstructionType,
          (RobotInstruction.loadTips {}).InstructionType,
          (RobotInstruction.unloadTips {}).InstructionType,
          (RobotInstruction.loadTipsMove {}).InstructionType,
          (RobotInstruction.unloadTipsMove {}).InstructionType,
          (RobotInstruction.setPipetteSpeed {}).InstructionType,
          (RobotInstruction.setDriveSpeed {}).InstructionType,
          (RobotInstruction.ptz {}).InstructionType,
          (RobotInstruction.wait {}).InstructionType]
        = [SCB, MCB, SCT, MCT, SUK, BLW, RST, ASP, DSP, BLO, MOV, LOD, ULD, LDT, UDT, SPS, SDS,
            PTZ, WAI] := by
  decide

/-- C29 (evaluation of the code): for a mix of 10 ul in a well that holds 100 ul,
`MixInstruction.OutputTo` makes one call `mix` whose volumes are `[10]` and whose working
volumes are `[10]` as well, not the well volume `[100]`: both slices are filled from
`mi.Volume`. -/
theorem C29_mix_working_volumes_from_volume :
    exampleMix.OutputTo = [.mix 0 [10] [10] ["pcrplate"] [3] 1 ⟨[]⟩]
      ∧ exampleMix.FVolume.map (fun v => v.ConvertTo ul) = [100] := by
  decide!

/-- C30 (counterexample): a well of 100 ul with a residual volume of 5 ul and no contents
satisfies the invariant; after `Add` of a component of 200 ul it does not, `Add` makes no
check. A well that holds 50 ul satisfies it too; `Remove(10 ul)` leaves one component of
volume 0 and sets the volume of the well, its capacity, to 0, below the residual volume. -/
theorem C30_add_exceeds_capacity :
    wellInvariant (exampleWell [])
      ∧ ¬ wellInvariant ((exampleWell []).Add (.component (waterComponent 200)))
      ∧ ((exampleWell []).Add (.component (waterComponent 200))).Vol = 100
      ∧ wellInvariant (exampleWell [waterComponent 50])
      ∧ ((exampleWell [waterComponent 50]).Remove ⟨10, ul⟩).map
          (fun r => (r.2.WContents.map (fun c => c.Vol), r.2.Vol, r.2.Rvol))
        = .ok ([0], 0, 5) := by
  decide!

theorem contentsSum_add (w : LHWell) (c : LHComponent) :
    (w.Add (.component c)).contentsSum = w.contentsSum + c.Vol := by
  simp [LHWell.Add, LHWell.contentsSum]

/-- C30 (amended): `LHWell.Add` of a component of volume `v` leaves the volume of the well
(its capacity) and the residual volume unchanged and increases the sum of the component
volumes by exactly `v`; it makes no check, so the inequality
`sum(component volumes) + residual <= capacity` holds after the call iff
`sum + v + residual <= capacity` held before it. `Add` of a solution changes nothing. -/
theorem C30_add_keeps_capacity (w : LHWell) (c : LHComponent) :
    (w.Add (.component c)).Vol = w.Vol ∧ (w.Add (.component c)).Rvol = w.Rvol
      ∧ (w.Add (.component c)).contentsSum = w.contentsSum + c.Vol
      ∧ (wellInvariant (w.Add (.component c)) ↔ w.contentsSum + c.Vol + w.Rvol ≤ w.Vol)
      ∧ w.Add .solution = w := by
  refine ⟨rfl, rfl, contentsSum_add w c, ?_, rfl⟩
  unfold wellInvariant
  rw [contentsSum_add]
  rfl

/-! ## Frame of policy resolution, cloning, channel safety and heads -/

/-- C35 (evaluation of the code): in the rule set of the policy-merge scenario the stored
`default` policy is `ASPZOFFSET 1, DSPZOFFSET 0.5`, and that is what `GetPolicyFor` returns
for a suck of water. After one call of `GetPolicyFor` for a suck of glycerol the stored
`default` policy is the merged one (`ASPZOFFSET 0.2, DSPZOFFSET 0.5, ASPSPEED 1.5`), and the
suck of water, which matches no rule, now gets that policy. -/
theorem C35_getPolicyFor_overwrites_default :
    (glycerolRuleSet.Policies.lookup "default").map policyView
        = some (some (.float 1), some (.float (1 / 2)), none)
      ∧ (glycerolRuleSet.GetPolicyFor waterSuck).map (fun r => policyView r.1)
        = .ok (some (.float 1), some (.float (1 / 2)), none)
      ∧ (glycerolRuleSet.GetPolicyFor glycerolSuck).map
          (fun r => (r.2.Policies.lookup "default").map policyView)
        = .ok (some (some (.float (1 / 5)), some (.float (1 / 2)), some (.float (3 / 2))))
      ∧ ((glycerolRuleSet.GetPolicyFor glycerolSuck).bind
          (fun r => r.2.GetPolicyFor waterSuck)).map (fun r => policyView r.1)
        = .ok (some (.float (1 / 5)), some (.float (1 / 2)), some (.float (3 / 2))) := by
  decide!

/-- C36 (evaluation of the code): the clone of the rule set of the policy-merge scenario has
the rule and the policy `glycerol` of the parent but no `default` policy: the loop of
`CloneLHPolicyRuleSet` runs over the names of the rules only. On the parent a suck of water
gets the `default` policy and a suck of glycerol the merged one; on the clone the suck of
water gets the `nil` policy and the suck of glycerol panics on the write into a `nil` map. -/
theorem C36_clone_loses_default :
    (CloneLHPolicyRuleSet glycerolRuleSet).Rules = glycerolRuleSet.Rules
      ∧ (CloneLHPolicyRuleSet glycerolRuleSet).Policies.map Prod.fst = ["glycerol"]
      ∧ glycerolRuleSet.Policies.map Prod.fst = ["default", "glycerol"]
      ∧ (glycerolRuleSet.GetPolicyFor waterSuck).map (fun r => policyView r.1)
        = .ok (some (.float 1), some (.float (1 / 2)), none)
      ∧ ((CloneLHPolicyRuleSet glycerolRuleSet).GetPolicyFor waterSuck).map (fun r => r.1)
        = .ok ⟨[]⟩
      ∧ (glycerolRuleSet.GetPolicyFor glycerolSuck).map (fun r => policyView r.1)
        = .ok (some (.float (1 / 5)), some (.float (1 / 2)), some (.float (3 / 2)))
      ∧ ((CloneLHPolicyRuleSet glycerolRuleSet).GetPolicyFor glycerolSuck).map (fun r => r.1)
        = .error .nilMapWrite := by
  decide!

/-- C37 (evaluation of the code): the head has an adaptor of 1 to 50 ul on which a tip of 20
to 300 ul is loaded. `ChooseChannel(15 ul)` succeeds, with the tip type `tip50`, and returns
the adaptor's range tightened by the loaded tip, 20 to 50 ul: the returned minimum is above
the 15 ul asked for, and `TransferVolumes` with the returned bounds raises the
below-minimum fault. -/
theorem C37_loaded_tip_raises_minimum :
    (ChooseChannel ⟨15, ul⟩ loadedTipHardware (.alloc 0)).map
        (fun r => (r.1.val.Minvol, r.1.val.Maxvol, r.2))
      = .ok (⟨20, ul⟩, ⟨50, ul⟩, "tip50")
    ∧ (ChooseChannel ⟨15, ul⟩ loadedTipHardware (.alloc 0)).bind
        (fun r => TransferVolumes ⟨15, ul⟩ r.1.val.Minvol r.1.val.Maxvol)
      = .error .belowMinVol := by
  decide!

/-- C38 (evaluation of the code): a single-channel transfer whose channel parameters name the
head 1 is lowered to a move, a pipette speed, an aspirate, a pipette speed, a move, a pipette
speed, a dispense and a pipette speed on the head 0, followed by a move, a blowout, a move
and a piston reset on the head 1: the suck and the blow never receive the head. -/
theorem C38_suck_and_blow_on_head_zero :
    (lower MakeWellCoordsA1 counterTips 3 (.singleChannelTransfer headOneTransfer)
        speedState).map (fun r => r.1.map (fun i => (i.InstructionType, headOf i)))
      = .ok [(MOV, some 0), (SPS, some 0), (ASP, some 0), (SPS, some 0),
             (MOV, some 0), (SPS, some 0), (DSP, some 0), (SPS, some 0),
             (MOV, some 1), (BLO, some 1), (MOV, some 1), (PTZ, some 1)] := by
  decide!

/-- C39 (failing input): two transfers within the row `M` (the thirteenth) are hashed by a
horizontal channel under the row index 12, and two within the column 24 by a vertical channel
under the column index 23: both are outside the table of 12 rows of `GetParallelSetsFor`,
which panics with an index out of range. -/
theorem C39_row_thirteen_faults :
    orientCoords MakeWellCoordsA1 tallTransfer (exampleChannel 2 LHHChannel) 0 = some (12, 12)
      ∧ tallTransfer.GetParallelSetsFor MakeWellCoordsA1 (exampleChannel 2 LHHChannel)
          = .error .indexOutOfRange
      ∧ orientCoords MakeWellCoordsA1 lastColumnTransfer (exampleChannel 2 LHVChannel) 0
          = some (23, 23)
      ∧ lastColumnTransfer.GetParallelSetsFor MakeWellCoordsA1 (exampleChannel 2 LHVChannel)
          = .error .indexOutOfRange := by
  decide!

/-- C39 (within the table): for every channel and every transfer instruction whose source and
destination wells all have their orient-coordinate (column for a vertical channel, row for a
horizontal one) in `0..11`, `GetParallelSetsFor` returns a list of sets, without an
out-of-range access. -/
theorem C39_total_within_table (parse : String → WellCoords) (ins : TransferInstruction)
    (channel : LHChannelParameter)
    (hc : ∀ i < ins.What.length, ∃ fc tc : Nat, fc < 12 ∧ tc < 12
      ∧ orientCoords parse ins channel i = some ((fc : Int), (tc : Int))) :
    ∃ sets, ins.GetParallelSetsFor parse channel = .ok sets := by
  by_cases h1 : channel.Multi = 1
  · exact ⟨[], by simp only [TransferInstruction.GetParallelSetsFor, if_pos h1]⟩
  · obtain ⟨tfrs, hrun, -, -⟩ := hashTransfers_spec parse ins channel
      (List.range ins.What.length) newTable newTable_wf
      (fun i hi => hc i (List.mem_range.mp hi))
    exact ⟨collectSets channel.Multi tfrs,
      by simp only [TransferInstruction.GetParallelSetsFor, if_neg h1, hrun]⟩

/-- C39 (witness): the eight transfers `A1..H1` to `A2..H2` lie in the columns 1 and 2, and
`GetParallelSetsFor` returns for a vertical eight-channel head. -/
theorem C39_total_within_table_witness :
    ∃ sets, columnTransfer.GetParallelSetsFor MakeWellCoordsA1 (exampleChannel 8 LHVChannel)
      = .ok sets :=
  C39_total_within_table MakeWellCoordsA1 columnTransfer (exampleChannel 8 LHVChannel)
    (by
      intro i hi
      refine ⟨0, 1, by decide, by decide, ?_⟩
      have hi8 : i < 8 := hi
      interval_cases i <;> decide!)

/-! ## Termination of the lowering -/

theorem SIValue_minus (v m : Volume) : (v.minus m).SIValue = v.SIValue - m.SIValue := by
  rw [SIValue_eq, SIValue_eq v, ← ConvertTo_mul m v.Munit]
  simp only [Volume.minus]
  ring

theorem SIValue_add (v m : Volume) : (v.Add m).SIValue = v.SIValue + m.SIValue := by
  rw [SIValue_eq, SIValue_eq v, ← ConvertTo_mul m v.Munit]
  simp only [Volume.Add]
  ring

theorem subtract_ok {v m : Volume} (h : m.SIValue ≤ v.SIValue) :
    v.Subtract m = .ok (v.minus m) := by
  have hpos : (0 : ℚ) < (10 : ℚ) ^ v.Munit := zpow_pos (by norm_num) _
  have hn : ¬ v.Mvalue < m.ConvertTo v.Munit := by
    intro hlt
    have := (mul_lt_mul_right hpos).mpr hlt
    rw [ConvertTo_mul, ← SIValue_eq] at this
    exact absurd h (not_le.mpr this)
  simp only [Volume.Subtract, if_neg hn, Volume.minus]

theorem idx_of_some {α : Type} {l : List α} {i : Nat} {a : α} (h : l[i]? = some a) :
    idx l i = .ok a := by
  simp [idx, h]

theorem getElem?_of_lt {α : Type} (l : List α) {i : Nat} (h : i < l.length) :
    ∃ a, l[i]? = some a := ⟨l[i], by simp [h]⟩

theorem maxMulti_fold (vols : List Volume) (v0 : Volume) :
    (vols.foldl (fun ret v => if v.LessThan ret then v else ret) v0 = v0
        ∨ vols.foldl (fun ret v => if v.LessThan ret then v else ret) v0 ∈ vols)
      ∧ (vols.foldl (fun ret v => if v.LessThan ret then v else ret) v0).SIValue ≤ v0.SIValue
      ∧ ∀ v ∈ vols,
          (vols.foldl (fun ret v => if v.LessThan ret then v else ret) v0).SIValue
            ≤ v.SIValue := by
  induction vols generalizing v0 with
  | nil => simp
  | cons a rest ih =>
    simp only [List.foldl_cons]
    by_cases hlt : a.LessThan v0 = true
    · rw [if_pos hlt]
      obtain ⟨h1, h2, h3⟩ := ih a
      have ha := (LessThan_iff _ _).mp hlt
      refine ⟨?_, le_trans h2 (le_of_lt ha), ?_⟩
      · right
        rcases h1 with h1 | h1
        · rw [h1]; exact List.mem_cons_self _ _
        · exact List.mem_cons_of_mem _ h1
      · intro v hv
        rcases List.mem_cons.mp hv with rfl | hv
        · exact h2
        · exact h3 v hv
    · rw [if_neg hlt]
      obtain ⟨h1, h2, h3⟩ := ih v0
      have ha : ¬ a.SIValue < v0.SIValue := fun h => hlt ((LessThan_iff _ _).mpr h)
      refine ⟨?_, h2, ?_⟩
      · rcases h1 with h1 | h1
        · left; exact h1
        · right; exact List.mem_cons_of_mem _ h1
      · intro v hv
        rcases List.mem_cons.mp hv with rfl | hv
        · exact le_trans h2 (not_lt.mp ha)
        · exact h3 v hv

/-- `MaxMultiTransferVolume` of a non-empty slice returns a member of it that is the least as
a physical volume. -/
theorem maxMulti_spec (vols : List Volume) (hne : vols ≠ []) :
    ∃ m, MaxMultiTransferVolume vols = .ok m ∧ m ∈ vols ∧ ∀ v ∈ vols, m.SIValue ≤ v.SIValue := by
  cases vols with
  | nil => exact absurd rfl hne
  | cons v0 rest =>
    refine ⟨_, rfl, ?_, ?_⟩
    · obtain ⟨h1, -, -⟩ := maxMulti_fold (v0 :: rest) v0
      rcases h1 with h1 | h1
      · rw [h1]; exact List.mem_cons_self _ _
      · exact h1
    · exact (maxMulti_fold (v0 :: rest) v0).2.2

theorem subtractSet_spec (m : Volume) (n : Nat) (S : List Nat) :
    ∀ (st : TransferVolumesState), volumesLength n st → S.Nodup → (∀ i ∈ S, i < n) →
      (∀ i ∈ S, ∀ v, st.Volume[i]? = some v → m.SIValue ≤ v.SIValue) →
      (∀ i ∈ S, ∀ v, st.FVolume[i]? = some v → m.SIValue ≤ v.SIValue) →
      ∃ st2, subtractSet m S st = .ok st2 ∧ volumesLength n st2
        ∧ (∀ i, st2.Volume[i]? = if i ∈ S then (st.Volume[i]?).map (fun v => v.minus m)
            else st.Volume[i]?)
        ∧ (∀ i, st2.FVolume[i]? = if i ∈ S then (st.FVolume[i]?).map (fun v => v.minus m)
            else st.FVolume[i]?)
        ∧ (∀ i, st2.TVolume[i]? = if i ∈ S then (st.TVolume[i]?).map (fun v => v.Add m)
            else st.TVolume[i]?) := by
  induction S with
  | nil =>
    intro st hl _ _ _ _
    exact ⟨st, rfl, hl, by simp, by simp, by simp⟩
  | cons s rest ih =>
    intro st hl hnd hlt hV hF
    obtain ⟨hlV, hlF, hlT⟩ := hl
    have hs : s < n := hlt s (List.mem_cons_self _ _)
    obtain ⟨v, hv⟩ := getElem?_of_lt st.Volume (by rw [hlV]; exact hs : s < st.Volume.length)
    obtain ⟨fv, hfv⟩ := getElem?_of_lt st.FVolume (by rw [hlF]; exact hs : s < st.FVolume.length)
    obtain ⟨tv, htv⟩ := getElem?_of_lt st.TVolume (by rw [hlT]; exact hs : s < st.TVolume.length)
    have hsr : s ∉ rest := (List.nodup_cons.mp hnd).1
    have hndr : rest.Nodup := (List.nodup_cons.mp hnd).2
    have hne : ∀ i ∈ rest, s ≠ i := fun i hi h => hsr (h ▸ hi)
    obtain ⟨st2, hrun, hl2, h2V, h2F, h2T⟩ := ih
      { Volume := st.Volume.set s (v.minus m), FVolume := st.FVolume.set s (fv.minus m),
        TVolume := st.TVolume.set s (tv.Add m) }
      ⟨by simp [hlV], by simp [hlF], by simp [hlT]⟩ hndr
      (fun i hi => hlt i (List.mem_cons_of_mem _ hi))
      (fun i hi w hw => hV i (List.mem_cons_of_mem _ hi) w
        (by simpa [List.getElem?_set, hne i hi] using hw))
      (fun i hi w hw => hF i (List.mem_cons_of_mem _ hi) w
        (by simpa [List.getElem?_set, hne i hi] using hw))
    refine ⟨st2, ?_, hl2, ?_, ?_, ?_⟩
    · simp only [subtractSet, idx_of_some hv, idx_of_some hfv, idx_of_some htv,
        subtract_ok (hV s (List.mem_cons_self _ _) v hv),
        subtract_ok (hF s (List.mem_cons_self _ _) fv hfv), bind, Except.bind]
      exact hrun
    · intro i
      rw [h2V i]
      by_cases his : i = s
      · subst his
        simp [hsr, List.getElem?_set, hv, show i < st.Volume.length by rw [hlV]; exact hs]
      · by_cases hir : i ∈ rest
        · simp [hir, List.getElem?_set, Ne.symm his]
        · simp [hir, his, List.getElem?_set, Ne.symm his]
    · intro i
      rw [h2F i]
      by_cases his : i = s
      · subst his
        simp [hsr, List.getElem?_set, hfv, show i < st.FVolume.length by rw [hlF]; exact hs]
      · by_cases hir : i ∈ rest
        · simp [hir, List.getElem?_set, Ne.symm his]
        · simp [hir, his, List.getElem?_set, Ne.symm his]
    · intro i
      rw [h2T i]
      by_cases his : i = s
      · subst his
        simp [hsr, List.getElem?_set, htv, show i < st.TVolume.length by rw [hlT]; exact hs]
      · by_cases hir : i ∈ rest
        · simp [hir, List.getElem?_set, Ne.symm his]
        · simp [hir, his, List.getElem?_set, Ne.symm his]

theorem mapM_idx {α β : Type} (l : List α) (g : α → β) (S : List Nat)
    (h : ∀ s ∈ S, s < l.length) :
    ∃ out : List β, S.mapM (fun s => (idx l s).map g) = .ok out
      ∧ out.length = S.length
      ∧ ∀ k : Nat, out[k]? = (S[k]?).bind (fun (s : Nat) => (l[s]?).map g) := by
  induction S with
  | nil => exact ⟨[], rfl, rfl, by simp⟩
  | cons s rest ih =>
    obtain ⟨out, hout, hlen, hget⟩ := ih (fun x hx => h x (List.mem_cons_of_mem _ hx))
    obtain ⟨a, ha⟩ := getElem?_of_lt l (h s (List.mem_cons_self _ _))
    refine ⟨g a :: out, ?_, by simp [hlen], ?_⟩
    · rw [List.mapM_cons, hout, idx_of_some ha]
      rfl
    · intro k
      cases k with
      | zero => simp [ha]
      | succ k => simp [hget k]

theorem mapM_idx_id {α : Type} (l : List α) (S : List Nat) (h : ∀ s ∈ S, s < l.length) :
    ∃ out : List α, S.mapM (fun s => idx l s) = .ok out ∧ out.length = S.length := by
  induction S with
  | nil => exact ⟨[], rfl, rfl⟩
  | cons s rest ih =>
    obtain ⟨out, hout, hlen⟩ := ih (fun x hx => h x (List.mem_cons_of_mem _ hx))
    obtain ⟨a, ha⟩ := getElem?_of_lt l (h s (List.mem_cons_self _ _))
    refine ⟨a :: out, ?_, by simp [hlen]⟩
    rw [List.mapM_cons, hout, idx_of_some ha]
    rfl

/-- One turn of the loop over the parallel sets: the entry added to the multi-channel block
carries, for each member of the set, the least of the volumes of the members, and that
volume is taken from the members and from their sources and added to their destinations. -/
theorem multiSet_spec (ins : TransferInstruction) (hwf : ins.WF) (S : List Nat)
    (st : TransferVolumesState) (hl : volumesLength ins.What.length st) (hnd : S.Nodup)
    (hne : S ≠ []) (hlt : ∀ i ∈ S, i < ins.What.length)
    (hF : ∀ i ∈ S, ∀ v f, st.Volume[i]? = some v → st.FVolume[i]? = some f →
      v.SIValue ≤ f.SIValue) :
    ∃ tp st2 m, multiSet ins S st = .ok (tp, st2) ∧ volumesLength ins.What.length st2
      ∧ tp.Volume = S.map (fun _ => m)
      ∧ (∃ j ∈ S, st.Volume[j]? = some m)
      ∧ (∀ j ∈ S, ∀ v, st.Volume[j]? = some v → m.SIValue ≤ v.SIValue)
      ∧ (∀ i, st2.Volume[i]? = if i ∈ S then (st.Volume[i]?).map (fun v => v.minus m)
          else st.Volume[i]?)
      ∧ (∀ i, st2.FVolume[i]? = if i ∈ S then (st.FVolume[i]?).map (fun v => v.minus m)
          else st.FVolume[i]?)
      ∧ (∀ i, st2.TVolume[i]? = if i ∈ S then (st.TVolume[i]?).map (fun v => v.Add m)
          else st.TVolume[i]?) := by
  obtain ⟨w1, w2, w3, w4, w5, w6, w7, w8, w9⟩ := hwf
  obtain ⟨hlV, hlF, hlT⟩ := hl
  obtain ⟨vols, hvols, hvlen, hvget⟩ := mapM_idx st.Volume CopyVolume S
    (fun s hs => by rw [hlV]; exact hlt s hs)
  obtain ⟨fvols, hfvols, -, -⟩ := mapM_idx st.FVolume CopyVolume S
    (fun s hs => by rw [hlF]; exact hlt s hs)
  obtain ⟨tvols, htvols, -, -⟩ := mapM_idx st.TVolume CopyVolume S
    (fun s hs => by rw [hlT]; exact hlt s hs)
  obtain ⟨a1, h1, -⟩ := mapM_idx_id ins.What S hlt
  obtain ⟨a2, h2, -⟩ := mapM_idx_id ins.PltFrom S (fun s hs => by rw [w1]; exact hlt s hs)
  obtain ⟨a3, h3, -⟩ := mapM_idx_id ins.PltTo S (fun s hs => by rw [w2]; exact hlt s hs)
  obtain ⟨a4, h4, -⟩ := mapM_idx_id ins.WellFrom S (fun s hs => by rw [w3]; exact hlt s hs)
  obtain ⟨a5, h5, -⟩ := mapM_idx_id ins.WellTo S (fun s hs => by rw [w4]; exact hlt s hs)
  obtain ⟨a6, h6, -⟩ := mapM_idx_id ins.FPlateType S (fun s hs => by rw [w6]; exact hlt s hs)
  obtain ⟨a7, h7, -⟩ := mapM_idx_id ins.TPlateType S (fun s hs => by rw [w7]; exact hlt s hs)
  have hvne : vols ≠ [] := by
    intro h
    rw [h] at hvlen
    exact hne (List.length_eq_zero.mp hvlen.symm)
  obtain ⟨m, hm, hmem, hmin⟩ := maxMulti_spec vols hvne
  -- the members of `vols` are the volumes of the members of the set
  have hvmem : ∀ x, x ∈ vols ↔ ∃ j ∈ S, st.Volume[j]? = some x := by
    intro x
    constructor
    · intro hx
      obtain ⟨k, hk, hkx⟩ := List.mem_iff_getElem.mp hx
      have hk2 : k < S.length := by omega
      have := hvget k
      rw [List.getElem?_eq_getElem hk, List.getElem?_eq_getElem hk2, hkx] at this
      simp only [Option.some_bind] at this
      obtain ⟨a, ha⟩ := getElem?_of_lt st.Volume
        (by rw [hlV]; exact hlt S[k] (List.getElem_mem _) : S[k] < st.Volume.length)
      rw [ha] at this
      simp only [Option.map_some', Option.some.injEq, CopyVolume] at this
      exact ⟨S[k], List.getElem_mem _, by rw [ha, this]⟩
    · rintro ⟨j, hj, hjx⟩
      obtain ⟨k, hk, hkj⟩ := List.mem_iff_getElem.mp hj
      have := hvget k
      rw [List.getElem?_eq_getElem hk, hkj] at this
      simp only [Option.some_bind, hjx, Option.map_some', CopyVolume] at this
      exact List.mem_iff_getElem?.mpr ⟨k, this⟩
  have hmV : ∀ j ∈ S, ∀ v, st.Volume[j]? = some v → m.SIValue ≤ v.SIValue :=
    fun j hj v hv => hmin v ((hvmem v).mpr ⟨j, hj, hv⟩)
  have hmF : ∀ j ∈ S, ∀ f, st.FVolume[j]? = some f → m.SIValue ≤ f.SIValue := by
    intro j hj f hf
    obtain ⟨v, hv⟩ := getElem?_of_lt st.Volume
      (by rw [hlV]; exact hlt j hj : j < st.Volume.length)
    exact le_trans (hmV j hj v hv) (hF j hj v f hv hf)
  obtain ⟨st2, hsub, hl2, hV2, hF2, hT2⟩ := subtractSet_spec m ins.What.length S st
    ⟨hlV, hlF, hlT⟩ hnd hlt hmV hmF
  refine ⟨{ What := a1, Volume := vols.map (fun _ => CopyVolume m), FVolume := fvols,
            TVolume := tvols, PltFrom := a2, PltTo := a3, WellFrom := a4, WellTo := a5,
            FPlateType := a6, TPlateType := a7 }, st2, m, ?_, hl2, ?_, (hvmem m).mp hmem,
    hmV, hV2, hF2, hT2⟩
  · simp only [multiSet, hvols, hfvols, htvols, h1, h2, h3, h4, h5, h6, h7, hm, hsub, bind,
      Except.bind, pure, Except.pure]
  · simp only [CopyVolume]
    apply List.ext_getElem
    · simp [hvlen]
    · intro k hk1 hk2
      simp

theorem forall₂_imp_mem {α β : Type} {R Q : α → β → Prop} {l1 : List α} {l2 : List β}
    (h : List.Forall₂ R l1 l2) (hi : ∀ a ∈ l1, ∀ b, R a b → Q a b) : List.Forall₂ Q l1 l2 := by
  induction h with
  | nil => exact List.Forall₂.nil
  | cons hab _ ih =>
    exact List.Forall₂.cons (hi _ (List.mem_cons_self _ _) _ hab)
      (ih (fun a ha b hr => hi a (List.mem_cons_of_mem _ ha) b hr))

theorem multiSet_holds {st st2 : TransferVolumesState} {S : List Nat} {m : Volume}
    (hh : sourcesHold st)
    (hV2 : ∀ i, st2.Volume[i]? = if i ∈ S then (st.Volume[i]?).map (fun v => v.minus m)
      else st.Volume[i]?)
    (hF2 : ∀ i, st2.FVolume[i]? = if i ∈ S then (st.FVolume[i]?).map (fun v => v.minus m)
      else st.FVolume[i]?) : sourcesHold st2 := by
  intro i v f hv hf
  rw [hV2 i] at hv
  rw [hF2 i] at hf
  by_cases hi : i ∈ S
  · rw [if_pos hi] at hv hf
    cases hv0 : st.Volume[i]? with
    | none => rw [hv0] at hv; cases hv
    | some v0 =>
      cases hf0 : st.FVolume[i]? with
      | none => rw [hf0] at hf; cases hf
      | some f0 =>
        rw [hv0] at hv
        rw [hf0] at hf
        simp only [Option.map_some', Option.some.injEq] at hv hf
        subst hv
        subst hf
        rw [SIValue_minus, SIValue_minus]
        have := hh i v0 f0 hv0 hf0
        linarith
  · rw [if_neg hi] at hv hf
    exact hh i v f hv hf

/-- The loop over the parallel sets: for sets that are disjoint, it adds one entry per set to
the multi-channel block, takes from the members of each set the least of their volumes, and
leaves the other transfers as they are. -/
theorem multiSets_spec (ins : TransferInstruction) (hwf : ins.WF) (sets : List (List Nat)) :
    sets.Pairwise (fun A B => ∀ x ∈ A, x ∉ B) →
    (∀ S ∈ sets, S.Nodup ∧ S ≠ [] ∧ ∀ i ∈ S, i < ins.What.length) →
    ∀ (mci : MultiChannelBlockInstruction) (st : TransferVolumesState),
      volumesLength ins.What.length st → sourcesHold st →
      ∃ mci2 st2 ents, multiSets ins sets mci st = .ok (mci2, st2)
        ∧ volumesLength ins.What.length st2 ∧ sourcesHold st2
        ∧ mci2.Volume = mci.Volume ++ ents ∧ mci2.Multi = mci.Multi ∧ mci2.Prms = mci.Prms
        ∧ List.Forall₂ (setTaken st st2) sets ents
        ∧ ∀ i, (∀ S ∈ sets, i ∉ S) → untouched st st2 i := by
  induction sets with
  | nil =>
    intro _ _ mci st hl hh
    exact ⟨mci, st, [], rfl, hl, hh, by simp, rfl, rfl, List.Forall₂.nil,
      fun i _ => ⟨rfl, rfl, rfl⟩⟩
  | cons S rest ih =>
    intro hdis hS mci st hl hh
    obtain ⟨hSnd, hSne, hSlt⟩ := hS S (List.mem_cons_self _ _)
    obtain ⟨hhead, hrest⟩ := List.pairwise_cons.mp hdis
    obtain ⟨tp, st1, m, hrun, hl1, htp, hmem, hmin, hV1, hF1, hT1⟩ :=
      multiSet_spec ins hwf S st hl hSnd hSne hSlt (fun i _ v f hv hf => hh i v f hv hf)
    have hh1 : sourcesHold st1 := multiSet_holds hh hV1 hF1
    obtain ⟨mci2, st2, ents, hrun2, hl2, hh2, hvol, hmulti, hprms, hall, hun⟩ :=
      ih hrest (fun S' hS' => hS S' (List.mem_cons_of_mem _ hS')) (mci.AddTransferParams tp)
        st1 hl1 hh1
    refine ⟨mci2, st2, tp.Volume :: ents, ?_, hl2, hh2, ?_, ?_, ?_, ?_, ?_⟩
    · simp only [multiSets, hrun, hrun2]
    · rw [hvol]
      simp [MultiChannelBlockInstruction.AddTransferParams]
    · rw [hmulti]; rfl
    · rw [hprms]; rfl
    · refine List.Forall₂.cons ?_ ?_
      · refine ⟨m, htp, hmem, hmin, ?_⟩
        intro i hi
        obtain ⟨u1, u2, u3⟩ := hun i (fun S' hS' => hhead S' hS' i hi)
        rw [u1, u2, u3, hV1 i, hF1 i, hT1 i, if_pos hi, if_pos hi, if_pos hi]
        exact ⟨rfl, rfl, rfl⟩
      · refine forall₂_imp_mem hall ?_
        intro S' hS' e hT
        have hnot : ∀ j ∈ S', j ∉ S := fun j hj hjs => hhead S' hS' j hjs hj
        obtain ⟨m', he, ⟨j, hj, hjm⟩, hmin', hafter⟩ := hT
        refine ⟨m', he, ⟨j, hj, ?_⟩, ?_, ?_⟩
        · rw [hV1 j, if_neg (hnot j hj)] at hjm
          exact hjm
        · intro k hk v hv
          refine hmin' k hk v ?_
          rw [hV1 k, if_neg (hnot k hk)]
          exact hv
        · intro i hi
          obtain ⟨a1, a2, a3⟩ := hafter i hi
          rw [hV1 i, if_neg (hnot i hi)] at a1
          rw [hF1 i, if_neg (hnot i hi)] at a2
          rw [hT1 i, if_neg (hnot i hi)] at a3
          exact ⟨a1, a2, a3⟩
    · intro i hi
      have hiS : i ∉ S := hi S (List.mem_cons_self _ _)
      obtain ⟨u1, u2, u3⟩ := hun i (fun S' hS' => hi S' (List.mem_cons_of_mem _ hS'))
      refine ⟨?_, ?_, ?_⟩
      · rw [u1, hV1 i, if_neg hiS]
      · rw [u2, hF1 i, if_neg hiS]
      · rw [u3, hT1 i, if_neg hiS]

theorem parallelSets_eq (parse : String → WellCoords) (ins : TransferInstruction)
    (channel : LHChannelParameter) (hm : 1 < channel.Multi)
    (hc : ∀ i < ins.What.length, ∃ fc tc : Nat, fc < 12 ∧ tc < 12
      ∧ orientCoords parse ins channel i = some ((fc : Int), (tc : Int))) :
    ins.GetParallelSetsFor parse channel = .ok ((List.range 12).flatMap (fun (f : Nat) =>
      ((List.range 12).map (fun (t : Nat) => parallelGroup parse ins channel (f : Int) (t : Int))).filter
        (fun s => decide ((s.length : Int) = channel.Multi)))) := by
  have hne1 : ¬ channel.Multi = 1 := by omega
  obtain ⟨tfrs, hrun, hwf, hcell⟩ := hashTransfers_spec parse ins channel
    (List.range ins.What.length) newTable newTable_wf
    (fun i hi => hc i (List.mem_range.mp hi))
  simp only [TransferInstruction.GetParallelSetsFor, if_neg hne1, hrun]
  rw [collectSets_eq channel.Multi tfrs hwf (by omega)]
  congr 1
  apply List.flatMap_congr
  intro f _
  congr 1
  apply List.map_congr_left
  intro t _
  rw [hcell f t, cell_newTable]
  rfl

theorem parallelGroup_disjoint (parse : String → WellCoords) (ins : TransferInstruction)
    (channel : LHChannelParameter) (f t f2 t2 : Nat) (hne : f ≠ f2 ∨ t ≠ t2) :
    ∀ x ∈ parallelGroup parse ins channel (f : Int) (t : Int),
      x ∉ parallelGroup parse ins channel (f2 : Int) (t2 : Int) := by
  intro x hx hx2
  simp only [parallelGroup, List.mem_filter, decide_eq_true_eq] at hx hx2
  rw [hx.2] at hx2
  have := hx2.2
  simp only [Option.some.injEq, Prod.mk.injEq, Nat.cast_inj] at this
  rcases hne with h | h
  · exact h this.1
  · exact h this.2

/-- The sets that `GetParallelSetsFor` returns for a channel with `multi > 1` are disjoint,
and each is a non-empty list of distinct transfer indices. -/
theorem parallelSets_disjoint (parse : String → WellCoords) (ins : TransferInstruction)
    (channel : LHChannelParameter) (hm : 1 < channel.Multi)
    (hc : ∀ i < ins.What.length, ∃ fc tc : Nat, fc < 12 ∧ tc < 12
      ∧ orientCoords parse ins channel i = some ((fc : Int), (tc : Int))) :
    ∃ sets, ins.GetParallelSetsFor parse channel = .ok sets
      ∧ sets.Pairwise (fun A B => ∀ x ∈ A, x ∉ B)
      ∧ (∀ S ∈ sets, S.Nodup ∧ S ≠ [] ∧ ∀ i ∈ S, i < ins.What.length)
      ∧ (∀ S ∈ sets, (S.length : Int) = channel.Multi
          ∧ ∃ f t : Int, S = parallelGroup parse ins channel f t) := by
  refine ⟨_, parallelSets_eq parse ins channel hm hc, ?_, ?_, ?_⟩
  · rw [List.pairwise_flatMap]
    constructor
    · intro f _
      apply List.Pairwise.filter
      rw [List.pairwise_map]
      exact (List.nodup_range 12).pairwise_of_forall_ne
        (fun t _ t2 _ hne => parallelGroup_disjoint parse ins channel f t f t2 (Or.inr hne))
    · refine (List.nodup_range 12).pairwise_of_forall_ne ?_
      intro f _ f2 _ hne A hA B hB
      obtain ⟨t, -, rfl⟩ := List.mem_map.mp (List.mem_filter.mp hA).1
      obtain ⟨t2, -, rfl⟩ := List.mem_map.mp (List.mem_filter.mp hB).1
      exact parallelGroup_disjoint parse ins channel f t f2 t2 (Or.inl hne)
  · intro S hS
    obtain ⟨f, -, hS⟩ := List.mem_flatMap.mp hS
    obtain ⟨hS, hlen⟩ := List.mem_filter.mp hS
    obtain ⟨t, -, rfl⟩ := List.mem_map.mp hS
    simp only [decide_eq_true_eq] at hlen
    refine ⟨(List.nodup_range _).filter _, ?_, ?_⟩
    · intro h
      rw [h] at hlen
      simp only [List.length_nil, Nat.cast_zero] at hlen
      omega
    · intro i hi
      simp only [parallelGroup, List.mem_filter, List.mem_range] at hi
      exact hi.1
  · intro S hS
    obtain ⟨f, -, hS⟩ := List.mem_flatMap.mp hS
    obtain ⟨hS, hlen⟩ := List.mem_filter.mp hS
    obtain ⟨t, -, rfl⟩ := List.mem_map.mp hS
    simp only [decide_eq_true_eq] at hlen
    exact ⟨hlen, _, _, rfl⟩

theorem sourcesHold_of_suffice (ins : TransferInstruction)
    (h : sourcesSuffice ins.Volume ins.FVolume) : sourcesHold ins.volumes := by
  intro i v f hv hf
  exact h (v, f) (List.mem_iff_getElem?.mpr
    ⟨i, List.getElem?_zip_eq_some.mpr ⟨hv, hf⟩⟩)

theorem volumesLength_of_wf (ins : TransferInstruction) (h : ins.WF) :
    volumesLength ins.What.length ins.volumes := by
  obtain ⟨w1, w2, w3, w4, w5, w6, w7, w8, w9⟩ := h
  exact ⟨w5, w8, w9⟩

/-- The loop of the multi-channel phase of `TransferInstruction.Generate` on the parallel sets
of a channel with more than one channel: it completes, adds exactly one entry per parallel
set, in order, and takes the least volume of the members from each member. -/
theorem multiPhase_spec (parse : String → WellCoords) (ins : TransferInstruction)
    (channel : LHChannelParameter) (hwf : ins.WF)
    (hsrc : sourcesSuffice ins.Volume ins.FVolume) (hm : 1 < channel.Multi)
    (hc : ∀ i < ins.What.length, ∃ fc tc : Nat, fc < 12 ∧ tc < 12
      ∧ orientCoords parse ins channel i = some ((fc : Int), (tc : Int))) :
    ∃ sets mci st1, ins.GetParallelSetsFor parse channel = .ok sets
      ∧ multiSets ins sets { Multi := channel.Multi, Prms := some channel } ins.volumes
          = .ok (mci, st1)
      ∧ (∀ S ∈ sets, (S.length : Int) = channel.Multi
          ∧ ∃ f t : Int, S = parallelGroup parse ins channel f t)
      ∧ List.Forall₂ (setTaken ins.volumes st1) sets mci.Volume
      ∧ ∀ i, (∀ S ∈ sets, i ∉ S) → untouched ins.volumes st1 i := by
  obtain ⟨sets, hsets, hdis, hS, hgroup⟩ := parallelSets_disjoint parse ins channel hm hc
  obtain ⟨mci, st1, ents, hrun, -, -, hvol, -, -, hall, hun⟩ :=
    multiSets_spec ins hwf sets hdis hS { Multi := channel.Multi, Prms := some channel }
      ins.volumes (volumesLength_of_wf ins hwf) (sourcesHold_of_suffice ins hsrc)
  refine ⟨sets, mci, st1, hsets, hrun, hgroup, ?_, hun⟩
  rw [hvol]
  exact hall

theorem remainingEntry_congr (ins : TransferInstruction) (st st2 : TransferVolumesState)
    (j : Nat) (hV : st2.Volume[j]? = st.Volume[j]?) (hF : st2.FVolume[j]? = st.FVolume[j]?)
    (hT : st2.TVolume[j]? = st.TVolume[j]?) :
    remainingEntry ins st2 j = remainingEntry ins st j := by
  simp only [remainingEntry, hV, hF, hT]

/-- One turn of the mop-up loop: the entry of the transfer `i` is added to the single-channel
block unless its remaining volume is below 0.001 ul; only the source and destination
volumes of the transfer `i` change. -/
theorem mopUp_ok (ins : TransferInstruction) (hwf : ins.WF) (i : Nat)
    (hi : i < ins.What.length) (sci : SingleChannelBlockInstruction)
    (st : TransferVolumesState) (hl : volumesLength ins.What.length st)
    (hh : ∀ v f, st.Volume[i]? = some v → st.FVolume[i]? = some f → v.SIValue ≤ f.SIValue) :
    ∃ st2, mopUp ins i (sci, st)
        = .ok ((remainingEntry ins st i).elim sci sci.AddTransferParams, st2)
      ∧ volumesLength ins.What.length st2 ∧ st2.Volume = st.Volume
      ∧ ∀ j, j ≠ i → st2.FVolume[j]? = st.FVolume[j]? ∧ st2.TVolume[j]? = st.TVolume[j]? := by
  obtain ⟨w1, w2, w3, w4, w5, w6, w7, w8, w9⟩ := hwf
  obtain ⟨hlV, hlF, hlT⟩ := hl
  obtain ⟨v, hv⟩ := getElem?_of_lt st.Volume (by rw [hlV]; exact hi : i < st.Volume.length)
  obtain ⟨fv, hfv⟩ := getElem?_of_lt st.FVolume (by rw [hlF]; exact hi : i < st.FVolume.length)
  obtain ⟨tv, htv⟩ := getElem?_of_lt st.TVolume (by rw [hlT]; exact hi : i < st.TVolume.length)
  obtain ⟨a1, h1⟩ := getElem?_of_lt ins.What hi
  obtain ⟨a2, h2⟩ := getElem?_of_lt ins.PltFrom (by rw [w1]; exact hi : i < ins.PltFrom.length)
  obtain ⟨a3, h3⟩ := getElem?_of_lt ins.PltTo (by rw [w2]; exact hi : i < ins.PltTo.length)
  obtain ⟨a4, h4⟩ := getElem?_of_lt ins.WellFrom (by rw [w3]; exact hi : i < ins.WellFrom.length)
  obtain ⟨a5, h5⟩ := getElem?_of_lt ins.WellTo (by rw [w4]; exact hi : i < ins.WellTo.length)
  obtain ⟨a6, h6⟩ := getElem?_of_lt ins.FPlateType (by rw [w6]; exact hi : i < ins.FPlateType.length)
  obtain ⟨a7, h7⟩ := getElem?_of_lt ins.TPlateType (by rw [w7]; exact hi : i < ins.TPlateType.length)
  cases hlt : v.LessThanFloat (1 / 1000) with
  | true =>
    refine ⟨st, ?_, ⟨hlV, hlF, hlT⟩, rfl, fun j _ => ⟨rfl, rfl⟩⟩
    have hre : remainingEntry ins st i = none := by
      simp only [remainingEntry, hv, hlt, bind, Option.bind, if_true]
    rw [hre]
    unfold mopUp
    simp only [idx_of_some hv, hlt, bind, Except.bind, pure, Except.pure, if_true,
      Option.elim]
  | false =>
    have hre : remainingEntry ins st i
        = some { What := a1, PltFrom := a2, PltTo := a3, WellFrom := a4, WellTo := a5,
                 Volume := v, FVolume := fv, TVolume := tv, FPlateType := a6,
                 TPlateType := a7 } := by
      simp only [remainingEntry, hv, hfv, htv, h1, h2, h3, h4, h5, h6, h7, hlt, bind,
        Option.bind, pure]
      rfl
    rw [hre]
    refine ⟨{ st with FVolume := st.FVolume.set i (fv.minus v),
                      TVolume := st.TVolume.set i (tv.Add v) }, ?_,
      ⟨hlV, by simp [hlF], by simp [hlT]⟩, rfl, ?_⟩
    · unfold mopUp
      simp only [idx_of_some hv, idx_of_some hfv, idx_of_some htv,
        idx_of_some h1, idx_of_some h2, idx_of_some h3, idx_of_some h4, idx_of_some h5,
        idx_of_some h6, idx_of_some h7, hlt, subtract_ok (hh v fv hv hfv), bind, Except.bind,
        pure, Except.pure, Option.elim, CopyVolume]
      rfl
    · intro j hj
      simp [List.getElem?_set, Ne.symm hj]

theorem mopUpAll_ok (ins : TransferInstruction) (hwf : ins.WF) (is : List Nat) :
    ∀ (sci : SingleChannelBlockInstruction) (st : TransferVolumesState),
      volumesLength ins.What.length st → is.Nodup → (∀ i ∈ is, i < ins.What.length) →
      (∀ i ∈ is, ∀ v f, st.Volume[i]? = some v → st.FVolume[i]? = some f →
        v.SIValue ≤ f.SIValue) →
      ∃ st2, mopUpAll ins is (sci, st)
          = .ok ((is.filterMap (remainingEntry ins st)).foldl
              SingleChannelBlockInstruction.AddTransferParams sci, st2)
        ∧ st2.Volume = st.Volume := by
  induction is with
  | nil =>
    intro sci st _ _ _ _
    exact ⟨st, rfl, rfl⟩
  | cons i rest ih =>
    intro sci st hl hnd hlt hh
    obtain ⟨st1, hrun, hl1, hV1, hrest1⟩ := mopUp_ok ins hwf i
      (hlt i (List.mem_cons_self _ _)) sci st hl (hh i (List.mem_cons_self _ _))
    have hir : i ∉ rest := (List.nodup_cons.mp hnd).1
    have hne : ∀ j ∈ rest, j ≠ i := fun j hj h => hir (h ▸ hj)
    obtain ⟨st2, hrun2, hV2⟩ := ih ((remainingEntry ins st i).elim sci sci.AddTransferParams)
      st1 hl1 (List.nodup_cons.mp hnd).2 (fun j hj => hlt j (List.mem_cons_of_mem _ hj))
      (fun j hj v f hv hf => hh j (List.mem_cons_of_mem _ hj) v f (by rw [← hV1]; exact hv)
        (by rw [← (hrest1 j (hne j hj)).1]; exact hf))
    have hcongr : rest.filterMap (remainingEntry ins st1)
        = rest.filterMap (remainingEntry ins st) := by
      apply List.filterMap_congr
      intro j hj
      exact remainingEntry_congr ins st st1 j (by rw [hV1]) (hrest1 j (hne j hj)).1
        (hrest1 j (hne j hj)).2
    refine ⟨st2, ?_, by rw [hV2, hV1]⟩
    simp only [mopUpAll, hrun, hrun2, hcongr, List.filterMap_cons]
    cases remainingEntry ins st i <;> rfl

/-- C33: let the slices of a transfer instruction have one entry per transfer and every
source hold at least the volume asked of it; let the policy of the transfer give `CAN_MULTI`
the boolean `can`, and, if `can` is true, let the first head have one channel or the wells
lie within the table of `GetParallelSetsFor`. Then `TransferInstruction.Generate` returns
the multi-channel block, and first, iff `can` is true and there is at least one parallel
set, followed by exactly one single-channel block; that block holds, in their order, the
entries `remainingEntry` of the transfers: those whose volume after the multi-channel phase
(`st1`) is not below 0.001 ul, each with that volume. -/
theorem C33_emit_order {σ : Type} (parse : String → WellCoords) (ins : TransferInstruction)
    (policy policy2 : LHPolicyRuleSet) (prms : LHProperties σ) (pol : LHPolicy) (can : Bool)
    (head0 : LHHead) (hwf : ins.WF) (hsrc : sourcesSuffice ins.Volume ins.FVolume)
    (hpol : policy.GetPolicyFor (.transfer ins) = .ok (pol, policy2))
    (hcan : pol.get "CAN_MULTI" = some (.bool can))
    (hhead : prms.HeadsLoaded[0]? = some head0)
    (hc : can = true → head0.Params.val.Multi = 1 ∨ (1 < head0.Params.val.Multi
      ∧ ∀ i < ins.What.length, ∃ fc tc : Nat, fc < 12 ∧ tc < 12
        ∧ orientCoords parse ins head0.Params.val i = some ((fc : Int), (tc : Int)))) :
    ∃ sets mci st1 ins2,
      (can = true → ins.GetParallelSetsFor parse head0.Params.val = .ok sets
        ∧ multiSets ins sets
            { Multi := head0.Params.val.Multi, Prms := some head0.Params.val } ins.volumes
          = .ok (mci, st1))
      ∧ (can = false → sets = [] ∧ st1 = ins.volumes)
      ∧ ins.Generate parse policy prms
        = .ok ((if can = true ∧ sets ≠ [] then [RobotInstruction.multiChannelBlock mci]
                else [])
              ++ [.singleChannelBlock
                  (((List.range ins.What.length).filterMap (remainingEntry ins st1)).foldl
                    SingleChannelBlockInstruction.AddTransferParams
                    { Prms := some head0.Params.val })],
            ins2, policy2) := by
  have hl0 := volumesLength_of_wf ins hwf
  have hh0 := sourcesHold_of_suffice ins hsrc
  -- the multi-channel phase
  have hphase : ∃ sets mci st1,
      (can = true → ins.GetParallelSetsFor parse head0.Params.val = .ok sets
        ∧ multiSets ins sets
            { Multi := head0.Params.val.Multi, Prms := some head0.Params.val } ins.volumes
          = .ok (mci, st1))
      ∧ (can = false → sets = [] ∧ st1 = ins.volumes)
      ∧ volumesLength ins.What.length st1 ∧ sourcesHold st1 := by
    cases can with
    | false =>
      exact ⟨[], {}, ins.volumes, (fun h => nomatch h), fun _ => ⟨rfl, rfl⟩, hl0, hh0⟩
    | true =>
      rcases hc rfl with h1 | ⟨hm, hcoord⟩
      · refine ⟨[], _, ins.volumes, fun _ => ⟨?_, rfl⟩, (fun h => nomatch h), hl0, hh0⟩
        simp only [TransferInstruction.GetParallelSetsFor, if_pos h1]
      · obtain ⟨sets, hsets, hdis, hS, -⟩ :=
          parallelSets_disjoint parse ins head0.Params.val hm hcoord
        obtain ⟨mci, st1, ents, hrun, hl1, hh1, -⟩ :=
          multiSets_spec ins hwf sets hdis hS
            { Multi := head0.Params.val.Multi, Prms := some head0.Params.val }
            ins.volumes hl0 hh0
        exact ⟨sets, mci, st1, fun _ => ⟨hsets, hrun⟩, (fun h => nomatch h), hl1, hh1⟩
  obtain ⟨sets, mci, st1, hT, hF, hl1, hh1⟩ := hphase
  obtain ⟨st2, hmop, hV2⟩ := mopUpAll_ok ins hwf (List.range ins.What.length)
    { Prms := some head0.Params.val } st1 hl1 (List.nodup_range _)
    (fun i hi => List.mem_range.mp hi) (fun i _ v f hv hf => hh1 i v f hv hf)
  refine ⟨sets, mci, st1,
    { ins with Volume := st2.Volume, FVolume := st2.FVolume, TVolume := st2.TVolume },
    hT, hF, ?_⟩
  unfold TransferInstruction.Generate
  cases can with
  | false =>
    obtain ⟨rfl, rfl⟩ := hF rfl
    simp only [hpol, bool_of_get hcan, idx_of_some hhead, bind, Except.bind, pure, Except.pure]
    simp only [TransferInstruction.volumes] at hmop
    simp [hmop]
    rfl
  | true =>
    obtain ⟨hsets, hrun⟩ := hT rfl
    simp only [TransferInstruction.volumes] at hrun
    simp only [hpol, bool_of_get hcan, idx_of_some hhead, hsets, hrun, hmop, bind, Except.bind,
      pure, Except.pure, if_true]
    cases sets with
    | nil => simp [hmop]
    | cons S rest => simp [hmop]

/-- C32: let the slices of a transfer instruction have one entry per transfer and every
source hold at least the volume asked of it; let the policy of the transfer give `CAN_MULTI`
the value true, and the first head have one channel, or several with the wells lying within
the table of `GetParallelSetsFor`. Then `TransferInstruction.Generate` returns, before the
single-channel block, the multi-channel block `mci` if there is a parallel set, and `mci`
has the parameters of the first head and exactly one entry per parallel set of that head, in
order (each set a group of `multi` transfers that share the pair of orient-coordinates); the
entry of a set `S` carries for every member the volume `m`, the least of the volumes of the
members of `S`. Each member of `S` is left with its volume less `m`, its source volume less
`m` and its destination volume plus `m`, and the volumes of a transfer in no set are
unchanged by this phase (`st1`); the volumes of the instruction after the call are those of
`st1`, and the single-channel block is built from the volumes `st1`. -/
theorem C32_multi_phase {σ : Type} (parse : String → WellCoords) (ins : TransferInstruction)
    (policy policy2 : LHPolicyRuleSet) (prms : LHProperties σ) (pol : LHPolicy)
    (head0 : LHHead) (hwf : ins.WF) (hsrc : sourcesSuffice ins.Volume ins.FVolume)
    (hpol : policy.GetPolicyFor (.transfer ins) = .ok (pol, policy2))
    (hcan : pol.get "CAN_MULTI" = some (.bool true))
    (hhead : prms.HeadsLoaded[0]? = some head0)
    (hc : head0.Params.val.Multi = 1 ∨ (1 < head0.Params.val.Multi
      ∧ ∀ i < ins.What.length, ∃ fc tc : Nat, fc < 12 ∧ tc < 12
        ∧ orientCoords parse ins head0.Params.val i = some ((fc : Int), (tc : Int)))) :
    ∃ sets mci st1 ins2,
      ins.GetParallelSetsFor parse head0.Params.val = .ok sets
      ∧ (∀ S ∈ sets, (S.length : Int) = head0.Params.val.Multi
          ∧ ∃ f t : Int, S = parallelGroup parse ins head0.Params.val f t)
      ∧ ins.Generate parse policy prms
        = .ok ((if sets ≠ [] then [RobotInstruction.multiChannelBlock mci] else [])
              ++ [.singleChannelBlock
                  (((List.range ins.What.length).filterMap (remainingEntry ins st1)).foldl
                    SingleChannelBlockInstruction.AddTransferParams
                    { Prms := some head0.Params.val })],
            ins2, policy2)
      ∧ mci.Multi = head0.Params.val.Multi ∧ mci.Prms = some head0.Params.val
      ∧ List.Forall₂ (setTaken ins.volumes st1) sets mci.Volume
      ∧ (∀ i, (∀ S ∈ sets, i ∉ S) → untouched ins.volumes st1 i)
      ∧ ins2.Volume = st1.Volume := by
  have hl0 := volumesLength_of_wf ins hwf
  have hh0 := sourcesHold_of_suffice ins hsrc
  have hphase : ∃ sets mci st1,
      ins.GetParallelSetsFor parse head0.Params.val = .ok sets
      ∧ (∀ S ∈ sets, (S.length : Int) = head0.Params.val.Multi
          ∧ ∃ f t : Int, S = parallelGroup parse ins head0.Params.val f t)
      ∧ multiSets ins sets
            { Multi := head0.Params.val.Multi, Prms := some head0.Params.val } ins.volumes
          = .ok (mci, st1)
      ∧ volumesLength ins.What.length st1 ∧ sourcesHold st1
      ∧ mci.Multi = head0.Params.val.Multi ∧ mci.Prms = some head0.Params.val
      ∧ List.Forall₂ (setTaken ins.volumes st1) sets mci.Volume
      ∧ (∀ i, (∀ S ∈ sets, i ∉ S) → untouched ins.volumes st1 i) := by
    rcases hc with h1 | ⟨hm, hcoord⟩
    · refine ⟨[], { Multi := head0.Params.val.Multi, Prms := some head0.Params.val },
        ins.volumes, ?_, ?_, rfl, hl0, hh0, rfl, rfl, List.Forall₂.nil,
        fun i _ => ⟨rfl, rfl, rfl⟩⟩
      · simp only [TransferInstruction.GetParallelSetsFor, if_pos h1]
      · intro S hS
        cases hS
    · obtain ⟨sets, hsets, hdis, hS, hgroup⟩ :=
        parallelSets_disjoint parse ins head0.Params.val hm hcoord
      obtain ⟨mci, st1, ents, hrun, hl1, hh1, hvol, hmulti, hprms, hall, hun⟩ :=
        multiSets_spec ins hwf sets hdis hS
          { Multi := head0.Params.val.Multi, Prms := some head0.Params.val }
          ins.volumes hl0 hh0
      refine ⟨sets, mci, st1, hsets, hgroup, hrun, hl1, hh1, hmulti, hprms, ?_, hun⟩
      rw [hvol]
      exact hall
  obtain ⟨sets, mci, st1, hsets, hgroup, hrun, hl1, hh1, hmulti, hprms, hall, hun⟩ := hphase
  obtain ⟨st2, hmop, hV2⟩ := mopUpAll_ok ins hwf (List.range ins.What.length)
    { Prms := some head0.Params.val } st1 hl1 (List.nodup_range _)
    (fun i hi => List.mem_range.mp hi) (fun i _ v f hv hf => hh1 i v f hv hf)
  refine ⟨sets, mci, st1,
    { ins with Volume := st2.Volume, FVolume := st2.FVolume, TVolume := st2.TVolume },
    hsets, hgroup, ?_, hmulti, hprms, hall, hun, hV2⟩
  unfold TransferInstruction.Generate
  simp only [TransferInstruction.volumes] at hrun
  simp only [hpol, bool_of_get hcan, idx_of_some hhead, hsets, hrun, hmop, bind, Except.bind,
    pure, Except.pure, if_true]
  cases sets with
  | nil => simp [hmop]
  | cons S rest => simp [hmop]

/-- C32 (witness): for the eight transfers of 20 ul from `A1..H1` to `A2..H2`, on a vertical
head of eight channels with `CAN_MULTI` true, there is one parallel set, of the eight
transfers: `Generate` returns a multi-channel block with one entry of eight volumes of 20 ul,
followed by a single-channel block without entries, and leaves every remaining volume at
zero. -/
theorem C32_multi_phase_witness :
    ∃ mci ins2,
      columnTransfer.Generate MakeWellCoordsA1 (multiPolicy 100) multiHardware
        = .ok ([.multiChannelBlock mci,
                .singleChannelBlock { Prms := some (multiHead 8).Params.val }],
            ins2, multiPolicy 100)
      ∧ mci.Volume = [List.replicate 8 ⟨20, ul⟩]
      ∧ ins2.Volume = List.replicate 8 ⟨0, ul⟩ := by
  obtain ⟨sets, mci, st1, ins2, h1, -, h3, -, -, -, -, -⟩ :=
    C32_multi_phase MakeWellCoordsA1 columnTransfer (multiPolicy 100) (multiPolicy 100)
      multiHardware ((exampleDefault.set "CAN_MULTI" (.bool true)).set "TIP_REUSE_LIMIT"
        (.int 100)) (multiHead 8) (by decide) (by decide!) (by decide!) (by decide!) rfl
      (Or.inr ⟨by decide, by
        intro i hi
        refine ⟨0, 1, by decide, by decide, ?_⟩
        have hi8 : i < 8 := hi
        interval_cases i <;> decide!⟩)
  have hs : columnTransfer.GetParallelSetsFor MakeWellCoordsA1 (multiHead 8).Params.val
      = .ok [[0, 1, 2, 3, 4, 5, 6, 7]] := by decide!
  rw [hs] at h1
  cases h1
  rw [if_pos (List.cons_ne_nil _ _)] at h3
  have hv : (columnTransfer.Generate MakeWellCoordsA1 (multiPolicy 100) multiHardware).map
      (fun r => (r.1.map (fun c => match c with
          | .multiChannelBlock b => (b.Volume, none)
          | .singleChannelBlock b => ([], some b)
          | _ => ([], none)), r.2.1.Volume))
      = .ok ([([List.replicate 8 ⟨20, ul⟩], none),
              ([], some { Prms := some (multiHead 8).Params.val })],
            List.replicate 8 ⟨0, ul⟩) := by decide!
  rw [h3] at hv
  simp only [Except.map, List.cons_append, List.nil_append, List.map_cons, List.map_nil,
    Except.ok.injEq, Prod.mk.injEq, List.cons.injEq, and_true, true_and,
    Option.some.injEq] at hv
  obtain ⟨⟨hv1, hv2⟩, hv3⟩ := hv
  rw [hv2] at h3
  exact ⟨mci, ins2, h3, hv1, hv3⟩

/-- C33 (witness): eight transfers `A1..H1` to `A2..H2` of 20 ul, the last of 30 ul, on a
vertical head of eight channels with `CAN_MULTI` true: `Generate` returns a multi-channel
block and then a single-channel block, which holds the one transfer that is left, `H1` to
`H2`, with its remaining 10 ul. -/
theorem C33_emit_order_witness :
    (∃ mci sci ins2, unevenColumn.Generate MakeWellCoordsA1 (multiPolicy 100) multiHardware
        = .ok ([.multiChannelBlock mci, .singleChannelBlock sci], ins2, multiPolicy 100))
      ∧ (unevenColumn.Generate MakeWellCoordsA1 (multiPolicy 100) multiHardware).map
          (fun r => r.1.map (fun c => match c with
            | .multiChannelBlock b => (MCB, b.Volume.flatten, [])
            | .singleChannelBlock b => (SCB, b.Volume, b.WellFrom)
            | _ => (0, [], [])))
        = .ok [(MCB, List.replicate 8 ⟨20, ul⟩, []), (SCB, [⟨10, ul⟩], ["H1"])] := by
  obtain ⟨sets, mci, st1, ins2, h1, -, h3⟩ :=
    C33_emit_order MakeWellCoordsA1 unevenColumn (multiPolicy 100) (multiPolicy 100)
      multiHardware ((exampleDefault.set "CAN_MULTI" (.bool true)).set "TIP_REUSE_LIMIT"
        (.int 100)) true (multiHead 8) (by decide) (by decide!) (by decide!) (by decide!) rfl
      (fun _ => Or.inr ⟨by decide, by
        intro i hi
        refine ⟨0, 1, by decide, by decide, ?_⟩
        have hi8 : i < 8 := hi
        interval_cases i <;> decide!⟩)
  have hs : unevenColumn.GetParallelSetsFor MakeWellCoordsA1 (multiHead 8).Params.val
      = .ok [[0, 1, 2, 3, 4, 5, 6, 7]] := by decide!
  rw [hs] at h1
  have hsets := (h1 rfl).1
  cases hsets
  rw [if_pos ⟨rfl, List.cons_ne_nil _ _⟩] at h3
  exact ⟨⟨mci, _, ins2, h3⟩, by decide!⟩

/-! ## Chunks of a single-channel block in mixed units -/

/-- C34 (evaluation of the code): a block with the one entry `V = 1 ml`, `F = 2000000 ul`,
`T = 0 ul` on a channel of 1 to 300 ul lowers without fault to four single-channel transfers
of 250 ml each: the chunks sum to one litre, not to `V`, which is a thousandth of a litre.
The transfers record the source volumes 2000000, 1750000, 1500000 and 1250000 ul, and the
loop leaves the entry with a source volume of 1000000 ul and a destination volume of
1000000 ul, where `F - V` is 1999000 ul and `T + V` is 1000 ul. -/
theorem C34_chunks_in_mixed_units :
    (millilitreBlock.Generate counterTips exampleState.policy wideHardware).map
        (fun r => r.1.filterMap transferView)
      = .ok [(some ⟨250, ml⟩, some ⟨2000000, ul⟩, some ⟨0, ul⟩),
             (some ⟨250, ml⟩, some ⟨1750000, ul⟩, some ⟨250000, ul⟩),
             (some ⟨250, ml⟩, some ⟨1500000, ul⟩, some ⟨500000, ul⟩),
             (some ⟨250, ml⟩, some ⟨1250000, ul⟩, some ⟨750000, ul⟩)]
    ∧ sumSI [⟨250, ml⟩, ⟨250, ml⟩, ⟨250, ml⟩, ⟨250, ml⟩] = 1
    ∧ (Volume.mk 1 ml).SIValue = 1 / 1000
    ∧ ((ChooseChannel ⟨1, ml⟩ wideHardware (.alloc 0)).bind (fun ct =>
        millilitreBlock.entries counterTips exampleDefault [0]
          { channel := ct.1, tiptype := ct.2, n_tip_uses := 0,
            FVolume := millilitreBlock.FVolume, TVolume := millilitreBlock.TVolume,
            prms := wideHardware })).map (fun r => (r.2.FVolume, r.2.TVolume))
      = .ok ([⟨1000000, ul⟩], [⟨1000000, ul⟩])
    ∧ ((Volume.mk 2000000 ul).minus ⟨1, ml⟩, (Volume.mk 0 ul).Add ⟨1, ml⟩)
      = (⟨1999000, ul⟩, ⟨1000, ul⟩) := by
  decide!

/-! ## Export filtering -/

theorem fieldName_filterType (f : Filter) (e : Bool) (typ : Expr) :
    fieldName (filterType f e typ).1 = fieldName typ := by
  cases typ <;> simp [filterType, fieldName]

theorem filter_names (f : Filter) (names : List Ident) :
    (filterIdentList names f).map (fun x => x.Name) = (names.map (fun x => x.Name)).filter f := by
  simp [filterIdentList, List.filter_map, Function.comp_def]

theorem filterField_view (f : Filter) (e : Bool) (fld : Field) :
    (filterField f e fld).1.map Field.view = exportedField f fld.view := by
  obtain ⟨doc, names, typ, comment⟩ := fld
  by_cases hn : names.length = 0
  · have hnil : names = [] := List.length_eq_zero.mp hn
    subst hnil
    cases hf : fieldName typ with
    | none =>
      simp [filterField, exportedField, Field.view, Field.fieldNames, Field.Names, Field.Type_, hf]
    | some name =>
      by_cases hp : f name.Name = true
      · cases e <;>
          simp [filterField, exportedField, Field.view, Field.fieldNames, Field.Names,
            Field.Type_, Field.Doc, Field.Comment, hf, hp, fieldName_filterType]
      · simp [filterField, exportedField, Field.view, Field.fieldNames, Field.Names,
          Field.Type_, hf, hp]
  · have hview : (Field.mk doc names typ comment).view
        = (doc, names.map (fun x => x.Name), comment) := by
      simp [Field.view, Field.fieldNames, Field.Names, Field.Doc, Field.Comment, hn]
    rw [hview]
    have hlen : ((names.map (fun x => x.Name)).filter f).length
        = (filterIdentList names f).length := by
      rw [← filter_names, List.length_map]
    by_cases h2 : (filterIdentList names f).length = 0
    · have h2b : ¬ (filterIdentList names f).length > 0 := by omega
      simp only [filterField, if_neg hn, if_neg h2b, exportedField, hlen, h2, if_true]
      rfl
    · have h2b : (filterIdentList names f).length > 0 := by omega
      simp only [filterField, if_neg hn, if_pos h2b, exportedField, hlen, h2, if_false,
        Option.map_some']
      simp only [Field.view, Field.fieldNames, Field.Names, Field.Doc, Field.Comment, h2,
        if_false, filter_names]

theorem filterFieldLoop_view (f : Filter) (e : Bool) (fields : List Field) :
    (filterFieldLoop f e fields).1.map Field.view = exportedFields f (fields.map Field.view) := by
  induction fields with
  | nil => simp [filterFieldLoop, exportedFields]
  | cons fld rest ih =>
    have h := filterField_view f e fld
    rw [filterFieldLoop]
    cases hr : filterField f e fld with
    | mk kept removed =>
      rw [hr] at h
      cases kept with
      | none =>
        simp only [Option.map_none'] at h
        simp only [exportedFields, List.map_cons, List.filterMap_cons, ← h]
        simpa [exportedFields] using ih
      | some k =>
        simp only [Option.map_some'] at h
        simp only [exportedFields, List.map_cons, List.filterMap_cons, ← h]
        simpa [exportedFields] using ih

theorem filterType_struct (f : Filter) (e : Bool) (fields : List Field) (incomplete : Bool) :
    (filterType f e (.structType fields incomplete)).1
      = .structType (filterFieldList f e fields).1
          (if (filterFieldList f e fields).2 then true else incomplete) := by
  simp [filterType, filterFieldList]

theorem structOfSpec_filterType (f : Filter) (doc : Option CommentGroup) (name : Ident)
    (typ : Expr) (comment : Option CommentGroup) :
    structOfSpec (.typeSpec doc name (filterType f true typ).1 comment)
      = (structOfSpec (.typeSpec doc name typ comment)).map
          (fun s => (s.1, exportedFields f s.2)) := by
  cases typ <;> simp [filterType, structOfSpec]
  simp [fieldListResult, filterFieldLoop_view]

theorem filterSpec_struct (f : Filter) (s : Spec) :
    (if (filterSpec f true s).2 then structOfSpec (filterSpec f true s).1 else none)
      = (structOfSpec s).bind (exportedStruct f) := by
  cases s with
  | importSpec path => simp [filterSpec, structOfSpec]
  | valueSpec doc names typ comment =>
    simp only [filterSpec]
    split <;> simp [structOfSpec]
  | typeSpec doc name typ comment =>
    by_cases hp : f name.Name = true
    · simp only [filterSpec, if_pos hp, if_true, structOfSpec_filterType]
      cases typ <;> simp [structOfSpec, exportedStruct, hp]
    · simp only [filterSpec, if_neg hp, Bool.not_true, Bool.false_eq_true, if_false]
      cases typ <;> simp [structOfSpec, exportedStruct, hp]

theorem filterSpec_typeName (f : Filter) (s : Spec) :
    (if (filterSpec f true s).2 then typeNameOfSpec (filterSpec f true s).1 else none)
      = (typeNameOfSpec s).bind (fun n => if f n then some n else none) := by
  cases s with
  | importSpec path => simp [filterSpec, typeNameOfSpec]
  | valueSpec doc names typ comment =>
    simp only [filterSpec]
    split <;> simp [typeNameOfSpec]
  | typeSpec doc name typ comment =>
    by_cases hp : f name.Name = true
    · simp [filterSpec, hp, typeNameOfSpec]
    · simp [filterSpec, hp, typeNameOfSpec]

theorem filterSpecList_project {α : Type} (f : Filter) (p : Spec → Option α) (q : α → Option α)
    (h : ∀ s, (if (filterSpec f true s).2 then p (filterSpec f true s).1 else none)
      = (p s).bind q) (specs : List Spec) :
    (filterSpecList f true specs).filterMap p = (specs.filterMap p).filterMap q := by
  induction specs with
  | nil => simp [filterSpecList]
  | cons s rest ih =>
    have hs := h s
    simp only [filterSpecList] at ih ⊢
    rw [List.filterMap_cons]
    cases hb : (filterSpec f true s).2
    · rw [hb] at hs
      simp only [Bool.false_eq_true, if_false] at hs ⊢
      rw [ih, List.filterMap_cons]
      cases hp : p s with
      | none => rfl
      | some a =>
        rw [hp] at hs
        simp only [Option.some_bind] at hs
        simp only [List.filterMap_cons, ← hs]
    · rw [hb] at hs
      simp only [if_true] at hs ⊢
      rw [List.filterMap_cons, ih, List.filterMap_cons]
      rw [hs]
      cases hp : p s with
      | none => rfl
      | some a => simp only [Option.some_bind, List.filterMap_cons]

theorem filterDecl_project {α : Type} (f : Filter) (p : Spec → Option α) (q : α → Option α)
    (h : ∀ s, (if (filterSpec f true s).2 then p (filterSpec f true s).1 else none)
      = (p s).bind q) (d : Decl) :
    (if (filterDecl f true d).2 then (filterDecl f true d).1.Specs.filterMap p else [])
      = (d.Specs.filterMap p).filterMap q := by
  cases d with
  | badDecl => simp [filterDecl, Decl.Specs]
  | funcDecl doc name typ => simp [filterDecl, Decl.Specs]
  | genDecl doc tok specs =>
    simp only [filterDecl, Decl.Specs, ← filterSpecList_project f p q h]
    cases hl : filterSpecList f true specs with
    | nil => simp
    | cons a l => simp

theorem filterFile_project {α : Type} (f : Filter) (p : Spec → Option α) (q : α → Option α)
    (h : ∀ s, (if (filterSpec f true s).2 then p (filterSpec f true s).1 else none)
      = (p s).bind q) (src : File) :
    (filterFile f true src).1.Decls.flatMap (fun d => d.Specs.filterMap p)
      = (src.Decls.flatMap (fun d => d.Specs.filterMap p)).filterMap q := by
  simp only [filterFile]
  induction src.Decls with
  | nil => simp
  | cons d rest ih =>
    have hd := filterDecl_project f p q h d
    rw [List.filterMap_cons, List.flatMap_cons, List.filterMap_append, ← ih, ← hd]
    cases hb : (filterDecl f true d).2 <;> simp

/-- C31: after `FileExports`, the struct types that the file still declares are those of the
file with an exported name, in their order, and in each of them every field keeps the names
that are exported, in their order, with its lead and line comments, and a field without an
exported name is gone; the types that the file declares are those with an exported name. The
same holds of the fields of every struct type that the filter reaches. In the file of
`TestLeadAndLineComments`, `F1` and `F2` are found with their comments after the call and
`f3`, found before, is not. -/
theorem C31_exports_keep_exported_fields (file : File) :
    (FileExports file).1.structs = exportedStructs exportFilter file.structs
    ∧ (FileExports file).1.typeNames = file.typeNames.filter exportFilter
    ∧ (FileExports file).1.Comments = file.Comments
    ∧ (∀ (fields : List Field) (incomplete : Bool), ∃ incomplete2,
        (filterType exportFilter true (.structType fields incomplete)).1
          = .structType (filterFieldList exportFilter true fields).1 incomplete2
        ∧ (filterFieldList exportFilter true fields).1.map Field.view
          = exportedFields exportFilter (fields.map Field.view))
    ∧ fieldComments (getField leadAndLineFile "T" "f3")
        = some ("// f3 lead comment", "// f3 line comment")
    ∧ fieldComments (getField (FileExports leadAndLineFile).1 "T" "F1")
        = some ("/* F1 lead comment *///", "/* F1 */// line comment")
    ∧ fieldComments (getField (FileExports leadAndLineFile).1 "T" "F2")
        = some ("// F2 lead// comment", "// F2 line comment")
    ∧ fieldComments (getField (FileExports leadAndLineFile).1 "T" "f3") = none
    ∧ (FileExports leadAndLineFile).2 = true := by
  refine ⟨?_, ?_, rfl, ?_, by decide, by decide, by decide, by decide, by decide⟩
  · exact filterFile_project exportFilter structOfSpec (exportedStruct exportFilter)
      (filterSpec_struct exportFilter) file
  · have h := filterFile_project exportFilter typeNameOfSpec
      (fun n => if exportFilter n then some n else none) (filterSpec_typeName exportFilter) file
    simp only [FileExports, File.typeNames, h]
    induction file.Decls.flatMap (fun d => d.Specs.filterMap typeNameOfSpec) with
    | nil => rfl
    | cons n rest ih =>
      rw [List.filterMap_cons, List.filter_cons]
      cases hn : exportFilter n <;> simp [ih]
  · intro fields incomplete
    exact ⟨_, filterType_struct exportFilter true fields incomplete,
      filterFieldLoop_view exportFilter true fields⟩

end Antha
